import Mathlib

/-!
# sticker.ly-downloader: a verification development

A shallow embedding of `main.go` and theorems about it.

* Go strings are modelled as Lean strings, i.e. sequences of Unicode scalar
  values. Path separators and all JSON syntax are ASCII, so nothing below
  depends on the byte encoding.
* The standard library (`encoding/json`, `path/filepath`, `strconv`) is modelled
  by executable definitions that follow the library algorithms.
* The network and the file system are an explicit environment (`Env`, `FS`):
  the functions of `main.go` become state-passing functions over a `World`.
* Paths are resolved lexically; there are no symbolic links.

Limits of the model:

* Go's `int` is taken to be 64 bits wide.
* Command-line parsing is abstracted: `main` takes the value of the `-pack`
  flag as `flag.Parse` leaves it.
* The recursive functions of the JSON reader take fuel; their entry points
  pass the length of the input plus one. The decoder's bound on nesting depth
  (10000 levels) is not modelled.
* When an object repeats a key of a slice field, the decoder reuses the
  elements of the slice it has; elements left over beyond the length of an
  earlier, shorter array are not modelled.
* The encoder writes backspace and form feed as `\b` and `\f` (Go 1.22 and
  later); older releases write `\u0008` and `\u000c`, which the reader
  accepts as well.
* The wording of syntax and type errors of the decoder is not modelled, only
  whether decoding fails.
-/

namespace StickerLy

/-! ## JSON text: the wire format handled by `encoding/json` -/

/-- A JSON document tree. Number literals keep their source text, as the Go
decoder converts them only once the target field type is known. -/
inductive JSON where
  | null
  | bool (b : Bool)
  | num (lit : List Char)
  | str (s : List Char)
  | arr (xs : List JSON)
  | obj (kvs : List (List Char × JSON))

/-- The four insignificant whitespace characters of JSON. -/
def isSpace (c : Char) : Bool :=
  c == ' ' || c == '\t' || c == '\r' || c == '\n'

/-- ASCII decimal digit test. -/
def isDigit (c : Char) : Bool :=
  decide ('0'.toNat ≤ c.toNat) && decide (c.toNat ≤ '9'.toNat)

/-- Drop leading JSON whitespace. -/
def skipSpace : List Char → List Char
  | [] => []
  | c :: cs => if isSpace c then skipSpace cs else c :: cs

/-- Lower-case hexadecimal digit of a nibble (the `hex` table of the encoder). -/
def hexDigit (n : Nat) : Char :=
  if n < 10 then Char.ofNat (48 + n) else Char.ofNat (87 + n)

/-- Value of a hexadecimal digit, either case. -/
def hexVal (c : Char) : Option Nat :=
  if '0'.toNat ≤ c.toNat ∧ c.toNat ≤ '9'.toNat then some (c.toNat - 48)
  else if 'a'.toNat ≤ c.toNat ∧ c.toNat ≤ 'f'.toNat then some (c.toNat - 87)
  else if 'A'.toNat ≤ c.toNat ∧ c.toNat ≤ 'F'.toNat then some (c.toNat - 55)
  else none

/-- Four hexadecimal digits read as a 16-bit code unit. -/
def hex4 : List Char → Option Nat
  | a :: b :: c :: d :: _ =>
    match hexVal a, hexVal b, hexVal c, hexVal d with
    | some x, some y, some z, some w => some (((x * 16 + y) * 16 + z) * 16 + w)
    | _, _, _, _ => none
  | _ => none

/-- The decoder's `getu4`: the code unit of a leading `\uXXXX`, if there is one. -/
def getu4 : List Char → Option Nat
  | c :: u :: rest => if c = '\\' ∧ u = 'u' then hex4 rest else none
  | _ => none

/-- Single-character escapes accepted after a backslash. -/
def simpleEscape (e : Char) : Option Char :=
  if e = '"' then some '"'
  else if e = '\\' then some '\\'
  else if e = '/' then some '/'
  else if e = 'b' then some '\x08'
  else if e = 'f' then some '\x0c'
  else if e = 'n' then some '\n'
  else if e = 'r' then some '\r'
  else if e = 't' then some '\t'
  else none

/-- The Unicode replacement character substituted for unpaired surrogates. -/
def replacementChar : Char := Char.ofNat 0xFFFD

/-- Body of a string literal after the opening quote: returns the unquoted
text and the input following the closing quote. -/
def parseStrBody : Nat → List Char → Option (List Char × List Char)
  | 0, _ => none
  | _ + 1, [] => none
  | fuel + 1, c :: rest =>
    if c = '"' then some ([], rest)
    else if c = '\\' then
      match rest with
      | [] => none
      | e :: rest1 =>
        if e = 'u' then
          match hex4 rest1 with
          | none => none
          | some rr =>
            let rest2 := rest1.drop 4
            if 0xD800 ≤ rr ∧ rr < 0xE000 then
              match getu4 rest2 with
              | some rr1 =>
                if rr < 0xDC00 ∧ 0xDC00 ≤ rr1 ∧ rr1 < 0xE000 then
                  (parseStrBody fuel (rest2.drop 6)).map fun p =>
                    (Char.ofNat ((rr - 0xD800) * 1024 + (rr1 - 0xDC00) + 0x10000) :: p.1, p.2)
                else (parseStrBody fuel rest2).map fun p => (replacementChar :: p.1, p.2)
              | none => (parseStrBody fuel rest2).map fun p => (replacementChar :: p.1, p.2)
            else (parseStrBody fuel rest2).map fun p => (Char.ofNat rr :: p.1, p.2)
        else
          match simpleEscape e with
          | some ch => (parseStrBody fuel rest1).map fun p => (ch :: p.1, p.2)
          | none => none
    else if c.toNat < 0x20 then none
    else (parseStrBody fuel rest).map fun p => (c :: p.1, p.2)

/-- A string literal whose opening quote has been consumed. -/
def parseString (cs : List Char) : Option (List Char × List Char) :=
  parseStrBody (cs.length + 1) cs

/-- Exponent part of a number literal. -/
def scanExp (lit cs : List Char) : Option (List Char × List Char) :=
  match cs with
  | e :: t =>
    if e = 'e' ∨ e = 'E' then
      let sg : List Char := match t with
        | s :: _ => if s = '+' ∨ s = '-' then [s] else []
        | [] => []
      let t1 := t.drop sg.length
      let ds := t1.takeWhile isDigit
      if ds = [] then none else some (lit ++ e :: sg ++ ds, t1.dropWhile isDigit)
    else some (lit, cs)
  | [] => some (lit, cs)

/-- Fraction part of a number literal. -/
def scanFrac (lit cs : List Char) : Option (List Char × List Char) :=
  match cs with
  | p :: t =>
    if p = '.' then
      let ds := t.takeWhile isDigit
      if ds = [] then none else scanExp (lit ++ p :: ds) (t.dropWhile isDigit)
    else scanExp lit cs
  | [] => some (lit, cs)

/-- Integer part of a number literal, after the optional sign. -/
def scanInt (sign cs : List Char) : Option (List Char × List Char) :=
  match cs with
  | c :: t =>
    if c = '0' then scanFrac (sign ++ [c]) t
    else if isDigit c then scanFrac (sign ++ c :: t.takeWhile isDigit) (t.dropWhile isDigit)
    else none
  | [] => none

/-- A JSON number literal: returns its text and the remaining input. -/
def scanNumber (cs : List Char) : Option (List Char × List Char) :=
  match cs with
  | c :: t => if c = '-' then scanInt [c] t else scanInt [] cs
  | [] => none

/-- Strip an expected keyword from the input. -/
def expect (kw cs : List Char) : Option (List Char) :=
  if kw.isPrefixOf cs then some (cs.drop kw.length) else none

mutual
/-- Recursive-descent reading of one JSON value at the head of the input
(leading whitespace already skipped). -/
def parseValue : Nat → List Char → Option (JSON × List Char)
  | 0, _ => none
  | _ + 1, [] => none
  | fuel + 1, c :: rest =>
    if c = '{' then
      match skipSpace rest with
      | [] => none
      | c1 :: rest1 =>
        if c1 = '}' then some (.obj [], rest1)
        else (parseMembers fuel (c1 :: rest1)).map fun p => (.obj p.1, p.2)
    else if c = '[' then
      match skipSpace rest with
      | [] => none
      | c1 :: rest1 =>
        if c1 = ']' then some (.arr [], rest1)
        else (parseElems fuel (c1 :: rest1)).map fun p => (.arr p.1, p.2)
    else if c = '"' then (parseString rest).map fun p => (.str p.1, p.2)
    else if c = 't' then (expect ['r', 'u', 'e'] rest).map fun r => (.bool true, r)
    else if c = 'f' then (expect ['a', 'l', 's', 'e'] rest).map fun r => (.bool false, r)
    else if c = 'n' then (expect ['u', 'l', 'l'] rest).map fun r => (.null, r)
    else (scanNumber (c :: rest)).map fun p => (.num p.1, p.2)
/-- Elements of a non-empty array up to and including the closing bracket. -/
def parseElems : Nat → List Char → Option (List JSON × List Char)
  | 0, _ => none
  | fuel + 1, cs =>
    match parseValue fuel cs with
    | none => none
    | some (v, rest) =>
      match skipSpace rest with
      | [] => none
      | c :: rest1 =>
        if c = ',' then (parseElems fuel (skipSpace rest1)).map fun p => (v :: p.1, p.2)
        else if c = ']' then some ([v], rest1)
        else none
/-- Members of a non-empty object up to and including the closing brace. -/
def parseMembers : Nat → List Char → Option (List (List Char × JSON) × List Char)
  | 0, _ => none
  | _ + 1, [] => none
  | fuel + 1, q :: cs =>
    if q = '"' then
      match parseString cs with
      | none => none
      | some (k, rest) =>
        match skipSpace rest with
        | [] => none
        | c :: rest1 =>
          if c = ':' then
            match parseValue fuel (skipSpace rest1) with
            | none => none
            | some (v, rest2) =>
              match skipSpace rest2 with
              | [] => none
              | c2 :: rest3 =>
                if c2 = ',' then
                  (parseMembers fuel (skipSpace rest3)).map fun p => ((k, v) :: p.1, p.2)
                else if c2 = '}' then some ([(k, v)], rest3)
                else none
          else none
    else none
end

/-- One `Decoder.Decode` read: the first JSON value of the stream. Text after
an array or object is left unread; a scalar must be followed by whitespace or
the end of the input. -/
def parseTop (body : List Char) : Option JSON :=
  match parseValue (body.length + 1) (skipSpace body) with
  | none => none
  | some (.arr xs, _) => some (.arr xs)
  | some (.obj kvs, _) => some (.obj kvs)
  | some (v, []) => some v
  | some (v, c :: _) => if isSpace c then some v else none


/-- Spaces of one indentation step per nesting level (`SetIndent("", "  ")`). -/
def indent (d : Nat) : List Char := List.replicate (2 * d) ' '

/-- Escaping of one character inside a string literal, as the encoder does it
with HTML escaping left on (the `Encoder` default). -/
def escapeChar (c : Char) : List Char :=
  if c = '"' ∨ c = '\\' then ['\\', c]
  else if c = '\x08' then ['\\', 'b']
  else if c = '\x0c' then ['\\', 'f']
  else if c = '\n' then ['\\', 'n']
  else if c = '\r' then ['\\', 'r']
  else if c = '\t' then ['\\', 't']
  else if c.toNat < 0x20 ∨ c = '<' ∨ c = '>' ∨ c = '&' then
    ['\\', 'u', '0', '0', hexDigit (c.toNat / 16), hexDigit (c.toNat % 16)]
  else if c.toNat = 0x2028 ∨ c.toNat = 0x2029 then
    ['\\', 'u', '2', '0', '2', hexDigit (c.toNat % 16)]
  else [c]

/-- Escaped text of a string, without the surrounding quotes. -/
def escapeChars : List Char → List Char
  | [] => []
  | c :: cs => escapeChar c ++ escapeChars cs

/-- A quoted string literal. -/
def renderString (s : List Char) : List Char :=
  '"' :: (escapeChars s ++ ['"'])

mutual
/-- Indented text of a JSON value at nesting depth `d`, in the layout of
`json.Indent` with an empty prefix and a two-space indent. -/
def render (d : Nat) : JSON → List Char
  | .null => ['n', 'u', 'l', 'l']
  | .bool true => ['t', 'r', 'u', 'e']
  | .bool false => ['f', 'a', 'l', 's', 'e']
  | .num lit => lit
  | .str s => renderString s
  | .arr [] => ['[', ']']
  | .arr (x :: xs) =>
    '[' :: '\n' :: (indent (d + 1) ++ (render (d + 1) x ++ renderElems d xs))
  | .obj [] => ['{', '}']
  | .obj ((k, v) :: kvs) =>
    '{' :: '\n' :: (indent (d + 1) ++ (renderString k ++ (':' :: ' ' ::
      (render (d + 1) v ++ renderMembers d kvs))))
/-- Remaining elements of an array opened at depth `d`, then its closing bracket. -/
def renderElems (d : Nat) : List JSON → List Char
  | [] => '\n' :: (indent d ++ [']'])
  | x :: xs => ',' :: '\n' :: (indent (d + 1) ++ (render (d + 1) x ++ renderElems d xs))
/-- Remaining members of an object opened at depth `d`, then its closing brace. -/
def renderMembers (d : Nat) : List (List Char × JSON) → List Char
  | [] => '\n' :: (indent d ++ ['}'])
  | (k, v) :: kvs =>
    ',' :: '\n' :: (indent (d + 1) ++ (renderString k ++ (':' :: ' ' ::
      (render (d + 1) v ++ renderMembers d kvs))))
end


/-! ## Data model (`main.go`, lines 18-56) -/

/-- One sticker of a pack. A Go slice is `none` when nil. -/
structure Sticker where
  Liked : Bool
  Tags : Option (List String)
  FileName : String
  SID : String
  Animated : Bool
  ViewCount : Int
  IsAnimated : Bool
  deriving DecidableEq, Repr

/-- The manifest of a pack. -/
structure StickerIndex where
  Stickers : Option (List Sticker)
  PackID : String
  Animated : Bool
  TrayIndex : Int
  ViewCount : Int
  AuthorName : String
  ExportCount : Int
  IsAnimated : Bool
  ShareURL : String
  ResourceURLPrefix : String
  ResourceVersion : Int
  ResourceZip : String
  Updated : Nat
  Owner : String
  Name : String
  deriving DecidableEq, Repr

/-- The error payload of the API envelope. -/
structure APIError where
  ErrorCode : String
  ErrorMessage : String
  InternalTraceID : String
  Timestamp : Nat
  deriving DecidableEq, Repr

/-- The API envelope; `Result` is a pointer, `none` when nil. -/
structure StickerIndexResult where
  Result : Option StickerIndex
  Error : APIError
  deriving DecidableEq, Repr

/-- Go zero value of `Sticker`. -/
def Sticker.zero : Sticker :=
  { Liked := false, Tags := none, FileName := "", SID := "", Animated := false,
    ViewCount := 0, IsAnimated := false }

/-- Go zero value of `StickerIndex`. -/
def StickerIndex.zero : StickerIndex :=
  { Stickers := none, PackID := "", Animated := false, TrayIndex := 0, ViewCount := 0,
    AuthorName := "", ExportCount := 0, IsAnimated := false, ShareURL := "",
    ResourceURLPrefix := "", ResourceVersion := 0, ResourceZip := "", Updated := 0,
    Owner := "", Name := "" }

/-- Go zero value of `APIError`. -/
def APIError.zero : APIError :=
  { ErrorCode := "", ErrorMessage := "", InternalTraceID := "", Timestamp := 0 }

/-- Go zero value of `StickerIndexResult` (`var indexResult StickerIndexResult`). -/
def StickerIndexResult.zero : StickerIndexResult :=
  { Result := none, Error := APIError.zero }

/-- The sticker list as ranged over by `for _, sticker := range index.Stickers`. -/
def StickerIndex.stickerList (m : StickerIndex) : List Sticker :=
  m.Stickers.getD []

/-! ## Decimal integers (`strconv`) -/

/-- Decimal digits of a natural number, most significant first. -/
def natDigits : Nat → Nat → List Char → List Char
  | 0, _, acc => acc
  | fuel + 1, n, acc =>
    if n < 10 then Char.ofNat (48 + n) :: acc
    else natDigits fuel (n / 10) (Char.ofNat (48 + n % 10) :: acc)

/-- Decimal text of a natural number (`strconv.AppendUint`). -/
def natLit (n : Nat) : List Char := natDigits (n + 1) n []

/-- Decimal text of an integer (`strconv.AppendInt`). -/
def intLit : Int → List Char
  | .ofNat n => natLit n
  | .negSucc n => '-' :: natLit (n + 1)

/-- Value of a run of decimal digits. -/
def digitsVal (ds : List Char) : Nat :=
  ds.foldl (fun v c => 10 * v + (c.toNat - 48)) 0

/-- Unsigned decimal text read as `strconv.ParseUint(s, 10, 64)` reads it. -/
def parseUint64 (lit : List Char) : Option Nat :=
  if lit ≠ [] ∧ lit.all isDigit = true ∧ digitsVal lit < 2 ^ 64 then some (digitsVal lit) else none

/-- Signed decimal text read as `strconv.ParseInt(s, 10, 64)` reads a JSON literal. -/
def parseInt64 (lit : List Char) : Option Int :=
  match lit with
  | [] => none
  | c :: ds =>
    if c = '-' then
      if ds ≠ [] ∧ ds.all isDigit = true ∧ digitsVal ds ≤ 2 ^ 63 then some (-(digitsVal ds : Int))
      else none
    else
      if lit.all isDigit = true ∧ digitsVal lit < 2 ^ 63 then some (digitsVal lit : Int) else none

/-! ## Marshalling (`json.Encoder.Encode` on the structs above) -/

/-- A `[]string` field as JSON: `null` for a nil slice. -/
def stringsJSON : Option (List String) → JSON
  | none => .null
  | some ts => .arr (ts.map fun t => .str t.toList)

/-- JSON object of a sticker: fields in declaration order under their tags. -/
def stickerJSON (s : Sticker) : JSON :=
  .obj [("liked".toList, .bool s.Liked),
        ("tags".toList, stringsJSON s.Tags),
        ("fileName".toList, .str s.FileName.toList),
        ("sid".toList, .str s.SID.toList),
        ("animated".toList, .bool s.Animated),
        ("viewCount".toList, .num (intLit s.ViewCount)),
        ("isAnimated".toList, .bool s.IsAnimated)]

/-- A `[]Sticker` field as JSON: `null` for a nil slice. -/
def stickersJSON : Option (List Sticker) → JSON
  | none => .null
  | some ss => .arr (ss.map stickerJSON)

/-- JSON object of a manifest: fields in declaration order under their tags. -/
def indexJSON (m : StickerIndex) : JSON :=
  .obj [("stickers".toList, stickersJSON m.Stickers),
        ("packId".toList, .str m.PackID.toList),
        ("animated".toList, .bool m.Animated),
        ("trayIndex".toList, .num (intLit m.TrayIndex)),
        ("viewCount".toList, .num (intLit m.ViewCount)),
        ("authorName".toList, .str m.AuthorName.toList),
        ("exportCount".toList, .num (intLit m.ExportCount)),
        ("isAnimated".toList, .bool m.IsAnimated),
        ("shareUrl".toList, .str m.ShareURL.toList),
        ("resourceUrlPrefix".toList, .str m.ResourceURLPrefix.toList),
        ("resourceVersion".toList, .num (intLit m.ResourceVersion)),
        ("resourceZip".toList, .str m.ResourceZip.toList),
        ("updated".toList, .num (natLit m.Updated)),
        ("owner".toList, .str m.Owner.toList),
        ("name".toList, .str m.Name.toList)]

/-- The bytes `indexEncoder.Encode(index)` hands to the file: the indented
document followed by a newline. -/
def encodeIndex (m : StickerIndex) : String :=
  String.mk (render 0 (indexJSON m) ++ ['\n'])

/-! ## Unmarshalling (`json.Decoder.Decode` into the structs above) -/

/-- Case folding of one character of an object key (`foldName`): ASCII letters
to upper case, and the two non-ASCII characters that fold onto ASCII letters. -/
def foldChar (c : Char) : Char :=
  if 'a'.toNat ≤ c.toNat ∧ c.toNat ≤ 'z'.toNat then Char.ofNat (c.toNat - 32)
  else if c.toNat = 0x17F then 'S'
  else if c.toNat = 0x212A then 'K'
  else c

/-- Case-folded object key. -/
def foldName (s : List Char) : List Char := s.map foldChar

/-- The struct field an object key addresses: an exact tag match first, then a
case-insensitive one; `none` for a key no field answers to. -/
def lookupField (tags : List String) (key : List Char) : Option String :=
  match tags.find? (fun t => t.toList = key) with
  | some t => some t
  | none => tags.find? (fun t => foldName t.toList = foldName key)

/-- Decode into a `string` field; `null` leaves the field as it is. -/
def decodeString (j : JSON) (old : String) : Option String :=
  match j with
  | .null => some old
  | .str s => some (String.mk s)
  | _ => none

/-- Decode into a `bool` field. -/
def decodeBool (j : JSON) (old : Bool) : Option Bool :=
  match j with
  | .null => some old
  | .bool b => some b
  | _ => none

/-- Decode into an `int` field (64-bit). -/
def decodeInt (j : JSON) (old : Int) : Option Int :=
  match j with
  | .null => some old
  | .num lit => parseInt64 lit
  | _ => none

/-- Decode into a `uint64` field. -/
def decodeUint64 (j : JSON) (old : Nat) : Option Nat :=
  match j with
  | .null => some old
  | .num lit => parseUint64 lit
  | _ => none

/-- Decode the elements of a JSON array into a slice: element `i` is decoded
into the existing element `i` when there is one, into a zero value otherwise. -/
def decodeElems {α : Type} (f : JSON → α → Option α) (zero : α) :
    List JSON → List α → Option (List α)
  | [], _ => some []
  | j :: js, old =>
    match f j (old.headD zero) with
    | none => none
    | some a => (decodeElems f zero js old.tail).map fun as => a :: as

/-- Decode into a slice field: `null` makes it nil, an array replaces it. -/
def decodeSlice {α : Type} (f : JSON → α → Option α) (zero : α) (j : JSON)
    (old : Option (List α)) : Option (Option (List α)) :=
  match j with
  | .null => some none
  | .arr js => (decodeElems f zero js (old.getD [])).map some
  | _ => none

/-- Decode the members of a JSON object in order into a struct value. -/
def decodeMembers {α : Type} (f : List Char → JSON → α → Option α) :
    List (List Char × JSON) → α → Option α
  | [], a => some a
  | (k, v) :: kvs, a =>
    match f k v a with
    | none => none
    | some a1 => decodeMembers f kvs a1

/-- JSON tags of `Sticker`. -/
def stickerTags : List String :=
  ["liked", "tags", "fileName", "sid", "animated", "viewCount", "isAnimated"]

/-- Store one object member into a `Sticker`; unknown keys are ignored. -/
def decodeStickerField (key : List Char) (v : JSON) (s : Sticker) : Option Sticker :=
  match lookupField stickerTags key with
  | none => some s
  | some t =>
    if t = "liked" then (decodeBool v s.Liked).map fun x => { s with Liked := x }
    else if t = "tags" then
      (decodeSlice decodeString "" v s.Tags).map fun x => { s with Tags := x }
    else if t = "fileName" then (decodeString v s.FileName).map fun x => { s with FileName := x }
    else if t = "sid" then (decodeString v s.SID).map fun x => { s with SID := x }
    else if t = "animated" then (decodeBool v s.Animated).map fun x => { s with Animated := x }
    else if t = "viewCount" then (decodeInt v s.ViewCount).map fun x => { s with ViewCount := x }
    else (decodeBool v s.IsAnimated).map fun x => { s with IsAnimated := x }

/-- Decode into a `Sticker` struct. -/
def decodeSticker (j : JSON) (old : Sticker) : Option Sticker :=
  match j with
  | .null => some old
  | .obj kvs => decodeMembers decodeStickerField kvs old
  | _ => none

/-- JSON tags of `StickerIndex`. -/
def indexTags : List String :=
  ["stickers", "packId", "animated", "trayIndex", "viewCount", "authorName", "exportCount",
   "isAnimated", "shareUrl", "resourceUrlPrefix", "resourceVersion", "resourceZip", "updated",
   "owner", "name"]

/-- Store one object member into a `StickerIndex`; unknown keys are ignored. -/
def decodeIndexField (key : List Char) (v : JSON) (m : StickerIndex) : Option StickerIndex :=
  match lookupField indexTags key with
  | none => some m
  | some t =>
    if t = "stickers" then
      (decodeSlice decodeSticker Sticker.zero v m.Stickers).map fun x => { m with Stickers := x }
    else if t = "packId" then (decodeString v m.PackID).map fun x => { m with PackID := x }
    else if t = "animated" then (decodeBool v m.Animated).map fun x => { m with Animated := x }
    else if t = "trayIndex" then (decodeInt v m.TrayIndex).map fun x => { m with TrayIndex := x }
    else if t = "viewCount" then (decodeInt v m.ViewCount).map fun x => { m with ViewCount := x }
    else if t = "authorName" then
      (decodeString v m.AuthorName).map fun x => { m with AuthorName := x }
    else if t = "exportCount" then
      (decodeInt v m.ExportCount).map fun x => { m with ExportCount := x }
    else if t = "isAnimated" then
      (decodeBool v m.IsAnimated).map fun x => { m with IsAnimated := x }
    else if t = "shareUrl" then (decodeString v m.ShareURL).map fun x => { m with ShareURL := x }
    else if t = "resourceUrlPrefix" then
      (decodeString v m.ResourceURLPrefix).map fun x => { m with ResourceURLPrefix := x }
    else if t = "resourceVersion" then
      (decodeInt v m.ResourceVersion).map fun x => { m with ResourceVersion := x }
    else if t = "resourceZip" then
      (decodeString v m.ResourceZip).map fun x => { m with ResourceZip := x }
    else if t = "updated" then (decodeUint64 v m.Updated).map fun x => { m with Updated := x }
    else if t = "owner" then (decodeString v m.Owner).map fun x => { m with Owner := x }
    else (decodeString v m.Name).map fun x => { m with Name := x }

/-- Decode into a `StickerIndex` struct. -/
def decodeIndexValue (j : JSON) (old : StickerIndex) : Option StickerIndex :=
  match j with
  | .null => some old
  | .obj kvs => decodeMembers decodeIndexField kvs old
  | _ => none

/-- Decode into a `*StickerIndex`: `null` makes the pointer nil, an object is
decoded into the pointee, allocated zeroed when the pointer is nil. -/
def decodeIndexPtr (j : JSON) (old : Option StickerIndex) : Option (Option StickerIndex) :=
  match j with
  | .null => some none
  | _ => (decodeIndexValue j (old.getD StickerIndex.zero)).map some

/-- JSON tags of `APIError`. -/
def apiErrorTags : List String :=
  ["errorCode", "errorMessage", "internalTraceId", "timestamp"]

/-- Store one object member into an `APIError`. -/
def decodeAPIErrorField (key : List Char) (v : JSON) (e : APIError) : Option APIError :=
  match lookupField apiErrorTags key with
  | none => some e
  | some t =>
    if t = "errorCode" then (decodeString v e.ErrorCode).map fun x => { e with ErrorCode := x }
    else if t = "errorMessage" then
      (decodeString v e.ErrorMessage).map fun x => { e with ErrorMessage := x }
    else if t = "internalTraceId" then
      (decodeString v e.InternalTraceID).map fun x => { e with InternalTraceID := x }
    else (decodeUint64 v e.Timestamp).map fun x => { e with Timestamp := x }

/-- Decode into an `APIError` struct. -/
def decodeAPIError (j : JSON) (old : APIError) : Option APIError :=
  match j with
  | .null => some old
  | .obj kvs => decodeMembers decodeAPIErrorField kvs old
  | _ => none

/-- JSON tags of `StickerIndexResult`. -/
def resultTags : List String := ["result", "error"]

/-- Store one object member into the envelope. -/
def decodeResultField (key : List Char) (v : JSON) (r : StickerIndexResult) :
    Option StickerIndexResult :=
  match lookupField resultTags key with
  | none => some r
  | some t =>
    if t = "result" then (decodeIndexPtr v r.Result).map fun x => { r with Result := x }
    else (decodeAPIError v r.Error).map fun x => { r with Error := x }

/-- Decode into the envelope struct. -/
def decodeResult (j : JSON) (old : StickerIndexResult) : Option StickerIndexResult :=
  match j with
  | .null => some old
  | .obj kvs => decodeMembers decodeResultField kvs old
  | _ => none

/-- The call `json.NewDecoder(res.Body).Decode(&indexResult)` on a fresh
envelope: `none` when it returns an error. -/
def decodeEnvelope (body : String) : Option StickerIndexResult :=
  match parseTop body.toList with
  | none => none
  | some j => decodeResult j StickerIndexResult.zero

/-- Decoding a document with the `StickerIndex` schema into a fresh struct. -/
def decodeIndex (text : String) : Option StickerIndex :=
  match parseTop text.toList with
  | none => none
  | some j => decodeIndexValue j StickerIndex.zero


/-! ## Paths (`path/filepath` on Unix) -/

/-- Split a path at every separator. -/
def splitSep : List Char → List (List Char)
  | [] => [[]]
  | c :: cs =>
    if c = '/' then [] :: splitSep cs
    else
      match splitSep cs with
      | [] => [[c]]
      | x :: xs => (c :: x) :: xs

/-- Output side of `Clean`: the bytes written so far and the index below which
a `..` element may not backtrack. -/
structure CleanState where
  buf : List Char
  dotdot : Nat
  deriving DecidableEq, Repr

/-- The backtracking loop of `Clean` for a `..` element: starting from write
index `w`, move left while above `dotdot` and not on a separator. -/
def backtrack (buf : List Char) (dotdot : Nat) : Nat → Nat
  | 0 => 0
  | w + 1 =>
    if dotdot < w + 1 ∧ buf.getD (w + 1) '/' ≠ '/' then backtrack buf dotdot w else w + 1

/-- One round of the main loop of `Clean`, on the path element `comp`. -/
def cleanStep (rooted : Bool) (st : CleanState) (comp : List Char) : CleanState :=
  if comp = [] ∨ comp = ['.'] then st
  else if comp = ['.', '.'] then
    if st.dotdot < st.buf.length then
      { st with buf := st.buf.take (backtrack st.buf st.dotdot (st.buf.length - 1)) }
    else if rooted then st
    else
      let b := (if st.buf.length > 0 then st.buf ++ ['/'] else st.buf) ++ ['.', '.']
      { buf := b, dotdot := b.length }
  else if (rooted ∧ st.buf.length ≠ 1) ∨ (¬ rooted ∧ st.buf.length ≠ 0) then
    { st with buf := st.buf ++ '/' :: comp }
  else { st with buf := st.buf ++ comp }

/-- The function `filepath.Clean` on the bytes of a path. -/
def cleanChars (path : List Char) : List Char :=
  if path = [] then ['.']
  else
    let rooted : Bool := path.head? = some '/'
    let st0 : CleanState := if rooted then { buf := ['/'], dotdot := 1 } else { buf := [], dotdot := 0 }
    let st := (splitSep path).foldl (cleanStep rooted) st0
    if st.buf = [] then ['.'] else st.buf

/-- The function `filepath.Clean`. -/
def Clean (path : String) : String := String.mk (cleanChars path.toList)

/-- A relative path made of ordinary elements only: no element is empty, `.`
or `..`, so the path neither starts nor ends with a separator. -/
def plainPath (x : String) : Prop :=
  ∀ c ∈ splitSep x.toList, c ≠ [] ∧ c ≠ ['.'] ∧ c ≠ ['.', '.']

instance (x : String) : Decidable (plainPath x) := by
  unfold plainPath
  exact inferInstance

/-- Whether `path` resolves to a location below the directory `dir`. -/
def insideDir (dir path : String) : Prop :=
  (Clean dir ++ "/").toList <+: (Clean path).toList

instance (dir path : String) : Decidable (insideDir dir path) := by
  unfold insideDir
  exact inferInstance

/-- The function `filepath.Join`: the elements from the first non-empty one on,
joined by separators and cleaned; empty when all elements are empty. -/
def Join : List String → String
  | [] => ""
  | e :: es => if e ≠ "" then Clean (String.intercalate "/" (e :: es)) else Join es


/-! ## The environment: network and file system -/

/-- An HTTP response as the program sees it: the status line is never read by
the code but is part of what the server sent. `readErr`, when present, is the
error the body reader reports after delivering `body`. -/
structure Response where
  status : Nat
  body : String
  readErr : Option String
  deriving DecidableEq, Repr

/-- What `client.Do` returns: a transport error or a response. -/
inductive HttpResult where
  | error (msg : String)
  | ok (res : Response)
  deriving DecidableEq, Repr

/-- Operating-system error kinds. -/
inductive Errno where
  | EEXIST
  | ENOENT
  | EISDIR
  | other (msg : String)
  deriving DecidableEq, Repr

/-- The predicate `os.IsExist`. -/
def Errno.isExist : Errno → Bool
  | .EEXIST => true
  | _ => false

/-- Error text of an operating-system error. -/
def Errno.msg : Errno → String
  | .EEXIST => "file exists"
  | .ENOENT => "no such file or directory"
  | .EISDIR => "is a directory"
  | .other m => m

/-- Text of the `*PathError` wrapping an operating-system error. -/
def pathError (op path : String) (e : Errno) : String :=
  op ++ " " ++ path ++ ": " ++ e.msg

/-- The file system: existing directories and files, keyed by cleaned path.
The newest binding of a file path is the first one. -/
structure FS where
  dirs : List String
  files : List (String × String)
  deriving DecidableEq, Repr

/-- Content of the file at a cleaned path. -/
def FS.read (fs : FS) (path : String) : Option String :=
  fs.files.lookup path

/-- Whether some file exists at a cleaned path. -/
def FS.isFile (fs : FS) (path : String) : Bool :=
  (fs.files.lookup path).isSome

/-- Directory part of a cleaned path (`filepath.Dir`). -/
def parentDir (path : String) : String :=
  Clean (String.mk (path.toList.reverse.dropWhile (fun c => c ≠ '/')).reverse)

/-- Everything the program can observe happening; `call` and `ret` events mark
entry to and return from the two leaf operations. -/
inductive Event where
  | usage
  | log (format : String) (args : List String)
  | exit (code : Nat)
  | callGetStickerIndex (packID : String)
  | retGetStickerIndex (result : Option StickerIndex) (err : Option String)
  | callDownloadImage (url path : String)
  | retDownloadImage (err : Option String)
  | httpGet (url : String) (headers : List (String × String)) (result : HttpResult)
  | mkdir (path : String) (err : Option Errno)
  | create (path : String) (err : Option Errno)
  | write (path : String) (data : String) (err : Option String)
  deriving DecidableEq, Repr

/-- What the outside world answers. Each answer may depend on `tick`, the
number of environment calls made so far, so servers and disks may change
their mind over time. File-system faults are errors beyond those that follow
from the state of the modelled file system (permissions, quotas and the like). -/
structure Env where
  newRequest : String → Option String
  roundTrip : Nat → String → HttpResult
  mkdirFault : Nat → String → Option String
  createFault : Nat → String → Option String
  writeFault : Nat → String → Option (Nat × String)

/-- State threaded through a run. -/
structure World where
  fs : FS
  tick : Nat
  trace : List Event
  deriving DecidableEq, Repr

/-- The world a new process finds: the same file system and clock, an empty
trace. -/
def World.restart (w : World) : World :=
  { w with trace := [] }

/-- Append an event to the trace. -/
def World.emit (w : World) (e : Event) : World :=
  { w with trace := w.trace ++ [e] }

/-- The system call behind `os.Mkdir(path, os.ModePerm)`. -/
def osMkdir (env : Env) (path : String) (w : World) : Option Errno × World :=
  let p := Clean path
  let r : Option Errno × FS :=
    match env.mkdirFault w.tick path with
    | some m => (some (.other m), w.fs)
    | none =>
      if p ∈ w.fs.dirs ∨ w.fs.isFile p = true then (some .EEXIST, w.fs)
      else if parentDir p ∈ w.fs.dirs then (none, { w.fs with dirs := p :: w.fs.dirs })
      else (some .ENOENT, w.fs)
  (r.1, { fs := r.2, tick := w.tick + 1, trace := w.trace ++ [.mkdir path r.1] })

/-- The system call behind `os.Create(path)`: create or truncate. -/
def osCreate (env : Env) (path : String) (w : World) : Option Errno × World :=
  let p := Clean path
  let r : Option Errno × FS :=
    match env.createFault w.tick path with
    | some m => (some (.other m), w.fs)
    | none =>
      if p ∈ w.fs.dirs then (some .EISDIR, w.fs)
      else if parentDir p ∈ w.fs.dirs then (none, { w.fs with files := (p, "") :: w.fs.files })
      else (some .ENOENT, w.fs)
  (r.1, { fs := r.2, tick := w.tick + 1, trace := w.trace ++ [.create path r.1] })

/-- Writing `data` through the handle of the file just created at `path`. A
fault leaves a prefix of the data in the file. -/
def osWrite (env : Env) (path data : String) (w : World) : Option String × World :=
  let p := Clean path
  let old := (w.fs.read p).getD ""
  let r : Option String × String :=
    match env.writeFault w.tick path with
    | some (n, m) => (some m, String.mk (data.toList.take n))
    | none => (none, data)
  (r.1, { fs := { w.fs with files := (p, old ++ r.2) :: w.fs.files }, tick := w.tick + 1,
          trace := w.trace ++ [.write path data r.1] })

/-! ## The program (`main.go`, lines 14-16 and 58-161) -/

def UserAgent : String := "androidapp.stickerly/1.13.3 (G011A; U; Android 22; pt-BR; br;)"
def Host : String := "api.sticker.ly"
/-- The constant `IndexUrl` up to its `%s` verb. -/
def IndexUrl : String := "http://api.sticker.ly/v3.1/stickerPack/"

/-- Headers set on both requests. -/
def requestHeaders : List (String × String) :=
  [("User-Agent", UserAgent), ("Host", Host)]

/-- The call `client.Do(req)` for a GET of `url`. -/
def clientDo (env : Env) (url : String) (w : World) : HttpResult × World :=
  let r := env.roundTrip w.tick url
  (r, { w with tick := w.tick + 1, trace := w.trace ++ [.httpGet url requestHeaders r] })

/-- The call `io.Copy(file, res.Body)`: the delivered body is written, then a
read error of the body, if any, is reported. -/
def ioCopy (env : Env) (path : String) (res : Response) (w : World) : Option String × World :=
  match osWrite env path res.body w with
  | (some e, w1) => (some e, w1)
  | (none, w1) => (res.readErr, w1)

/-- Body of `DownloadImage` (lines 107-135). -/
def DownloadImageBody (env : Env) (url path : String) (w : World) : Option String × World :=
  match env.newRequest url with
  | some e => (some ("creating new download resest: " ++ e), w)
  | none =>
    match clientDo env url w with
    | (.error e, w1) => (some ("doing download request: " ++ e), w1)
    | (.ok res, w1) =>
      match osCreate env path w1 with
      | (some e, w2) => (some ("creating image file: " ++ pathError "open" path e), w2)
      | (none, w2) =>
        match ioCopy env path res w2 with
        | (some e, w3) => (some ("writing image file: " ++ e), w3)
        | (none, w3) => (none, w3)

/-- The function `DownloadImage`, with its call and return recorded. -/
def DownloadImage (env : Env) (url path : String) (w : World) : Option String × World :=
  let r := DownloadImageBody env url path (w.emit (.callDownloadImage url path))
  (r.1, r.2.emit (.retDownloadImage r.1))

/-- What `Decode` makes of a response body: the filled envelope, or the text
of the error it returns. A body cut short by a read error decodes only if a
complete array or object was delivered before the error. The wording of
syntax and type errors is not modelled. -/
def decodeBody (res : Response) : Except String StickerIndexResult :=
  let complete : Bool :=
    match res.readErr, parseTop res.body.toList with
    | none, _ => true
    | some _, some (.obj _) => true
    | some _, some (.arr _) => true
    | some _, _ => false
  match complete, decodeEnvelope res.body with
  | true, some r => .ok r
  | _, _ =>
    match res.readErr with
    | some e => .error e
    | none =>
      if skipSpace res.body.toList = [] then .error "EOF"
      else .error "invalid JSON for StickerIndexResult"

/-- Body of `GetStickerIndex` (lines 137-161): the manifest pointer and the
error it returns. -/
def GetStickerIndexBody (env : Env) (packID : String) (w : World) :
    (Option StickerIndex × Option String) × World :=
  let packIndexUrl := IndexUrl ++ packID
  match env.newRequest packIndexUrl with
  | some e => ((none, some ("creating index request: " ++ e)), w)
  | none =>
    match clientDo env packIndexUrl w with
    | (.error e, w1) => ((none, some ("doing index request: " ++ e)), w1)
    | (.ok res, w1) =>
      match decodeBody res with
      | .error e => ((none, some ("decoding index: " ++ e)), w1)
      | .ok indexResult => ((indexResult.Result, none), w1)

/-- The function `GetStickerIndex`, with its call and return recorded. -/
def GetStickerIndex (env : Env) (packID : String) (w : World) :
    (Option StickerIndex × Option String) × World :=
  let r := GetStickerIndexBody env packID (w.emit (.callGetStickerIndex packID))
  (r.1, r.2.emit (.retGetStickerIndex r.1.1 r.1.2))

/-- How a run ends: `main` returns (status 0), the process exits with a
status, or the runtime aborts on a nil pointer dereference. -/
inductive Outcome where
  | returned
  | exited (code : Nat)
  | nilDereference
  deriving DecidableEq, Repr

/-- The calls `log.Fatal` and `log.Fatalf`: print, then `os.Exit(1)`. -/
def logFatal (format : String) (args : List String) (w : World) : Outcome × World :=
  (.exited 1, (w.emit (.log format args)).emit (.exit 1))

/-- The download loop of `main` (lines 96-104). -/
def downloadStickers (env : Env) (resourceURLPrefix packDir : String) :
    List Sticker → World → Outcome × World
  | [], w => (.returned, w)
  | sticker :: rest, w =>
    let stickerPath := Join [packDir, sticker.FileName]
    let stickerURL := resourceURLPrefix ++ sticker.FileName
    let w1 := w.emit (.log "downloading sticker: %s" [sticker.FileName])
    match DownloadImage env stickerURL stickerPath w1 with
    | (some e, w2) => logFatal "failed to download sticker: %v" [e] w2
    | (none, w2) => downloadStickers env resourceURLPrefix packDir rest w2

/-- Lines 83-104 of `main`: write `index.json`, then download the stickers. -/
def writeAndDownload (env : Env) (packDir : String) (index : StickerIndex) (w : World) :
    Outcome × World :=
  let indexPath := Join [packDir, "index.json"]
  match osCreate env indexPath w with
  | (some e, w1) => logFatal "creating index file: %v" [pathError "open" indexPath e] w1
  | (none, w1) =>
    match osWrite env indexPath (encodeIndex index) w1 with
    | (some e, w2) => logFatal "writing index file: %v" [e] w2
    | (none, w2) => downloadStickers env index.ResourceURLPrefix packDir index.stickerList w2

/-- The function `main`, given the value of the `-pack` flag after `flag.Parse`. -/
def main (env : Env) (packID : String) (w : World) : Outcome × World :=
  if packID = "" then
    (.exited 1, (w.emit .usage).emit (.exit 1))
  else
    let w1 := w.emit (.log "downloading index %s" [packID])
    match GetStickerIndex env packID w1 with
    | ((_, some err), w2) => logFatal "%v" [err] w2
    | ((none, none), w2) => (.nilDereference, w2)
    | ((some index, none), w2) =>
      let w3 := w2.emit (.log "Pack: %q, %d stickers located"
        [index.Name, String.mk (natLit index.stickerList.length)])
      let packDir := packID ++ " - " ++ index.Name
      match osMkdir env packDir w3 with
      | (some e, w4) =>
        if e.isExist then writeAndDownload env packDir index w4
        else logFatal "%v" [pathError "mkdir" packDir e] w4
      | (none, w4) => writeAndDownload env packDir index w4


/-- Rewrite the status code of a response. -/
def HttpResult.mapStatus (f : Nat → Nat) : HttpResult → HttpResult
  | .error e => .error e
  | .ok res => .ok { res with status := f res.status }

/-- The same environment with every response status rewritten by `f`. -/
def Env.mapStatus (env : Env) (f : Nat → Nat) : Env :=
  { env with roundTrip := fun t u => (env.roundTrip t u).mapStatus f }

/-! ## Sample inputs -/

/-- An environment without faults whose server answers by URL alone. -/
def quietEnv (serve : String → HttpResult) : Env :=
  { newRequest := fun _ => none
    roundTrip := fun _ url => serve url
    mkdirFault := fun _ _ => none
    createFault := fun _ _ => none
    writeFault := fun _ _ => none }

/-- An empty working directory at the start of a run. -/
def freshWorld : World :=
  { fs := { dirs := ["."], files := [] }, tick := 0, trace := [] }

/-- A server that answers every request with status 404 and no body. -/
def notFoundEnv : Env :=
  quietEnv fun _ => .ok { status := 404, body := "", readErr := none }

/-- A server with the pack of the specification's example: pack `abc123`
named `Funny Cats` with stickers `0.webp` and `1.webp`. -/
def funnyCatsEnv : Env :=
  quietEnv fun url =>
    if url = "http://api.sticker.ly/v3.1/stickerPack/abc123" then
      .ok { status := 200, readErr := none,
            body := "\x7b\"result\":\x7b\"stickers\":[\x7b\"fileName\":\"0.webp\"\x7d,\x7b\"fileName\":\"1.webp\"\x7d],\"resourceUrlPrefix\":\"https://cdn.example.com/abc123/\",\"name\":\"Funny Cats\"\x7d\x7d" }
    else .ok { status := 200, body := "image bytes of " ++ url, readErr := none }

/-- The manifest `funnyCatsEnv` serves. -/
def funnyCats : StickerIndex :=
  { StickerIndex.zero with
    Stickers := some [{ Sticker.zero with FileName := "0.webp" },
                      { Sticker.zero with FileName := "1.webp" }]
    ResourceURLPrefix := "https://cdn.example.com/abc123/"
    Name := "Funny Cats" }

/-- A server whose pack `abc123` lists one sticker with the file name
`../1.webp`. -/
def escapeEnv : Env :=
  quietEnv fun url =>
    if url = "http://api.sticker.ly/v3.1/stickerPack/abc123" then
      .ok { status := 200, readErr := none,
            body := "\x7b\"result\":\x7b\"stickers\":[\x7b\"fileName\":\"../1.webp\"\x7d],\"resourceUrlPrefix\":\"https://cdn.example.com/abc123/\",\"name\":\"Funny Cats\"\x7d\x7d" }
    else .ok { status := 200, body := "image bytes of " ++ url, readErr := none }

/-- The manifest `escapeEnv` serves. -/
def escapeIndex : StickerIndex :=
  { StickerIndex.zero with
    Stickers := some [{ Sticker.zero with FileName := "../1.webp" }]
    ResourceURLPrefix := "https://cdn.example.com/abc123/"
    Name := "Funny Cats" }

/-- The server of `funnyCatsEnv` after the pack has been renamed. -/
def renamedEnv : Env :=
  quietEnv fun url =>
    if url = "http://api.sticker.ly/v3.1/stickerPack/abc123" then
      .ok { status := 200, readErr := none,
            body := "\x7b\"result\":\x7b\"stickers\":[\x7b\"fileName\":\"0.webp\"\x7d,\x7b\"fileName\":\"1.webp\"\x7d],\"resourceUrlPrefix\":\"https://cdn.example.com/abc123/\",\"name\":\"Happy Cats\"\x7d\x7d" }
    else .ok { status := 200, body := "new image bytes of " ++ url, readErr := none }

/-- The server of `funnyCatsEnv` serving new image bytes. -/
def refreshedEnv : Env :=
  quietEnv fun url =>
    if url = "http://api.sticker.ly/v3.1/stickerPack/abc123" then
      .ok { status := 200, readErr := none,
            body := "\x7b\"result\":\x7b\"stickers\":[\x7b\"fileName\":\"0.webp\"\x7d,\x7b\"fileName\":\"1.webp\"\x7d],\"resourceUrlPrefix\":\"https://cdn.example.com/abc123/\",\"name\":\"Funny Cats\"\x7d\x7d" }
    else .ok { status := 200, body := "new image bytes of " ++ url, readErr := none }

/-- A body that carries only an `error` object. -/
def errorOnlyBody : String :=
  "\x7b\"error\":\x7b\"errorCode\":\"NOT_FOUND\",\"errorMessage\":\"no such pack\",\"internalTraceId\":\"t1\",\"timestamp\":1600000000000\x7d\x7d"

/-- A body whose `result` is `null`. -/
def nullResultBody : String := "\x7b\"result\":null\x7d"

/-- A server that answers every request with status 404 and an error envelope. -/
def apiErrorEnv : Env :=
  quietEnv fun _ => .ok { status := 404, body := errorOnlyBody, readErr := none }

/-- A manifest body with escapes, a negative number and tags. -/
def richBody : String :=
  "\x7b\"result\":\x7b\"stickers\":[\x7b\"liked\":true,\"tags\":[\"cat\",\"a<b\"],\"fileName\":\"0.webp\",\"sid\":\"s\\\"0\",\"viewCount\":12\x7d,\x7b\"fileName\":\"1.webp\",\"tags\":[]\x7d],\"packId\":\"abc123\",\"trayIndex\":-3,\"resourceUrlPrefix\":\"https://cdn.example.com/abc123/\",\"updated\":1600000000000,\"name\":\"Funny\\nCats\"\x7d\x7d"

/-- The manifest `richBody` decodes to. -/
def richIndex : StickerIndex :=
  { StickerIndex.zero with
    Stickers := some [
      { Sticker.zero with
        Liked := true
        Tags := some ["cat", "a<b"]
        FileName := "0.webp"
        SID := "s\"0"
        ViewCount := 12 },
      { Sticker.zero with FileName := "1.webp", Tags := some [] }]
    PackID := "abc123"
    TrayIndex := -3
    ResourceURLPrefix := "https://cdn.example.com/abc123/"
    Updated := 1600000000000
    Name := "Funny\nCats" }

/-- A server answering every request with `richBody`. -/
def richEnv : Env :=
  quietEnv fun _ => .ok { status := 200, body := richBody, readErr := none }

/-! ## Vocabulary of the round-trip proof -/

/-- The integer fields of a sticker lie in the range of Go's 64-bit `int`. -/
def Sticker.InRange (s : Sticker) : Prop :=
  -(2 ^ 63) ≤ s.ViewCount ∧ s.ViewCount < 2 ^ 63

/-- The integer fields of a manifest and of its stickers lie in the ranges of
their Go types, `int` (64-bit) and `uint64`. -/
def StickerIndex.InRange (m : StickerIndex) : Prop :=
  (∀ s ∈ m.stickerList, s.InRange) ∧
  (-(2 ^ 63) ≤ m.TrayIndex ∧ m.TrayIndex < 2 ^ 63) ∧
  (-(2 ^ 63) ≤ m.ViewCount ∧ m.ViewCount < 2 ^ 63) ∧
  (-(2 ^ 63) ≤ m.ExportCount ∧ m.ExportCount < 2 ^ 63) ∧
  (-(2 ^ 63) ≤ m.ResourceVersion ∧ m.ResourceVersion < 2 ^ 63) ∧
  m.Updated < 2 ^ 64

/-- Text that may follow a value in indented output: a comma or a newline. -/
def EndsValue (rest : List Char) : Prop :=
  ∃ t, rest = ',' :: t ∨ rest = '\n' :: t

/-- A value whose indented text at depth `d` starts with a character that is
neither whitespace nor a closing bracket, and from which `parseValue`, given
fuel beyond the length of that text, reads the value back. -/
def Reads (d : Nat) (v : JSON) : Prop :=
  (∃ c t, render d v = c :: t ∧ isSpace c = false ∧ c ≠ ']') ∧
  ∀ fuel rest, (render d v).length < fuel → EndsValue rest →
    parseValue fuel (render d v ++ rest) = some (v, rest)

/-! ## Observations on traces -/

/-- The response of an HTTP event that fetched `url` successfully. -/
def Event.responseFrom (url : String) : Event → Option Response
  | .httpGet u _ (.ok res) => if u = url then some res else none
  | _ => none

/-- The last response a trace records for `url`. -/
def lastResponse (tr : List Event) (url : String) : Option Response :=
  (tr.filterMap (Event.responseFrom url)).getLast?

/-- The `(url, path)` pair `main` computes for each sticker, in manifest order. -/
def stickerJobs (resourceURLPrefix packDir : String) (ss : List Sticker) :
    List (String × String) :=
  ss.map fun s => (resourceURLPrefix ++ s.FileName, Join [packDir, s.FileName])


/-- Path of an `os.Mkdir` event. -/
def Event.mkdirPath : Event → Option String
  | .mkdir p _ => some p
  | _ => none

/-- Result of an `os.Mkdir` event. -/
def Event.mkdirResult : Event → Option (Option Errno)
  | .mkdir _ r => some r
  | _ => none

/-- Path of an `os.Create` event. -/
def Event.createPath : Event → Option String
  | .create p _ => some p
  | _ => none

/-- Path and data of a file-write event. -/
def Event.written : Event → Option (String × String)
  | .write p d _ => some (p, d)
  | _ => none

/-- URL of an HTTP request event. -/
def Event.httpURL : Event → Option String
  | .httpGet u _ _ => some u
  | _ => none

/-- Argument of a `GetStickerIndex` call event. -/
def Event.indexArg : Event → Option String
  | .callGetStickerIndex p => some p
  | _ => none

/-- Arguments of a `DownloadImage` call event. -/
def Event.downloadArgs : Event → Option (String × String)
  | .callDownloadImage u p => some (u, p)
  | _ => none

/-- Error returned by a `DownloadImage` call, from its return event. -/
def Event.downloadRet : Event → Option (Option String)
  | .retDownloadImage e => some e
  | _ => none

/-- Paths of the `os.Mkdir` calls of a trace, in order. -/
def mkdirCalls (tr : List Event) : List String := tr.filterMap Event.mkdirPath

/-- Results of the `os.Mkdir` calls of a trace, in order. -/
def mkdirResults (tr : List Event) : List (Option Errno) := tr.filterMap Event.mkdirResult

/-- Paths of the `os.Create` calls of a trace, in order. -/
def createCalls (tr : List Event) : List String := tr.filterMap Event.createPath

/-- Paths and data of the file writes of a trace, in order. -/
def writeCalls (tr : List Event) : List (String × String) := tr.filterMap Event.written

/-- URLs of the HTTP requests of a trace, in order. -/
def httpCalls (tr : List Event) : List String := tr.filterMap Event.httpURL

/-- Arguments of the `GetStickerIndex` calls of a trace, in order. -/
def indexCalls (tr : List Event) : List String := tr.filterMap Event.indexArg

/-- Arguments `(url, path)` of the `DownloadImage` calls of a trace, in order. -/
def downloadCalls (tr : List Event) : List (String × String) :=
  tr.filterMap Event.downloadArgs

/-- Errors returned by the `DownloadImage` calls of a trace, in order. -/
def downloadRets (tr : List Event) : List (Option String) := tr.filterMap Event.downloadRet

/-! ## Theorems -/

/-- C1. With an empty pack identifier `main` prints the usage text and exits
with status 1: the only events of the run are the usage message and the exit,
so neither `GetStickerIndex` nor `DownloadImage` is called, no request is
issued, and the file system is left as it was. -/
theorem main_empty_pack (env : Env) (w : World) :
    (main env "" w).1 = Outcome.exited 1 ∧
    (main env "" w).2.trace = w.trace ++ [Event.usage, Event.exit 1] ∧
    (main env "" w).2.fs = w.fs ∧
    (main env "" w).2.tick = w.tick ∧
    indexCalls (main env "" w).2.trace = indexCalls w.trace ∧
    downloadCalls (main env "" w).2.trace = downloadCalls w.trace ∧
    httpCalls (main env "" w).2.trace = httpCalls w.trace ∧
    mkdirCalls (main env "" w).2.trace = mkdirCalls w.trace ∧
    createCalls (main env "" w).2.trace = createCalls w.trace := by
  simp [main, World.emit, indexCalls, downloadCalls, httpCalls, mkdirCalls, createCalls,
    Event.indexArg, Event.downloadArgs, Event.httpURL, Event.mkdirPath, Event.createPath]

/-! ### The index fetcher -/

theorem decodeBody_status (res : Response) (s : Nat) :
    decodeBody { res with status := s } = decodeBody res := rfl

theorem decodeBody_empty (status : Nat) (readErr : Option String) :
    decodeBody { status := status, body := "", readErr := readErr } =
      Except.error (readErr.getD "EOF") := by
  cases readErr <;> rfl

/-- C6. `GetStickerIndex` returns an error exactly when building the request,
the transport, or decoding the body fails, and then the manifest is nil;
otherwise it returns no error and the `result` field of the decoded envelope,
whatever the status code of the response and whatever the envelope's `error`
field holds. -/
theorem getStickerIndex_error_iff (env : Env) (packID : String) (w : World) :
    ((GetStickerIndex env packID w).1.2 ≠ none ↔
      (env.newRequest (IndexUrl ++ packID) ≠ none ∨
       (env.newRequest (IndexUrl ++ packID) = none ∧
          ∃ e, env.roundTrip w.tick (IndexUrl ++ packID) = HttpResult.error e) ∨
       (env.newRequest (IndexUrl ++ packID) = none ∧
          ∃ res e, env.roundTrip w.tick (IndexUrl ++ packID) = HttpResult.ok res ∧
            decodeBody res = Except.error e))) ∧
    ((GetStickerIndex env packID w).1.2 ≠ none → (GetStickerIndex env packID w).1.1 = none) ∧
    (∀ res ir, env.newRequest (IndexUrl ++ packID) = none →
        env.roundTrip w.tick (IndexUrl ++ packID) = HttpResult.ok res →
        decodeBody res = Except.ok ir →
        (GetStickerIndex env packID w).1 = (ir.Result, none)) ∧
    (∀ res s, decodeBody { res with status := s } = decodeBody res) ∧
    (∀ res ir e, decodeBody res = Except.ok ir →
        ({ ir with Error := e } : StickerIndexResult).Result = ir.Result) := by
  refine ⟨?_, ?_, ?_, fun res s => rfl, fun _ _ _ _ => rfl⟩
  · simp only [GetStickerIndex, GetStickerIndexBody, clientDo, World.emit]
    cases hreq : env.newRequest (IndexUrl ++ packID) with
    | some e => simp
    | none =>
      cases hrt : env.roundTrip w.tick (IndexUrl ++ packID) with
      | error e => simp
      | ok res =>
        cases hdec : decodeBody res with
        | error e => simp [hdec]
        | ok ir => simp [hdec]
  · simp only [GetStickerIndex, GetStickerIndexBody, clientDo, World.emit]
    cases hreq : env.newRequest (IndexUrl ++ packID) with
    | some e => simp
    | none =>
      cases hrt : env.roundTrip w.tick (IndexUrl ++ packID) with
      | error e => simp
      | ok res =>
        cases hdec : decodeBody res with
        | error e => simp [hdec]
        | ok ir => simp [hdec]
  · intro res ir hreq hrt hdec
    simp [GetStickerIndex, GetStickerIndexBody, clientDo, World.emit, hreq, hrt, hdec]

/-- C7. When the index endpoint answers with an empty body, whatever the
status code (a non-2xx one in particular), `GetStickerIndex` returns an error
in the `decoding index` context and `main` logs it and exits with status 1
without having created the pack directory, `index.json` or any sticker file. -/
theorem empty_index_body_is_fatal (env : Env) (packID : String) (w : World) (status : Nat)
    (readErr : Option String) (hp : packID ≠ "")
    (hreq : env.newRequest (IndexUrl ++ packID) = none)
    (hres : env.roundTrip w.tick (IndexUrl ++ packID) =
      HttpResult.ok { status := status, body := "", readErr := readErr }) :
    (GetStickerIndex env packID (w.emit (Event.log "downloading index %s" [packID]))).1 =
      (none, some ("decoding index: " ++ readErr.getD "EOF")) ∧
    (main env packID w).1 = Outcome.exited 1 ∧
    (main env packID w).2.fs = w.fs ∧
    (main env packID w).2.trace.drop (w.trace.length + 4) =
      [Event.log "%v" ["decoding index: " ++ readErr.getD "EOF"], Event.exit 1] ∧
    mkdirCalls (main env packID w).2.trace = mkdirCalls w.trace ∧
    createCalls (main env packID w).2.trace = createCalls w.trace ∧
    writeCalls (main env packID w).2.trace = writeCalls w.trace ∧
    downloadCalls (main env packID w).2.trace = downloadCalls w.trace := by
  have hmain : main env packID w =
      (Outcome.exited 1,
        { fs := w.fs
          tick := w.tick + 1
          trace := w.trace ++ [Event.log "downloading index %s" [packID],
          Event.callGetStickerIndex packID,
          Event.httpGet (IndexUrl ++ packID) requestHeaders
            (HttpResult.ok { status := status, body := "", readErr := readErr }),
          Event.retGetStickerIndex none (some ("decoding index: " ++ readErr.getD "EOF")),
          Event.log "%v" ["decoding index: " ++ readErr.getD "EOF"], Event.exit 1] }) := by
    simp [main, hp, GetStickerIndex, GetStickerIndexBody, clientDo, World.emit, hreq, hres,
      decodeBody_empty, logFatal]
  refine ⟨?_, ?_, ?_, ?_, ?_, ?_, ?_, ?_⟩
  · simp [GetStickerIndex, GetStickerIndexBody, clientDo, World.emit, hreq, hres,
      decodeBody_empty]
  all_goals rw [hmain]
  all_goals simp [mkdirCalls, createCalls, writeCalls, downloadCalls, Event.mkdirPath,
    Event.createPath, Event.written, Event.downloadArgs]

set_option maxRecDepth 100000 in
theorem empty_index_body_is_fatal_witness :
    "abc123" ≠ "" ∧
    notFoundEnv.newRequest (IndexUrl ++ "abc123") = none ∧
    notFoundEnv.roundTrip freshWorld.tick (IndexUrl ++ "abc123") =
      HttpResult.ok { status := 404, body := "", readErr := none } ∧
    (main notFoundEnv "abc123" freshWorld).1 = Outcome.exited 1 ∧
    (main notFoundEnv "abc123" freshWorld).2.fs = freshWorld.fs :=
  ⟨by decide, rfl, rfl,
    (empty_index_body_is_fatal notFoundEnv "abc123" freshWorld 404 none (by decide) rfl rfl).2.1,
    (empty_index_body_is_fatal notFoundEnv "abc123" freshWorld 404 none (by decide) rfl rfl).2.2.1⟩

/-! ### The image downloader -/

theorem osCreate_read (env : Env) (path : String) (w : World)
    (h : (osCreate env path w).1 = none) :
    (osCreate env path w).2.fs.read (Clean path) = some "" := by
  unfold osCreate at h ⊢
  cases hf : env.createFault w.tick path with
  | some m => simp [hf] at h
  | none =>
    simp only [hf] at h ⊢
    by_cases h1 : Clean path ∈ w.fs.dirs
    · simp [h1] at h
    · by_cases h2 : parentDir (Clean path) ∈ w.fs.dirs
      · simp [h1, h2, FS.read, List.lookup]
      · simp [h1, h2] at h

theorem ioCopy_read (env : Env) (path : String) (res : Response) (w : World)
    (hc : w.fs.read (Clean path) = some "")
    (h : (ioCopy env path res w).1 = none) :
    (ioCopy env path res w).2.fs.read (Clean path) = some res.body := by
  unfold ioCopy osWrite at h ⊢
  simp only [FS.read] at hc
  cases hf : env.writeFault w.tick path with
  | some nm => simp [hf] at h
  | none => simp [hf, hc, FS.read, List.lookup] at h ⊢

/-- C9. `DownloadImage` never looks at the status code. Whenever the request
is built, the transport yields a response (of any status), and creating the
file and copying succeed, it returns nil and the destination file holds
exactly the response body, whatever it held before. It returns an error
exactly when building the request, the transport, the file creation or the
copy fails. Rewriting every status code changes neither the returned error
nor the resulting file system. -/
theorem downloadImage_ignores_status (env : Env) (url path : String) (w : World) :
    (∀ res, env.newRequest url = none → env.roundTrip w.tick url = HttpResult.ok res →
      (osCreate env path (clientDo env url (w.emit (Event.callDownloadImage url path))).2).1
        = none →
      (ioCopy env path res
        (osCreate env path
          (clientDo env url (w.emit (Event.callDownloadImage url path))).2).2).1 = none →
      (DownloadImage env url path w).1 = none ∧
      (DownloadImage env url path w).2.fs.read (Clean path) = some res.body) ∧
    ((DownloadImage env url path w).1 ≠ none ↔
      (env.newRequest url ≠ none ∨
       (env.newRequest url = none ∧ ∃ e, env.roundTrip w.tick url = HttpResult.error e) ∨
       (env.newRequest url = none ∧ ∃ res, env.roundTrip w.tick url = HttpResult.ok res ∧
         ((osCreate env path
            (clientDo env url (w.emit (Event.callDownloadImage url path))).2).1 ≠ none ∨
          ((osCreate env path
            (clientDo env url (w.emit (Event.callDownloadImage url path))).2).1 = none ∧
           (ioCopy env path res
            (osCreate env path
              (clientDo env url (w.emit (Event.callDownloadImage url path))).2).2).1
              ≠ none))))) ∧
    (∀ f : Nat → Nat,
      (DownloadImage (env.mapStatus f) url path w).1 = (DownloadImage env url path w).1 ∧
      (DownloadImage (env.mapStatus f) url path w).2.fs = (DownloadImage env url path w).2.fs) := by
  refine ⟨?_, ?_, ?_⟩
  · intro res hreq hrt hcr hcp
    have hread := ioCopy_read env path res _ (osCreate_read env path _ hcr) hcp
    have hcd : clientDo env url (w.emit (Event.callDownloadImage url path)) =
        (HttpResult.ok res, (clientDo env url (w.emit (Event.callDownloadImage url path))).2) := by
      simp [clientDo, World.emit, hrt]
    generalize (clientDo env url (w.emit (Event.callDownloadImage url path))).2 = w1 at *
    have hoc : osCreate env path w1 = (none, (osCreate env path w1).2) := by
      rw [← hcr]
    generalize (osCreate env path w1).2 = w2 at *
    have hic : ioCopy env path res w2 = (none, (ioCopy env path res w2).2) := by
      rw [← hcp]
    generalize (ioCopy env path res w2).2 = w3 at *
    simp only [DownloadImage, DownloadImageBody, hreq, hcd, hoc, hic]
    simp [World.emit, hread]
  · cases hreq : env.newRequest url with
    | some e => simp [DownloadImage, DownloadImageBody, hreq]
    | none =>
      cases hrt : env.roundTrip w.tick url with
      | error e => simp [DownloadImage, DownloadImageBody, hreq, clientDo, World.emit, hrt]
      | ok res =>
        have hcd : clientDo env url (w.emit (Event.callDownloadImage url path)) =
            (HttpResult.ok res,
              (clientDo env url (w.emit (Event.callDownloadImage url path))).2) := by
          simp [clientDo, World.emit, hrt]
        generalize (clientDo env url (w.emit (Event.callDownloadImage url path))).2 = w1 at *
        cases hoc : osCreate env path w1 with
        | mk c w2 =>
          cases c with
          | some e => simp [DownloadImage, DownloadImageBody, hreq, hcd, hoc]
          | none =>
            cases hic : ioCopy env path res w2 with
            | mk x w3 =>
              cases x with
              | some e => simp [DownloadImage, DownloadImageBody, hreq, hcd, hoc, hic]
              | none => simp [DownloadImage, DownloadImageBody, hreq, hcd, hoc, hic]
  · intro f
    simp only [DownloadImage, DownloadImageBody, clientDo, osCreate, ioCopy, osWrite,
      Env.mapStatus, World.emit]
    cases hreq : env.newRequest url with
    | some e => simp
    | none =>
      cases hrt : env.roundTrip w.tick url with
      | error e => simp [HttpResult.mapStatus]
      | ok res =>
        simp only [HttpResult.mapStatus]
        cases hcf : env.createFault (w.tick + 1) path with
        | some m => simp
        | none =>
          by_cases h1 : Clean path ∈ w.fs.dirs
          · simp [h1]
          · by_cases h2 : parentDir (Clean path) ∈ w.fs.dirs
            · simp only [h1, h2, if_true, if_false]
              cases hwf : env.writeFault (w.tick + 1 + 1) path with
              | some nm => simp
              | none =>
                cases hre : res.readErr with
                | some e => simp [hre]
                | none => simp [hre]
            · simp [h1, h2]

/-! ### A nil manifest -/

theorem main_nil_manifest (env : Env) (packID : String) (w : World) (res : Response)
    (ir : StickerIndexResult) (hp : packID ≠ "")
    (hreq : env.newRequest (IndexUrl ++ packID) = none)
    (hres : env.roundTrip w.tick (IndexUrl ++ packID) = HttpResult.ok res)
    (hdec : decodeBody res = Except.ok ir) (hnil : ir.Result = none) :
    (GetStickerIndex env packID (w.emit (Event.log "downloading index %s" [packID]))).1 =
      (none, none) ∧
    main env packID w =
      (Outcome.nilDereference,
        { fs := w.fs
          tick := w.tick + 1
          trace := w.trace ++ [Event.log "downloading index %s" [packID],
            Event.callGetStickerIndex packID,
            Event.httpGet (IndexUrl ++ packID) requestHeaders (HttpResult.ok res),
            Event.retGetStickerIndex none none] }) := by
  constructor
  · simp [GetStickerIndex, GetStickerIndexBody, clientDo, World.emit, hreq, hres, hdec, hnil]
  · simp [main, hp, GetStickerIndex, GetStickerIndexBody, clientDo, World.emit, hreq, hres,
      hdec, hnil]

set_option maxRecDepth 100000 in
theorem decodeBody_errorOnly (status : Nat) :
    decodeBody { status := status, body := errorOnlyBody, readErr := none } =
      Except.ok { Result := none,
                  Error := { ErrorCode := "NOT_FOUND", ErrorMessage := "no such pack",
                             InternalTraceID := "t1", Timestamp := 1600000000000 } } := by
  have h : decodeEnvelope errorOnlyBody =
      some { Result := none,
             Error := { ErrorCode := "NOT_FOUND", ErrorMessage := "no such pack",
                        InternalTraceID := "t1", Timestamp := 1600000000000 } } := by decide
  simp [decodeBody, h]

set_option maxRecDepth 100000 in
theorem decodeBody_nullResult (status : Nat) :
    decodeBody { status := status, body := nullResultBody, readErr := none } =
      Except.ok StickerIndexResult.zero := by
  have h : decodeEnvelope nullResultBody = some StickerIndexResult.zero := by decide
  simp [decodeBody, h]

/-- C10. There are well-formed JSON bodies, an envelope that carries only an
`error` object and one whose `result` is `null`, on which `GetStickerIndex`
returns a nil manifest with a nil error; `main`, which does not test the
manifest, then aborts on the nil dereference at `index.Name`, having created
no directory, written no file and started no download. -/
theorem nil_manifest_dereference :
    ∀ body, (body = errorOnlyBody ∨ body = nullResultBody) →
      ∀ (env : Env) (packID : String) (w : World) (status : Nat), packID ≠ "" →
        env.newRequest (IndexUrl ++ packID) = none →
        env.roundTrip w.tick (IndexUrl ++ packID) =
          HttpResult.ok { status := status, body := body, readErr := none } →
        (GetStickerIndex env packID (w.emit (Event.log "downloading index %s" [packID]))).1 =
          (none, none) ∧
        (main env packID w).1 = Outcome.nilDereference ∧
        (main env packID w).2.fs = w.fs ∧
        mkdirCalls (main env packID w).2.trace = mkdirCalls w.trace ∧
        createCalls (main env packID w).2.trace = createCalls w.trace ∧
        writeCalls (main env packID w).2.trace = writeCalls w.trace ∧
        downloadCalls (main env packID w).2.trace = downloadCalls w.trace := by
  intro body hbody env packID w status hp hreq hres
  have key : ∃ ir, decodeBody { status := status, body := body, readErr := none } =
      Except.ok ir ∧ ir.Result = none := by
    rcases hbody with rfl | rfl
    · exact ⟨_, decodeBody_errorOnly status, rfl⟩
    · exact ⟨_, decodeBody_nullResult status, rfl⟩
  obtain ⟨ir, hdec, hnil⟩ := key
  obtain ⟨h1, h2⟩ := main_nil_manifest env packID w _ ir hp hreq hres hdec hnil
  refine ⟨h1, ?_, ?_, ?_, ?_, ?_, ?_⟩
  all_goals rw [h2]
  all_goals simp [mkdirCalls, createCalls, writeCalls, downloadCalls, Event.mkdirPath,
    Event.createPath, Event.written, Event.downloadArgs]

theorem nil_manifest_dereference_witness :
    (errorOnlyBody = errorOnlyBody ∨ errorOnlyBody = nullResultBody) ∧
    "abc123" ≠ "" ∧
    apiErrorEnv.newRequest (IndexUrl ++ "abc123") = none ∧
    apiErrorEnv.roundTrip freshWorld.tick (IndexUrl ++ "abc123") =
      HttpResult.ok { status := 404, body := errorOnlyBody, readErr := none } ∧
    (main apiErrorEnv "abc123" freshWorld).1 = Outcome.nilDereference ∧
    (main apiErrorEnv "abc123" freshWorld).2.fs = freshWorld.fs :=
  ⟨Or.inl rfl, by decide, rfl, rfl,
    (nil_manifest_dereference errorOnlyBody (Or.inl rfl) apiErrorEnv "abc123" freshWorld 404
      (by decide) rfl rfl).2.1,
    (nil_manifest_dereference errorOnlyBody (Or.inl rfl) apiErrorEnv "abc123" freshWorld 404
      (by decide) rfl rfl).2.2.1⟩

/-! ### Traces of the leaf operations -/

theorem downloadImage_frame (env : Env) (url path : String) (w : World) :
    downloadCalls (DownloadImage env url path w).2.trace =
      downloadCalls w.trace ++ [(url, path)] ∧
    downloadRets (DownloadImage env url path w).2.trace =
      downloadRets w.trace ++ [(DownloadImage env url path w).1] ∧
    mkdirCalls (DownloadImage env url path w).2.trace = mkdirCalls w.trace ∧
    (DownloadImage env url path w).2.fs.dirs = w.fs.dirs ∧
    w.trace <+: (DownloadImage env url path w).2.trace := by
  simp only [DownloadImage, DownloadImageBody, clientDo, osCreate, ioCopy, osWrite, World.emit,
    downloadCalls, downloadRets, mkdirCalls]
  cases hreq : env.newRequest url with
  | some e => simp [hreq, Event.downloadArgs, Event.downloadRet, Event.mkdirPath]
  | none =>
    cases hrt : env.roundTrip w.tick url with
    | error e => simp [hreq, hrt, Event.downloadArgs, Event.downloadRet, Event.mkdirPath]
    | ok res =>
      cases hcf : env.createFault (w.tick + 1) path with
      | some m => simp [hreq, hrt, hcf, Event.downloadArgs, Event.downloadRet, Event.mkdirPath]
      | none =>
        by_cases h1 : Clean path ∈ w.fs.dirs
        · simp [hreq, hrt, hcf, h1, Event.downloadArgs, Event.downloadRet, Event.mkdirPath]
        · by_cases h2 : parentDir (Clean path) ∈ w.fs.dirs
          · cases hwf : env.writeFault (w.tick + 1 + 1) path with
            | some nm => simp [hreq, hrt, hcf, hwf, h1, h2, Event.downloadArgs, Event.downloadRet, Event.mkdirPath]
            | none =>
              cases hre : res.readErr with
              | some e =>
                simp [hreq, hrt, hcf, hwf, h1, h2, hre, Event.downloadArgs, Event.downloadRet, Event.mkdirPath]
              | none =>
                simp [hreq, hrt, hcf, hwf, h1, h2, hre, Event.downloadArgs, Event.downloadRet, Event.mkdirPath]
          · simp [hreq, hrt, hcf, h1, h2, Event.downloadArgs, Event.downloadRet, Event.mkdirPath]

theorem downloadImage_success (env : Env) (url path : String) (w : World)
    (h : (DownloadImage env url path w).1 = none) :
    ∃ res, env.newRequest url = none ∧ env.roundTrip w.tick url = HttpResult.ok res ∧
      (DownloadImage env url path w).2 =
        { fs := { dirs := w.fs.dirs
                  files := (Clean path, res.body) :: (Clean path, "") :: w.fs.files }
          tick := w.tick + 3
          trace := w.trace ++ [Event.callDownloadImage url path,
            Event.httpGet url requestHeaders (HttpResult.ok res),
            Event.create path none, Event.write path res.body none,
            Event.retDownloadImage none] } := by
  simp only [DownloadImage, DownloadImageBody, clientDo, osCreate, ioCopy, osWrite,
    World.emit] at h ⊢
  cases hreq : env.newRequest url with
  | some e => simp [hreq] at h
  | none =>
    cases hrt : env.roundTrip w.tick url with
    | error e => simp [hreq, hrt] at h
    | ok res =>
      cases hcf : env.createFault (w.tick + 1) path with
      | some m => simp [hreq, hrt, hcf] at h
      | none =>
        by_cases h1 : Clean path ∈ w.fs.dirs
        · simp [hreq, hrt, hcf, h1] at h
        · by_cases h2 : parentDir (Clean path) ∈ w.fs.dirs
          · cases hwf : env.writeFault (w.tick + 1 + 1) path with
            | some nm => simp [hreq, hrt, hcf, h1, h2, hwf] at h
            | none =>
              cases hre : res.readErr with
              | some e => simp [hreq, hrt, hcf, h1, h2, hwf, hre] at h
              | none =>
                refine ⟨res, rfl, rfl, ?_⟩
                simp [hcf, hwf, h1, h2, hre, FS.read, List.lookup]
          · simp [hreq, hrt, hcf, h1, h2] at h

/-! ### The download loop -/

theorem downloadStickers_trace (env : Env) (pre dir : String) :
    ∀ (ss : List Sticker) (w : World),
      mkdirCalls (downloadStickers env pre dir ss w).2.trace = mkdirCalls w.trace ∧
      (downloadStickers env pre dir ss w).2.fs.dirs = w.fs.dirs ∧
      w.trace <+: (downloadStickers env pre dir ss w).2.trace ∧
      (((downloadStickers env pre dir ss w).1 = Outcome.returned ∧
        downloadCalls (downloadStickers env pre dir ss w).2.trace =
          downloadCalls w.trace ++ stickerJobs pre dir ss ∧
        downloadRets (downloadStickers env pre dir ss w).2.trace =
          downloadRets w.trace ++ List.replicate ss.length none ∧
        httpCalls (downloadStickers env pre dir ss w).2.trace =
          httpCalls w.trace ++ ss.map (fun s => pre ++ s.FileName)) ∨
       ((downloadStickers env pre dir ss w).1 = Outcome.exited 1 ∧
        ∃ j e, j < ss.length ∧
          downloadCalls (downloadStickers env pre dir ss w).2.trace =
            downloadCalls w.trace ++ (stickerJobs pre dir ss).take (j + 1) ∧
          downloadRets (downloadStickers env pre dir ss w).2.trace =
            downloadRets w.trace ++ (List.replicate j none ++ [some e]))) := by
  intro ss
  induction ss with
  | nil =>
    intro w
    simp [downloadStickers, stickerJobs]
  | cons s rest ih =>
    intro w
    have hf := downloadImage_frame env (pre ++ s.FileName) (Join [dir, s.FileName])
      (w.emit (Event.log "downloading sticker: %s" [s.FileName]))
    have hs := downloadImage_success env (pre ++ s.FileName) (Join [dir, s.FileName])
      (w.emit (Event.log "downloading sticker: %s" [s.FileName]))
    cases h : DownloadImage env (pre ++ s.FileName) (Join [dir, s.FileName])
        (w.emit (Event.log "downloading sticker: %s" [s.FileName])) with
    | mk r w2 =>
      rw [h] at hf hs
      obtain ⟨hc, hr, hm, hd, hp⟩ := hf
      simp only [World.emit, downloadCalls, downloadRets, mkdirCalls, List.filterMap_append,
        List.filterMap_cons, List.filterMap_nil, Event.downloadArgs, Event.downloadRet,
        Event.mkdirPath, List.append_nil] at hc hr hm hd hp
      cases r with
      | some e =>
        have heq : downloadStickers env pre dir (s :: rest) w =
            logFatal "failed to download sticker: %v" [e] w2 := by
          simp only [downloadStickers, h]
        rw [heq]
        simp only [logFatal, World.emit, mkdirCalls, downloadCalls, downloadRets,
          List.filterMap_append, List.filterMap_cons, List.filterMap_nil, Event.downloadArgs,
          Event.downloadRet, Event.mkdirPath, List.append_nil, hm, hc, hr, hd]
        refine ⟨trivial, trivial, ?_, Or.inr ⟨trivial, 0, e, by simp, ?_, ?_⟩⟩
        · exact ((List.prefix_append w.trace _).trans hp).trans (by simp)
        · simp [stickerJobs]
        · simp
      | none =>
        have heq : downloadStickers env pre dir (s :: rest) w =
            downloadStickers env pre dir rest w2 := by
          simp only [downloadStickers, h]
        rw [heq]
        obtain ⟨res, -, -, hw2⟩ := hs rfl
        replace hw2 : w2 = _ := hw2
        obtain ⟨im, id, ip, ih4⟩ := ih w2
        refine ⟨im.trans (by simpa [mkdirCalls] using hm), id.trans hd, ?_, ?_⟩
        · exact ((List.prefix_append w.trace _).trans hp).trans ip
        · rcases ih4 with ⟨h1, h2, h3, h4⟩ | ⟨h1, j, e, hj, h2, h3⟩
          · left
            refine ⟨h1, ?_, ?_, ?_⟩
            · rw [h2]; simp [downloadCalls, hc, stickerJobs]
            · rw [h3]; simp [downloadRets, hr, List.replicate_succ]
            · rw [h4, hw2]
              simp [httpCalls, Event.httpURL, World.emit]
          · right
            refine ⟨h1, j + 1, e, by simpa using hj, ?_, ?_⟩
            · rw [h2]; simp [downloadCalls, hc, stickerJobs]
            · rw [h3]; simp [downloadRets, hr, List.replicate_succ]

/-! ### The orchestrator -/

theorem getStickerIndex_frame (env : Env) (packID : String) (w : World) :
    (GetStickerIndex env packID w).2.fs = w.fs ∧
    w.trace <+: (GetStickerIndex env packID w).2.trace ∧
    mkdirCalls (GetStickerIndex env packID w).2.trace = mkdirCalls w.trace ∧
    createCalls (GetStickerIndex env packID w).2.trace = createCalls w.trace ∧
    downloadCalls (GetStickerIndex env packID w).2.trace = downloadCalls w.trace ∧
    downloadRets (GetStickerIndex env packID w).2.trace = downloadRets w.trace ∧
    ((GetStickerIndex env packID w).1.2 = none →
      httpCalls (GetStickerIndex env packID w).2.trace =
        httpCalls w.trace ++ [IndexUrl ++ packID]) := by
  simp only [GetStickerIndex, GetStickerIndexBody, clientDo, World.emit, mkdirCalls,
    createCalls, downloadCalls, downloadRets, httpCalls]
  cases hreq : env.newRequest (IndexUrl ++ packID) with
  | some e => simp [Event.mkdirPath, Event.createPath, Event.downloadArgs, Event.downloadRet]
  | none =>
    cases hrt : env.roundTrip w.tick (IndexUrl ++ packID) with
    | error e =>
      simp [Event.mkdirPath, Event.createPath, Event.downloadArgs, Event.downloadRet]
    | ok res =>
      cases hdec : decodeBody res with
      | error e =>
        simp [hdec, Event.mkdirPath, Event.createPath, Event.downloadArgs, Event.downloadRet]
      | ok ir =>
        simp [hdec, Event.mkdirPath, Event.createPath, Event.downloadArgs, Event.downloadRet,
          Event.httpURL]

theorem main_of_index (env : Env) (packID : String) (w w2 : World) (m : StickerIndex)
    (hp : packID ≠ "")
    (h1 : GetStickerIndex env packID (w.emit (Event.log "downloading index %s" [packID])) =
      ((some m, none), w2)) :
    main env packID w =
      (match osMkdir env (packID ++ " - " ++ m.Name)
          (w2.emit (Event.log "Pack: %q, %d stickers located"
            [m.Name, String.mk (natLit m.stickerList.length)])) with
       | (some e, w4) =>
         if e.isExist then writeAndDownload env (packID ++ " - " ++ m.Name) m w4
         else logFatal "%v" [pathError "mkdir" (packID ++ " - " ++ m.Name) e] w4
       | (none, w4) => writeAndDownload env (packID ++ " - " ++ m.Name) m w4) := by
  simp only [main, hp, if_false, h1]

theorem writeAndDownload_cases (env : Env) (dir : String) (m : StickerIndex) (w : World) :
    (∃ e, (osCreate env (Join [dir, "index.json"]) w).1 = some e ∧
      writeAndDownload env dir m w =
        logFatal "creating index file: %v" [pathError "open" (Join [dir, "index.json"]) e]
          (osCreate env (Join [dir, "index.json"]) w).2) ∨
    ((osCreate env (Join [dir, "index.json"]) w).1 = none ∧
      ∃ e, (osWrite env (Join [dir, "index.json"]) (encodeIndex m)
            (osCreate env (Join [dir, "index.json"]) w).2).1 = some e ∧
        writeAndDownload env dir m w =
          logFatal "writing index file: %v" [e]
            (osWrite env (Join [dir, "index.json"]) (encodeIndex m)
              (osCreate env (Join [dir, "index.json"]) w).2).2) ∨
    ((osCreate env (Join [dir, "index.json"]) w).1 = none ∧
      (osWrite env (Join [dir, "index.json"]) (encodeIndex m)
        (osCreate env (Join [dir, "index.json"]) w).2).1 = none ∧
      writeAndDownload env dir m w =
        downloadStickers env m.ResourceURLPrefix dir m.stickerList
          (osWrite env (Join [dir, "index.json"]) (encodeIndex m)
            (osCreate env (Join [dir, "index.json"]) w).2).2) := by
  cases hc : osCreate env (Join [dir, "index.json"]) w with
  | mk c w1 =>
    cases c with
    | some e => left; exact ⟨e, rfl, by simp only [writeAndDownload, hc]⟩
    | none =>
      right
      cases hw : osWrite env (Join [dir, "index.json"]) (encodeIndex m) w1 with
      | mk x w2 =>
        cases x with
        | some e => left; exact ⟨rfl, e, rfl, by simp only [writeAndDownload, hc, hw]⟩
        | none => right; exact ⟨rfl, rfl, by simp only [writeAndDownload, hc, hw]⟩

theorem osCreate_trace (env : Env) (path : String) (w : World) :
    (osCreate env path w).2.trace = w.trace ++ [Event.create path (osCreate env path w).1] :=
  rfl

theorem osWrite_trace (env : Env) (path data : String) (w : World) :
    (osWrite env path data w).2.trace =
      w.trace ++ [Event.write path data (osWrite env path data w).1] :=
  rfl

theorem osMkdir_trace (env : Env) (path : String) (w : World) :
    (osMkdir env path w).2.trace = w.trace ++ [Event.mkdir path (osMkdir env path w).1] :=
  rfl

theorem osCreate_dirs (env : Env) (path : String) (w : World) :
    (osCreate env path w).2.fs.dirs = w.fs.dirs := by
  unfold osCreate
  cases env.createFault w.tick path with
  | some m => rfl
  | none =>
    by_cases h1 : Clean path ∈ w.fs.dirs
    · simp [h1]
    · by_cases h2 : parentDir (Clean path) ∈ w.fs.dirs
      · simp [h1, h2]
      · simp [h1, h2]

theorem osWrite_dirs (env : Env) (path data : String) (w : World) :
    (osWrite env path data w).2.fs.dirs = w.fs.dirs :=
  rfl

theorem writeAndDownload_frame (env : Env) (dir : String) (m : StickerIndex) (w : World) :
    mkdirCalls (writeAndDownload env dir m w).2.trace = mkdirCalls w.trace ∧
    (writeAndDownload env dir m w).2.fs.dirs = w.fs.dirs ∧
    ∃ e, w.trace ++ [Event.create (Join [dir, "index.json"]) e] <+:
        (writeAndDownload env dir m w).2.trace ∧
      (e = none → ∃ we,
        w.trace ++ [Event.create (Join [dir, "index.json"]) none,
          Event.write (Join [dir, "index.json"]) (encodeIndex m) we] <+:
          (writeAndDownload env dir m w).2.trace) := by
  have hct := osCreate_trace env (Join [dir, "index.json"]) w
  have hcd := osCreate_dirs env (Join [dir, "index.json"]) w
  rcases writeAndDownload_cases env dir m w with ⟨e, hc, heq⟩ | ⟨hc, e, hw, heq⟩ | ⟨hc, hw, heq⟩
  · rw [heq]
    simp only [logFatal, World.emit, hct, hc, hcd]
    refine ⟨by simp [mkdirCalls, Event.mkdirPath], trivial, some e, by simp, by simp⟩
  · have hwt := osWrite_trace env (Join [dir, "index.json"]) (encodeIndex m)
      (osCreate env (Join [dir, "index.json"]) w).2
    rw [heq]
    simp only [logFatal, World.emit, hwt, hct, hc, hw, osWrite_dirs, hcd]
    refine ⟨by simp [mkdirCalls, Event.mkdirPath], trivial, none, by simp, fun _ => ⟨some e, ?_⟩⟩
    simp
  · have hwt := osWrite_trace env (Join [dir, "index.json"]) (encodeIndex m)
      (osCreate env (Join [dir, "index.json"]) w).2
    obtain ⟨lm, ld, lp, -⟩ := downloadStickers_trace env m.ResourceURLPrefix dir m.stickerList
      (osWrite env (Join [dir, "index.json"]) (encodeIndex m)
        (osCreate env (Join [dir, "index.json"]) w).2).2
    rw [heq]
    rw [hwt, hct, hc, hw] at lp lm
    refine ⟨?_, ?_, none, ?_, fun _ => ⟨none, ?_⟩⟩
    · rw [lm]; simp [mkdirCalls, Event.mkdirPath]
    · rw [ld, osWrite_dirs, hcd]
    · exact (by simp : _ <+: _).trans lp
    · exact (by simp : _ <+: _).trans lp

/-- C4. When `GetStickerIndex` has returned a manifest `m` for the non-empty
pack identifier `p`, the one directory `main` asks the system to create is
`p ++ " - " ++ m.Name`; when that creation succeeds or fails with "already
exists", the next call creates the file at `Join [p ++ " - " ++ m.Name,
"index.json"]`, and the encoded manifest is written to that same path. Any
other directory-creation error ends the run with status 1 before a file is
created. -/
theorem pack_directory_name (env : Env) (packID : String) (w w2 : World) (m : StickerIndex)
    (hp : packID ≠ "")
    (h1 : GetStickerIndex env packID (w.emit (Event.log "downloading index %s" [packID])) =
      ((some m, none), w2)) :
    mkdirCalls (main env packID w).2.trace =
      mkdirCalls w2.trace ++ [packID ++ " - " ++ m.Name] ∧
    ∃ r,
      w2.trace ++ [Event.log "Pack: %q, %d stickers located"
          [m.Name, String.mk (natLit m.stickerList.length)],
        Event.mkdir (packID ++ " - " ++ m.Name) r] <+: (main env packID w).2.trace ∧
      ((r = none ∨ r = some Errno.EEXIST) →
        ∃ e,
          w2.trace ++ [Event.log "Pack: %q, %d stickers located"
              [m.Name, String.mk (natLit m.stickerList.length)],
            Event.mkdir (packID ++ " - " ++ m.Name) r,
            Event.create (Join [packID ++ " - " ++ m.Name, "index.json"]) e] <+:
            (main env packID w).2.trace ∧
          (e = none → ∃ we,
            w2.trace ++ [Event.log "Pack: %q, %d stickers located"
                [m.Name, String.mk (natLit m.stickerList.length)],
              Event.mkdir (packID ++ " - " ++ m.Name) r,
              Event.create (Join [packID ++ " - " ++ m.Name, "index.json"]) none,
              Event.write (Join [packID ++ " - " ++ m.Name, "index.json"]) (encodeIndex m) we]
              <+: (main env packID w).2.trace)) ∧
      (r ≠ none → r ≠ some Errno.EEXIST →
        (main env packID w).1 = Outcome.exited 1 ∧
        createCalls (main env packID w).2.trace = createCalls w2.trace ∧
        writeCalls (main env packID w).2.trace = writeCalls w2.trace) := by
  rw [main_of_index env packID w w2 m hp h1]
  have hmt := osMkdir_trace env (packID ++ " - " ++ m.Name)
    (w2.emit (Event.log "Pack: %q, %d stickers located"
      [m.Name, String.mk (natLit m.stickerList.length)]))
  cases hmk : osMkdir env (packID ++ " - " ++ m.Name)
      (w2.emit (Event.log "Pack: %q, %d stickers located"
        [m.Name, String.mk (natLit m.stickerList.length)])) with
  | mk r w4 =>
    rw [hmk] at hmt
    simp only [World.emit] at hmt
    have key : ∀ w4 : World, w4.trace = w2.trace ++ [Event.log "Pack: %q, %d stickers located"
          [m.Name, String.mk (natLit m.stickerList.length)]] ++
          [Event.mkdir (packID ++ " - " ++ m.Name) r] →
        mkdirCalls (writeAndDownload env (packID ++ " - " ++ m.Name) m w4).2.trace =
          mkdirCalls w2.trace ++ [packID ++ " - " ++ m.Name] ∧
        (w2.trace ++ [Event.log "Pack: %q, %d stickers located"
            [m.Name, String.mk (natLit m.stickerList.length)],
          Event.mkdir (packID ++ " - " ++ m.Name) r] <+:
          (writeAndDownload env (packID ++ " - " ++ m.Name) m w4).2.trace) ∧
        ∃ e,
          w2.trace ++ [Event.log "Pack: %q, %d stickers located"
              [m.Name, String.mk (natLit m.stickerList.length)],
            Event.mkdir (packID ++ " - " ++ m.Name) r,
            Event.create (Join [packID ++ " - " ++ m.Name, "index.json"]) e] <+:
            (writeAndDownload env (packID ++ " - " ++ m.Name) m w4).2.trace ∧
          (e = none → ∃ we,
            w2.trace ++ [Event.log "Pack: %q, %d stickers located"
                [m.Name, String.mk (natLit m.stickerList.length)],
              Event.mkdir (packID ++ " - " ++ m.Name) r,
              Event.create (Join [packID ++ " - " ++ m.Name, "index.json"]) none,
              Event.write (Join [packID ++ " - " ++ m.Name, "index.json"]) (encodeIndex m) we]
              <+: (writeAndDownload env (packID ++ " - " ++ m.Name) m w4).2.trace) := by
      intro w4 h4
      obtain ⟨fm, -, e, fe, fw⟩ := writeAndDownload_frame env (packID ++ " - " ++ m.Name) m w4
      rw [h4] at fm fe fw
      refine ⟨?_, ?_, e, ?_, ?_⟩
      · rw [fm]; simp [mkdirCalls, Event.mkdirPath]
      · exact (by simp : _ <+: _).trans fe
      · simpa using fe
      · intro he
        obtain ⟨we, hwe⟩ := fw he
        exact ⟨we, by simpa using hwe⟩
    cases r with
    | none =>
      obtain ⟨k1, k2, k3⟩ := key w4 hmt
      exact ⟨k1, none, k2, fun _ => k3, fun h => absurd rfl h⟩
    | some e =>
      cases e with
      | EEXIST =>
        obtain ⟨k1, k2, k3⟩ := key w4 hmt
        exact ⟨k1, some Errno.EEXIST, k2, fun _ => k3, fun _ h => absurd rfl h⟩
      | ENOENT =>
        simp only [Errno.isExist, logFatal, World.emit, hmt, Bool.false_eq_true, if_false]
        refine ⟨by simp [mkdirCalls, Event.mkdirPath], some Errno.ENOENT, by simp,
          fun h => by simp at h, fun _ _ => ⟨trivial, ?_, ?_⟩⟩
        · simp [createCalls, Event.createPath]
        · simp [writeCalls, Event.written]
      | EISDIR =>
        simp only [Errno.isExist, logFatal, World.emit, hmt, Bool.false_eq_true, if_false]
        refine ⟨by simp [mkdirCalls, Event.mkdirPath], some Errno.EISDIR, by simp,
          fun h => by simp at h, fun _ _ => ⟨trivial, ?_, ?_⟩⟩
        · simp [createCalls, Event.createPath]
        · simp [writeCalls, Event.written]
      | other msg =>
        simp only [Errno.isExist, logFatal, World.emit, hmt, Bool.false_eq_true, if_false]
        refine ⟨by simp [mkdirCalls, Event.mkdirPath], some (Errno.other msg), by simp,
          fun h => by simp at h, fun _ _ => ⟨trivial, ?_, ?_⟩⟩
        · simp [createCalls, Event.createPath]
        · simp [writeCalls, Event.written]

set_option maxRecDepth 100000 in
theorem funnyCats_index :
    GetStickerIndex funnyCatsEnv "abc123"
        (freshWorld.emit (Event.log "downloading index %s" ["abc123"])) =
      ((some funnyCats, none),
        (GetStickerIndex funnyCatsEnv "abc123"
          (freshWorld.emit (Event.log "downloading index %s" ["abc123"]))).2) := by
  decide

theorem pack_directory_name_witness :
    "abc123" ≠ "" ∧
    GetStickerIndex funnyCatsEnv "abc123"
        (freshWorld.emit (Event.log "downloading index %s" ["abc123"])) =
      ((some funnyCats, none),
        (GetStickerIndex funnyCatsEnv "abc123"
          (freshWorld.emit (Event.log "downloading index %s" ["abc123"]))).2) ∧
    mkdirCalls (main funnyCatsEnv "abc123" freshWorld).2.trace =
      mkdirCalls (GetStickerIndex funnyCatsEnv "abc123"
          (freshWorld.emit (Event.log "downloading index %s" ["abc123"]))).2.trace ++
        ["abc123" ++ " - " ++ funnyCats.Name] :=
  ⟨by decide, funnyCats_index,
    (pack_directory_name funnyCatsEnv "abc123" freshWorld _ funnyCats (by decide)
      funnyCats_index).1⟩

set_option maxRecDepth 100000 in
theorem funnyCats_run :
    (main funnyCatsEnv "abc123" freshWorld).1 = Outcome.returned ∧
    mkdirCalls (main funnyCatsEnv "abc123" freshWorld).2.trace = ["abc123 - Funny Cats"] ∧
    createCalls (main funnyCatsEnv "abc123" freshWorld).2.trace =
      ["abc123 - Funny Cats/index.json", "abc123 - Funny Cats/0.webp",
       "abc123 - Funny Cats/1.webp"] ∧
    (main funnyCatsEnv "abc123" freshWorld).2.fs.read "abc123 - Funny Cats/0.webp" =
      some "image bytes of https://cdn.example.com/abc123/0.webp" ∧
    (main funnyCatsEnv "abc123" freshWorld).2.fs.read "abc123 - Funny Cats/1.webp" =
      some "image bytes of https://cdn.example.com/abc123/1.webp" ∧
    (main funnyCatsEnv "abc123" freshWorld).2.fs.read "abc123 - Funny Cats/index.json" =
      some (encodeIndex funnyCats) := by
  decide

theorem main_returned (env : Env) (packID : String) (w w2 : World) (m : StickerIndex)
    (hp : packID ≠ "")
    (h1 : GetStickerIndex env packID (w.emit (Event.log "downloading index %s" [packID])) =
      ((some m, none), w2))
    (hret : (main env packID w).1 = Outcome.returned) :
    ∃ r w4 w5 w6,
      osMkdir env (packID ++ " - " ++ m.Name)
        (w2.emit (Event.log "Pack: %q, %d stickers located"
          [m.Name, String.mk (natLit m.stickerList.length)])) = (r, w4) ∧
      (r = none ∨ r = some Errno.EEXIST) ∧
      osCreate env (Join [packID ++ " - " ++ m.Name, "index.json"]) w4 = (none, w5) ∧
      osWrite env (Join [packID ++ " - " ++ m.Name, "index.json"]) (encodeIndex m) w5 =
        (none, w6) ∧
      main env packID w =
        downloadStickers env m.ResourceURLPrefix (packID ++ " - " ++ m.Name) m.stickerList w6 := by
  have hm := main_of_index env packID w w2 m hp h1
  have wd : ∀ w4 : World,
      (writeAndDownload env (packID ++ " - " ++ m.Name) m w4).1 = Outcome.returned →
      ∃ w5 w6,
        osCreate env (Join [packID ++ " - " ++ m.Name, "index.json"]) w4 = (none, w5) ∧
        osWrite env (Join [packID ++ " - " ++ m.Name, "index.json"]) (encodeIndex m) w5 =
          (none, w6) ∧
        writeAndDownload env (packID ++ " - " ++ m.Name) m w4 =
          downloadStickers env m.ResourceURLPrefix (packID ++ " - " ++ m.Name)
            m.stickerList w6 := by
    intro w4 h
    rcases writeAndDownload_cases env (packID ++ " - " ++ m.Name) m w4 with
      ⟨e, hc, heq⟩ | ⟨hc, e, hw, heq⟩ | ⟨hc, hw, heq⟩
    · rw [heq] at h; simp [logFatal] at h
    · rw [heq] at h; simp [logFatal] at h
    · exact ⟨_, _, Prod.ext hc rfl, Prod.ext hw rfl, heq⟩
  rw [hm] at hret ⊢
  cases hmk : osMkdir env (packID ++ " - " ++ m.Name)
      (w2.emit (Event.log "Pack: %q, %d stickers located"
        [m.Name, String.mk (natLit m.stickerList.length)])) with
  | mk r w4 =>
    rw [hmk] at hret
    cases r with
    | none =>
      obtain ⟨w5, w6, a, b, c⟩ := wd w4 hret
      exact ⟨none, w4, w5, w6, rfl, Or.inl rfl, a, b, c⟩
    | some e =>
      cases e with
      | EEXIST =>
        obtain ⟨w5, w6, a, b, c⟩ := wd w4 hret
        exact ⟨some Errno.EEXIST, w4, w5, w6, rfl, Or.inr rfl, a, b, c⟩
      | ENOENT => simp [Errno.isExist, logFatal] at hret
      | EISDIR => simp [Errno.isExist, logFatal] at hret
      | other msg => simp [Errno.isExist, logFatal] at hret

/-- C5. The download loop calls `DownloadImage` on `(ResourceURLPrefix ++
s.FileName, Join [packDir, s.FileName])` for the stickers in manifest order.
Either every call returns nil, all stickers are covered and the loop returns,
or the calls stop at the first one that returns an error, which ends the run
with status 1: the calls made are the first `j + 1` jobs, the first `j`
returned nil and the last an error. A run of `main` that returns has made
exactly the index request followed by one request per sticker, `1 + n` in
all. -/
theorem download_sequence (env : Env) :
    (∀ (pre dir : String) (ss : List Sticker) (w : World),
      ((downloadStickers env pre dir ss w).1 = Outcome.returned ∧
        downloadCalls (downloadStickers env pre dir ss w).2.trace =
          downloadCalls w.trace ++ stickerJobs pre dir ss ∧
        downloadRets (downloadStickers env pre dir ss w).2.trace =
          downloadRets w.trace ++ List.replicate ss.length none ∧
        httpCalls (downloadStickers env pre dir ss w).2.trace =
          httpCalls w.trace ++ ss.map (fun s => pre ++ s.FileName)) ∨
      ((downloadStickers env pre dir ss w).1 = Outcome.exited 1 ∧
        ∃ j e, j < ss.length ∧
          downloadCalls (downloadStickers env pre dir ss w).2.trace =
            downloadCalls w.trace ++ (stickerJobs pre dir ss).take (j + 1) ∧
          downloadRets (downloadStickers env pre dir ss w).2.trace =
            downloadRets w.trace ++ (List.replicate j none ++ [some e]))) ∧
    (∀ (packID : String) (w w2 : World) (m : StickerIndex), packID ≠ "" →
      GetStickerIndex env packID (w.emit (Event.log "downloading index %s" [packID])) =
        ((some m, none), w2) →
      (main env packID w).1 = Outcome.returned →
      downloadCalls (main env packID w).2.trace =
        downloadCalls w.trace ++
          stickerJobs m.ResourceURLPrefix (packID ++ " - " ++ m.Name) m.stickerList ∧
      downloadRets (main env packID w).2.trace =
        downloadRets w.trace ++ List.replicate m.stickerList.length none ∧
      httpCalls (main env packID w).2.trace =
        httpCalls w.trace ++
          (IndexUrl ++ packID) :: m.stickerList.map (fun s => m.ResourceURLPrefix ++ s.FileName) ∧
      (httpCalls (main env packID w).2.trace).length =
        (httpCalls w.trace).length + (1 + m.stickerList.length)) := by
  constructor
  · intro pre dir ss w
    exact (downloadStickers_trace env pre dir ss w).2.2.2
  · intro packID w w2 m hp h1 hret
    obtain ⟨r, w4, w5, w6, hmk, -, hcr, hwr, hmain⟩ := main_returned env packID w w2 m hp h1 hret
    have hg := getStickerIndex_frame env packID (w.emit (Event.log "downloading index %s" [packID]))
    rw [h1] at hg
    obtain ⟨-, -, -, -, gc, gr, gh⟩ := hg
    have gh := gh rfl
    have t4 := osMkdir_trace env (packID ++ " - " ++ m.Name)
      (w2.emit (Event.log "Pack: %q, %d stickers located"
        [m.Name, String.mk (natLit m.stickerList.length)]))
    rw [hmk] at t4
    have t5 := osCreate_trace env (Join [packID ++ " - " ++ m.Name, "index.json"]) w4
    rw [hcr] at t5
    have t6 := osWrite_trace env (Join [packID ++ " - " ++ m.Name, "index.json"])
      (encodeIndex m) w5
    rw [hwr] at t6
    have t6' : w6.trace = w2.trace ++ [Event.log "Pack: %q, %d stickers located"
          [m.Name, String.mk (natLit m.stickerList.length)],
        Event.mkdir (packID ++ " - " ++ m.Name) r,
        Event.create (Join [packID ++ " - " ++ m.Name, "index.json"]) none,
        Event.write (Join [packID ++ " - " ++ m.Name, "index.json"]) (encodeIndex m) none] := by
      show w6.trace = _
      rw [show w6.trace = _ from t6, show w5.trace = _ from t5, show w4.trace = _ from t4]
      simp [World.emit]
    rw [hmain] at hret ⊢
    rcases (downloadStickers_trace env m.ResourceURLPrefix (packID ++ " - " ++ m.Name)
      m.stickerList w6).2.2.2 with ⟨-, dc, dr, dh⟩ | ⟨hex, -⟩
    · have e1 : downloadCalls w6.trace = downloadCalls w.trace := by
        rw [t6']
        simp only [World.emit] at gc
        simp [downloadCalls, Event.downloadArgs] at gc ⊢
        exact gc
      have e2 : downloadRets w6.trace = downloadRets w.trace := by
        rw [t6']
        simp only [World.emit] at gr
        simp [downloadRets, Event.downloadRet] at gr ⊢
        exact gr
      have e3 : httpCalls w6.trace = httpCalls w.trace ++ [IndexUrl ++ packID] := by
        rw [t6']
        simp only [World.emit] at gh
        simp [httpCalls, Event.httpURL] at gh ⊢
        exact gh
      refine ⟨by rw [dc, e1], by rw [dr, e2], by rw [dh, e3]; simp, ?_⟩
      rw [dh, e3]
      simp
      omega
    · rw [hex] at hret
      cases hret

set_option maxRecDepth 100000 in
theorem download_sequence_witness :
    "abc123" ≠ "" ∧
    (main funnyCatsEnv "abc123" freshWorld).1 = Outcome.returned ∧
    (httpCalls (main funnyCatsEnv "abc123" freshWorld).2.trace).length =
      (httpCalls freshWorld.trace).length + (1 + funnyCats.stickerList.length) :=
  ⟨by decide, funnyCats_run.1,
    ((download_sequence funnyCatsEnv).2 "abc123" freshWorld _ funnyCats (by decide)
      funnyCats_index funnyCats_run.1).2.2.2⟩

/-! ### Paths below a clean directory -/

theorem splitSep_ne_nil (l : List Char) : splitSep l ≠ [] := by
  cases l with
  | nil => simp [splitSep]
  | cons c cs =>
    unfold splitSep
    split
    · simp
    · split <;> simp

theorem splitSep_append_sep (a b : List Char) :
    splitSep (a ++ '/' :: b) = splitSep a ++ splitSep b := by
  induction a with
  | nil => simp [splitSep]
  | cons c cs ih =>
    by_cases hc : c = '/'
    · simp [splitSep, hc, ih]
    · have hne := splitSep_ne_nil cs
      cases hs : splitSep cs with
      | nil => exact absurd hs hne
      | cons y ys => simp [splitSep, hc, ih, hs]

theorem bind_splitSep (x : List Char) :
    (splitSep x).flatMap (fun c => '/' :: c) = '/' :: x := by
  induction x with
  | nil => simp [splitSep]
  | cons c cs ih =>
    by_cases hc : c = '/'
    · simp [splitSep, hc, ih]
    · cases hs : splitSep cs with
      | nil => exact absurd hs (splitSep_ne_nil cs)
      | cons y ys =>
        rw [hs] at ih
        simp at ih
        simp [splitSep, hc, hs, ih]

theorem foldl_cleanStep_plain (rooted : Bool) :
    ∀ (comps : List (List Char)) (st : CleanState),
      (∀ c ∈ comps, c ≠ [] ∧ c ≠ ['.'] ∧ c ≠ ['.', '.']) →
      ((rooted = true ∧ st.buf.length ≠ 1) ∨ (¬ rooted = true ∧ st.buf.length ≠ 0)) →
      (comps.foldl (cleanStep rooted) st).buf = st.buf ++ comps.flatMap (fun c => '/' :: c) := by
  intro comps
  induction comps with
  | nil => intro st _ _; simp
  | cons c cs ih =>
    intro st hc hst
    obtain ⟨c1, c2, c3⟩ := hc c (List.mem_cons_self _ _)
    have hstep : cleanStep rooted st c = { st with buf := st.buf ++ '/' :: c } := by
      unfold cleanStep
      rw [if_neg (by simp [c1, c2]), if_neg c3, if_pos hst]
    rw [List.foldl_cons, hstep, ih _ (fun c' h' => hc c' (List.mem_cons_of_mem _ h'))]
    · simp
    · cases rooted
      · right
        simp
      · left
        have : c.length ≠ 0 := fun h => c1 (List.length_eq_zero.mp h)
        simp
        omega

theorem cleanChars_child (d x : List Char) (hd : cleanChars d = d) (h1 : d ≠ ['.'])
    (h2 : d ≠ ['/'])
    (hx : ∀ c ∈ splitSep x, c ≠ [] ∧ c ≠ ['.'] ∧ c ≠ ['.', '.']) :
    cleanChars (d ++ '/' :: x) = d ++ '/' :: x := by
  have hne : d ≠ [] := by
    intro h
    rw [h] at hd
    simp [cleanChars] at hd
  have hhead : (d ++ '/' :: x).head? = d.head? := by
    cases d with
    | nil => exact absurd rfl hne
    | cons a t => rfl
  have hne2 : d ++ '/' :: x ≠ [] := by simp
  unfold cleanChars at hd ⊢
  simp only [hne, hne2, if_false, hhead, splitSep_append_sep, List.foldl_append] at hd ⊢
  generalize hst : List.foldl (cleanStep (decide (d.head? = some '/')))
      (if decide (d.head? = some '/') = true then { buf := ['/'], dotdot := 1 }
       else { buf := [], dotdot := 0 }) (splitSep d) = stD at hd ⊢
  have hbuf : stD.buf = d := by
    by_cases hb : stD.buf = []
    · simp [hb] at hd
      exact absurd hd.symm h1
    · simpa [hb] using hd
  have hcond : (decide (d.head? = some '/') = true ∧ stD.buf.length ≠ 1) ∨
      (¬ decide (d.head? = some '/') = true ∧ stD.buf.length ≠ 0) := by
    rw [hbuf]
    by_cases hr : d.head? = some '/'
    · left
      refine ⟨by simp [hr], ?_⟩
      intro hl
      cases d with
      | nil => exact absurd rfl hne
      | cons a t =>
        simp at hr hl
        exact h2 (by rw [hr, hl])
    · right
      refine ⟨by simp [hr], ?_⟩
      intro hl
      exact hne (List.length_eq_zero.mp hl)
  rw [foldl_cleanStep_plain _ _ _ hx hcond, bind_splitSep, hbuf]
  simp

theorem Clean_chars (d : String) (h : Clean d = d) : cleanChars d.toList = d.toList := by
  have := congrArg String.toList h
  simpa [Clean, String.toList] using this

theorem Clean_child (d x : String) (hd : Clean d = d) (h1 : d ≠ ".") (h2 : d ≠ "/")
    (hx : plainPath x) : Clean (d ++ "/" ++ x) = d ++ "/" ++ x := by
  have e : (d ++ "/" ++ x).toList = d.toList ++ '/' :: x.toList := by
    simp [String.toList]
  have k1 : d.toList ≠ ['.'] := fun h => h1 (String.ext h)
  have k2 : d.toList ≠ ['/'] := fun h => h2 (String.ext h)
  unfold Clean
  rw [e, cleanChars_child d.toList x.toList (Clean_chars d hd) k1 k2 hx, ← e]
  rfl

theorem Join_child (d x : String) (hd : Clean d = d) (h1 : d ≠ ".") (h2 : d ≠ "/")
    (hx : plainPath x) : Join [d, x] = d ++ "/" ++ x := by
  have hne : d ≠ "" := by
    intro h
    rw [h] at hd
    exact absurd hd (by decide)
  have e : String.intercalate "/" [d, x] = d ++ "/" ++ x := rfl
  simp only [Join, hne, ne_eq, not_false_eq_true, if_true, e]
  exact Clean_child d x hd h1 h2 hx

theorem insideDir_child (d x : String) (hd : Clean d = d) (h1 : d ≠ ".") (h2 : d ≠ "/")
    (hx : plainPath x) : insideDir d (d ++ "/" ++ x) := by
  unfold insideDir
  rw [hd, Clean_child d x hd h1 h2 hx]
  exact ⟨x.toList, by simp [String.toList]⟩

theorem packDir_ne (p n : String) :
    p ++ " - " ++ n ≠ "." ∧ p ++ " - " ++ n ≠ "/" := by
  have e : (p ++ " - " ++ n).toList = p.toList ++ ' ' :: '-' :: ' ' :: n.toList := by
    simp [String.toList]
  have hmem : ' ' ∈ (p ++ " - " ++ n).toList := by rw [e]; simp
  constructor
  · intro h; rw [h] at hmem; simp at hmem
  · intro h; rw [h] at hmem; simp at hmem

theorem append_left_cancel_string (a b c : String) (h : a ++ b = a ++ c) : b = c := by
  have h2 := congrArg String.toList h
  simp only [String.toList, String.data_append] at h2
  exact String.ext (List.append_cancel_left h2)

theorem lastResponse_mem (tr : List Event) (u : String) (res : Response)
    (h : lastResponse tr u = some res) :
    ∃ hdrs, Event.httpGet u hdrs (HttpResult.ok res) ∈ tr := by
  unfold lastResponse at h
  have hm : res ∈ tr.filterMap (Event.responseFrom u) := List.mem_of_getLast?_eq_some h
  obtain ⟨e, he, hr⟩ := List.mem_filterMap.mp hm
  cases e with
  | httpGet u' hdrs r =>
    cases r with
    | error m => simp [Event.responseFrom] at hr
    | ok res' =>
      simp only [Event.responseFrom] at hr
      split at hr
      · rename_i hu
        cases hr
        exact ⟨hdrs, hu ▸ he⟩
      · cases hr
  | _ => simp [Event.responseFrom] at hr

/-! ### Files left by the download loop -/

theorem downloadStickers_cons_returned (env : Env) (pre dir : String) (s : Sticker)
    (rest : List Sticker) (w : World)
    (h : (downloadStickers env pre dir (s :: rest) w).1 = Outcome.returned) :
    ∃ res,
      downloadStickers env pre dir (s :: rest) w =
        downloadStickers env pre dir rest
          { fs := { dirs := w.fs.dirs
                    files := (Clean (Join [dir, s.FileName]), res.body) ::
                      (Clean (Join [dir, s.FileName]), "") :: w.fs.files }
            tick := w.tick + 3
            trace := w.trace ++ [Event.log "downloading sticker: %s" [s.FileName],
              Event.callDownloadImage (pre ++ s.FileName) (Join [dir, s.FileName]),
              Event.httpGet (pre ++ s.FileName) requestHeaders (HttpResult.ok res),
              Event.create (Join [dir, s.FileName]) none,
              Event.write (Join [dir, s.FileName]) res.body none,
              Event.retDownloadImage none] } := by
  have hs := downloadImage_success env (pre ++ s.FileName) (Join [dir, s.FileName])
    (w.emit (Event.log "downloading sticker: %s" [s.FileName]))
  cases hd : DownloadImage env (pre ++ s.FileName) (Join [dir, s.FileName])
      (w.emit (Event.log "downloading sticker: %s" [s.FileName])) with
  | mk r w2 =>
    rw [hd] at hs
    cases r with
    | some e =>
      have heq : downloadStickers env pre dir (s :: rest) w =
          logFatal "failed to download sticker: %v" [e] w2 := by
        simp only [downloadStickers, hd]
      rw [heq] at h
      simp [logFatal] at h
    | none =>
      obtain ⟨res, -, -, hw2⟩ := hs rfl
      replace hw2 : w2 = _ := hw2
      refine ⟨res, ?_⟩
      have heq : downloadStickers env pre dir (s :: rest) w =
          downloadStickers env pre dir rest w2 := by
        simp only [downloadStickers, hd]
      rw [heq, hw2]
      simp [World.emit]

theorem lookup_skip (K K0 : String) (v : String) (l : List (String × String)) (h : K0 ≠ K) :
    List.lookup K ((K0, v) :: l) = List.lookup K l := by
  have : (K == K0) = false := by
    simp only [beq_eq_false_iff_ne, ne_eq]
    exact fun e => h e.symm
  simp [List.lookup, this]

theorem downloadStickers_untouched (env : Env) (pre dir : String) :
    ∀ (ss : List Sticker) (w : World),
      (downloadStickers env pre dir ss w).1 = Outcome.returned →
      (∀ K, (∀ s ∈ ss, Clean (Join [dir, s.FileName]) ≠ K) →
        (downloadStickers env pre dir ss w).2.fs.read K = w.fs.read K) ∧
      (∀ u, (∀ s ∈ ss, pre ++ s.FileName ≠ u) →
        lastResponse (downloadStickers env pre dir ss w).2.trace u = lastResponse w.trace u) := by
  intro ss
  induction ss with
  | nil =>
    intro w _
    exact ⟨fun _ _ => rfl, fun _ _ => rfl⟩
  | cons s rest ih =>
    intro w h
    obtain ⟨res, heq⟩ := downloadStickers_cons_returned env pre dir s rest w h
    rw [heq] at h ⊢
    obtain ⟨i1, i2⟩ := ih _ h
    constructor
    · intro K hK
      rw [i1 K (fun s' hs' => hK s' (List.mem_cons_of_mem _ hs'))]
      have hne := hK s (List.mem_cons_self _ _)
      simp only [FS.read]
      rw [lookup_skip K _ _ _ hne, lookup_skip K _ _ _ hne]
    · intro u hu
      rw [i2 u (fun s' hs' => hu s' (List.mem_cons_of_mem _ hs'))]
      have hne := hu s (List.mem_cons_self _ _)
      simp [lastResponse, Event.responseFrom, hne]

theorem downloadStickers_files (env : Env) (pre dir : String) :
    ∀ (ss : List Sticker) (w : World),
      (downloadStickers env pre dir ss w).1 = Outcome.returned →
      (∀ s ∈ ss, ∀ s' ∈ ss,
        Clean (Join [dir, s'.FileName]) = Clean (Join [dir, s.FileName]) →
        s'.FileName = s.FileName) →
      ∀ s ∈ ss, ∃ res,
        lastResponse (downloadStickers env pre dir ss w).2.trace (pre ++ s.FileName) =
          some res ∧
        (downloadStickers env pre dir ss w).2.fs.read (Clean (Join [dir, s.FileName])) =
          some res.body := by
  intro ss
  induction ss with
  | nil =>
    intro w _ _ s hs
    cases hs
  | cons s0 rest ih =>
    intro w h hinj s hs
    obtain ⟨res0, heq⟩ := downloadStickers_cons_returned env pre dir s0 rest w h
    rw [heq] at h ⊢
    have hinj' : ∀ s ∈ rest, ∀ s' ∈ rest,
        Clean (Join [dir, s'.FileName]) = Clean (Join [dir, s.FileName]) →
        s'.FileName = s.FileName :=
      fun a ha b hb => hinj a (List.mem_cons_of_mem _ ha) b (List.mem_cons_of_mem _ hb)
    by_cases hex : ∃ s' ∈ rest, s'.FileName = s.FileName
    · obtain ⟨s', hs', hn⟩ := hex
      obtain ⟨res, r1, r2⟩ := ih _ h hinj' s' hs'
      rw [hn] at r1 r2
      exact ⟨res, r1, r2⟩
    · have hs0 : s.FileName = s0.FileName := by
        rcases List.mem_cons.mp hs with e | e
        · rw [e]
        · exact absurd ⟨s, e, rfl⟩ hex
      rw [hs0] at hex ⊢
      obtain ⟨u1, u2⟩ := downloadStickers_untouched env pre dir rest _ h
      refine ⟨res0, ?_, ?_⟩
      · rw [u2 (pre ++ s0.FileName) (fun s' hs' e =>
          hex ⟨s', hs', append_left_cancel_string _ _ _ e⟩)]
        simp [lastResponse, Event.responseFrom]
      · rw [u1 (Clean (Join [dir, s0.FileName])) (fun s' hs' e =>
          hex ⟨s', hs', hinj s0 (List.mem_cons_self _ _) s' (List.mem_cons_of_mem _ hs') e⟩)]
        simp [FS.read, List.lookup]

theorem osWrite_read (env : Env) (path data : String) (w : World)
    (hc : w.fs.read (Clean path) = some "")
    (h : (osWrite env path data w).1 = none) :
    (osWrite env path data w).2.fs.read (Clean path) = some data := by
  unfold osWrite at h ⊢
  simp only [FS.read] at hc
  cases hf : env.writeFault w.tick path with
  | some nm => simp [hf] at h
  | none => simp [hf, hc, FS.read, List.lookup]

theorem main_files (env : Env) (packID : String) (w w2 : World) (m : StickerIndex)
    (hp : packID ≠ "")
    (h1 : GetStickerIndex env packID (w.emit (Event.log "downloading index %s" [packID])) =
      ((some m, none), w2))
    (hret : (main env packID w).1 = Outcome.returned)
    (hinj : ∀ s ∈ m.stickerList, ∀ s' ∈ m.stickerList,
      Clean (Join [packID ++ " - " ++ m.Name, s'.FileName]) =
        Clean (Join [packID ++ " - " ++ m.Name, s.FileName]) →
      s'.FileName = s.FileName) :
    (∀ s ∈ m.stickerList, ∃ res,
      lastResponse (main env packID w).2.trace (m.ResourceURLPrefix ++ s.FileName) = some res ∧
      (main env packID w).2.fs.read (Clean (Join [packID ++ " - " ++ m.Name, s.FileName])) =
        some res.body) ∧
    ((∀ s ∈ m.stickerList,
        Clean (Join [packID ++ " - " ++ m.Name, s.FileName]) ≠
          Clean (Join [packID ++ " - " ++ m.Name, "index.json"])) →
      (main env packID w).2.fs.read (Clean (Join [packID ++ " - " ++ m.Name, "index.json"])) =
        some (encodeIndex m)) := by
  obtain ⟨r, w4, w5, w6, -, -, hcr, hwr, hmain⟩ := main_returned env packID w w2 m hp h1 hret
  rw [hmain] at hret ⊢
  constructor
  · exact downloadStickers_files env _ _ _ w6 hret hinj
  · intro hne
    rw [(downloadStickers_untouched env _ _ _ w6 hret).1 _ hne]
    have c1 := osCreate_read env (Join [packID ++ " - " ++ m.Name, "index.json"]) w4
      (by rw [hcr])
    rw [hcr] at c1
    have c2 := osWrite_read env (Join [packID ++ " - " ++ m.Name, "index.json"])
      (encodeIndex m) w5 c1 (by rw [hwr])
    rw [hwr] at c2
    exact c2

/-! ### Sticker files after a successful run -/

set_option maxRecDepth 100000 in
theorem escape_index :
    GetStickerIndex escapeEnv "abc123"
        (freshWorld.emit (Event.log "downloading index %s" ["abc123"])) =
      ((some escapeIndex, none),
        (GetStickerIndex escapeEnv "abc123"
          (freshWorld.emit (Event.log "downloading index %s" ["abc123"]))).2) := by
  decide

set_option maxRecDepth 100000 in
theorem escape_run :
    (main escapeEnv "abc123" freshWorld).1 = Outcome.returned ∧
    createCalls (main escapeEnv "abc123" freshWorld).2.trace =
      ["abc123 - Funny Cats/index.json", "1.webp"] ∧
    (main escapeEnv "abc123" freshWorld).2.fs.read "1.webp" =
      some "image bytes of https://cdn.example.com/abc123/../1.webp" ∧
    ((main escapeEnv "abc123" freshWorld).2.fs.files.map Prod.fst).eraseDups =
      ["1.webp", "abc123 - Funny Cats/index.json"] ∧
    ¬ insideDir "abc123 - Funny Cats" "abc123 - Funny Cats/../1.webp" := by
  decide

/-- C3, refuted as stated. A manifest whose sticker is named `../1.webp`:
the run succeeds, yet the sticker's file is not inside the output directory
(it is `1.webp` in the working directory), so it is false that after every
successful run every sticker's file lies inside the output directory under
its file name with the fetched body as content. -/
theorem sticker_file_escapes_directory :
    ¬ ∀ (env : Env) (packID : String) (w w2 : World) (m : StickerIndex), packID ≠ "" →
      GetStickerIndex env packID (w.emit (Event.log "downloading index %s" [packID])) =
        ((some m, none), w2) →
      (main env packID w).1 = Outcome.returned →
      ∀ s ∈ m.stickerList,
        insideDir (packID ++ " - " ++ m.Name) (packID ++ " - " ++ m.Name ++ "/" ++ s.FileName) ∧
        ∃ hdrs res,
          Event.httpGet (m.ResourceURLPrefix ++ s.FileName) hdrs (HttpResult.ok res) ∈
            (main env packID w).2.trace ∧
          (main env packID w).2.fs.read
              (Clean (packID ++ " - " ++ m.Name ++ "/" ++ s.FileName)) = some res.body := by
  intro h
  have h' := h escapeEnv "abc123" freshWorld _ escapeIndex (by decide) escape_index
    escape_run.1 { Sticker.zero with FileName := "../1.webp" } (by decide)
  exact escape_run.2.2.2.2 h'.1

/-- C3, amended. When the directory name `packID - Name` is a clean path and
every file name of the manifest is made of ordinary path elements, then after
a run in which every step succeeds each sticker's file is
`packDir/FileName`, inside the output directory, and holds the body of the
last response the run fetched from `ResourceURLPrefix ++ FileName`. Repeated
names and the name `index.json` are included. -/
theorem sticker_files_present (env : Env) (packID : String) (w w2 : World) (m : StickerIndex)
    (hp : packID ≠ "")
    (h1 : GetStickerIndex env packID (w.emit (Event.log "downloading index %s" [packID])) =
      ((some m, none), w2))
    (hret : (main env packID w).1 = Outcome.returned)
    (hclean : Clean (packID ++ " - " ++ m.Name) = packID ++ " - " ++ m.Name)
    (hnames : ∀ s ∈ m.stickerList, plainPath s.FileName) :
    ∀ s ∈ m.stickerList,
      Join [packID ++ " - " ++ m.Name, s.FileName] =
        packID ++ " - " ++ m.Name ++ "/" ++ s.FileName ∧
      insideDir (packID ++ " - " ++ m.Name) (packID ++ " - " ++ m.Name ++ "/" ++ s.FileName) ∧
      ∃ hdrs res,
        lastResponse (main env packID w).2.trace (m.ResourceURLPrefix ++ s.FileName) =
          some res ∧
        Event.httpGet (m.ResourceURLPrefix ++ s.FileName) hdrs (HttpResult.ok res) ∈
          (main env packID w).2.trace ∧
        (main env packID w).2.fs.read
            (Clean (packID ++ " - " ++ m.Name ++ "/" ++ s.FileName)) = some res.body := by
  obtain ⟨d1, d2⟩ := packDir_ne packID m.Name
  have hj : ∀ s ∈ m.stickerList, Join [packID ++ " - " ++ m.Name, s.FileName] =
      packID ++ " - " ++ m.Name ++ "/" ++ s.FileName :=
    fun s hs => Join_child _ _ hclean d1 d2 (hnames s hs)
  have hc : ∀ s ∈ m.stickerList, Clean (packID ++ " - " ++ m.Name ++ "/" ++ s.FileName) =
      packID ++ " - " ++ m.Name ++ "/" ++ s.FileName :=
    fun s hs => Clean_child _ _ hclean d1 d2 (hnames s hs)
  have hinj : ∀ s ∈ m.stickerList, ∀ s' ∈ m.stickerList,
      Clean (Join [packID ++ " - " ++ m.Name, s'.FileName]) =
        Clean (Join [packID ++ " - " ++ m.Name, s.FileName]) →
      s'.FileName = s.FileName := by
    intro s hs s' hs' e
    rw [hj s hs, hj s' hs', hc s hs, hc s' hs'] at e
    exact append_left_cancel_string _ _ _ e
  intro s hs
  obtain ⟨res, r1, r2⟩ := (main_files env packID w w2 m hp h1 hret hinj).1 s hs
  obtain ⟨hdrs, hmem⟩ := lastResponse_mem _ _ _ r1
  rw [hj s hs] at r2
  exact ⟨hj s hs, insideDir_child _ _ hclean d1 d2 (hnames s hs), hdrs, res, r1, hmem, r2⟩

set_option maxRecDepth 100000 in
theorem sticker_files_present_witness :
    "abc123" ≠ "" ∧
    (main funnyCatsEnv "abc123" freshWorld).1 = Outcome.returned ∧
    Clean ("abc123" ++ " - " ++ funnyCats.Name) = "abc123" ++ " - " ++ funnyCats.Name ∧
    (∀ s ∈ funnyCats.stickerList, plainPath s.FileName) ∧
    ∀ s ∈ funnyCats.stickerList,
      Join ["abc123" ++ " - " ++ funnyCats.Name, s.FileName] =
        "abc123" ++ " - " ++ funnyCats.Name ++ "/" ++ s.FileName ∧
      insideDir ("abc123" ++ " - " ++ funnyCats.Name)
        ("abc123" ++ " - " ++ funnyCats.Name ++ "/" ++ s.FileName) ∧
      ∃ hdrs res,
        lastResponse (main funnyCatsEnv "abc123" freshWorld).2.trace
          (funnyCats.ResourceURLPrefix ++ s.FileName) = some res ∧
        Event.httpGet (funnyCats.ResourceURLPrefix ++ s.FileName) hdrs (HttpResult.ok res) ∈
          (main funnyCatsEnv "abc123" freshWorld).2.trace ∧
        (main funnyCatsEnv "abc123" freshWorld).2.fs.read
            (Clean ("abc123" ++ " - " ++ funnyCats.Name ++ "/" ++ s.FileName)) =
          some res.body :=
  ⟨by decide, funnyCats_run.1, by decide, by decide,
    sticker_files_present funnyCatsEnv "abc123" freshWorld _ funnyCats (by decide)
      funnyCats_index funnyCats_run.1 (by decide) (by decide)⟩

/-! ### A second run in the same working directory -/

theorem osMkdir_exists (env : Env) (path : String) (w : World)
    (h : (osMkdir env path w).1 = none ∨ (osMkdir env path w).1 = some Errno.EEXIST) :
    Clean path ∈ (osMkdir env path w).2.fs.dirs ∨
      (osMkdir env path w).2.fs.isFile (Clean path) = true := by
  unfold osMkdir at h ⊢
  cases hf : env.mkdirFault w.tick path with
  | some m => simp [hf] at h
  | none =>
    by_cases h1 : Clean path ∈ w.fs.dirs ∨ w.fs.isFile (Clean path) = true
    · simp [hf, h1]
    · by_cases h2 : parentDir (Clean path) ∈ w.fs.dirs
      · simp [hf, h1, h2]
      · simp [hf, h1, h2] at h

theorem osMkdir_eexist (env : Env) (path : String) (w : World)
    (hf : env.mkdirFault w.tick path = none)
    (h : Clean path ∈ w.fs.dirs ∨ w.fs.isFile (Clean path) = true) :
    osMkdir env path w =
      (some Errno.EEXIST,
        { fs := w.fs
          tick := w.tick + 1
          trace := w.trace ++ [Event.mkdir path (some Errno.EEXIST)] }) := by
  simp [osMkdir, hf, h]

theorem osMkdir_error_fs (env : Env) (path : String) (w : World) (e : Errno)
    (h : (osMkdir env path w).1 = some e) : (osMkdir env path w).2.fs = w.fs := by
  unfold osMkdir at h ⊢
  cases hf : env.mkdirFault w.tick path with
  | some m => simp [hf]
  | none =>
    by_cases h1 : Clean path ∈ w.fs.dirs ∨ w.fs.isFile (Clean path) = true
    · simp [hf, h1]
    · by_cases h2 : parentDir (Clean path) ∈ w.fs.dirs
      · simp [hf, h1, h2] at h
      · simp [hf, h1, h2]

theorem isFile_cons (K K0 v : String) (fs : FS) (h : fs.isFile K = true) :
    ({ fs with files := (K0, v) :: fs.files } : FS).isFile K = true := by
  unfold FS.isFile at h ⊢
  by_cases e : K0 = K
  · subst e
    simp [List.lookup]
  · rw [lookup_skip K K0 v _ e]
    exact h

theorem osCreate_isFile (env : Env) (path K : String) (w : World)
    (h : w.fs.isFile K = true) : (osCreate env path w).2.fs.isFile K = true := by
  unfold osCreate
  cases hf : env.createFault w.tick path with
  | some m => simpa [hf] using h
  | none =>
    by_cases h1 : Clean path ∈ w.fs.dirs
    · simpa [hf, h1] using h
    · by_cases h2 : parentDir (Clean path) ∈ w.fs.dirs
      · simp only [hf, h1, h2, if_true, if_false]
        exact isFile_cons K _ _ _ h
      · simpa [hf, h1, h2] using h

theorem osWrite_isFile (env : Env) (path data K : String) (w : World)
    (h : w.fs.isFile K = true) : (osWrite env path data w).2.fs.isFile K = true := by
  unfold osWrite
  exact isFile_cons K _ _ _ h

theorem downloadStickers_isFile (env : Env) (pre dir K : String) :
    ∀ (ss : List Sticker) (w : World),
      (downloadStickers env pre dir ss w).1 = Outcome.returned →
      w.fs.isFile K = true → (downloadStickers env pre dir ss w).2.fs.isFile K = true := by
  intro ss
  induction ss with
  | nil => intro w _ h; exact h
  | cons s rest ih =>
    intro w hret h
    obtain ⟨res, heq⟩ := downloadStickers_cons_returned env pre dir s rest w hret
    rw [heq] at hret ⊢
    refine ih _ hret ?_
    exact isFile_cons K _ _ { dirs := w.fs.dirs, files := (_, "") :: w.fs.files }
      (isFile_cons K _ _ w.fs h)

theorem getStickerIndex_tick (env : Env) (packID : String) (w : World)
    (h : (GetStickerIndex env packID w).1.2 = none) :
    (GetStickerIndex env packID w).2.tick = w.tick + 1 := by
  simp only [GetStickerIndex, GetStickerIndexBody, clientDo, World.emit] at h ⊢
  cases hreq : env.newRequest (IndexUrl ++ packID) with
  | some e => simp [hreq] at h
  | none =>
    cases hrt : env.roundTrip w.tick (IndexUrl ++ packID) with
    | error e => simp [hreq, hrt] at h
    | ok res =>
      cases hdec : decodeBody res with
      | error e => simp [hreq, hrt, hdec] at h
      | ok ir => simp [hdec]

theorem mkdirResults_of_calls (ext : List Event) (h : mkdirCalls ext = []) :
    mkdirResults ext = [] := by
  induction ext with
  | nil => rfl
  | cons e es ih =>
    cases e <;>
      simp_all [mkdirCalls, mkdirResults, Event.mkdirPath, Event.mkdirResult]

theorem main_exists_after (env : Env) (packID : String) (w w2 : World) (m : StickerIndex)
    (hp : packID ≠ "")
    (h1 : GetStickerIndex env packID (w.emit (Event.log "downloading index %s" [packID])) =
      ((some m, none), w2))
    (hret : (main env packID w).1 = Outcome.returned) :
    Clean (packID ++ " - " ++ m.Name) ∈ (main env packID w).2.fs.dirs ∨
      (main env packID w).2.fs.isFile (Clean (packID ++ " - " ++ m.Name)) = true := by
  obtain ⟨r, w4, w5, w6, hmk, hr, hcr, hwr, hmain⟩ := main_returned env packID w w2 m hp h1 hret
  have hex := osMkdir_exists env (packID ++ " - " ++ m.Name)
    (w2.emit (Event.log "Pack: %q, %d stickers located"
      [m.Name, String.mk (natLit m.stickerList.length)]))
  rw [hmk] at hex
  have hex := hex hr
  rw [hmain] at hret ⊢
  have d5 := osCreate_dirs env (Join [packID ++ " - " ++ m.Name, "index.json"]) w4
  rw [hcr] at d5
  have d6 := osWrite_dirs env (Join [packID ++ " - " ++ m.Name, "index.json"])
    (encodeIndex m) w5
  rw [hwr] at d6
  rcases hex with hd | hf
  · left
    rw [(downloadStickers_trace env _ _ _ w6).2.1]
    rw [show w6.fs.dirs = w5.fs.dirs from d6, show w5.fs.dirs = w4.fs.dirs from d5]
    exact hd
  · right
    refine downloadStickers_isFile env _ _ _ _ w6 hret ?_
    have f5 := osCreate_isFile env (Join [packID ++ " - " ++ m.Name, "index.json"]) _ w4 hf
    rw [hcr] at f5
    have f6 := osWrite_isFile env (Join [packID ++ " - " ++ m.Name, "index.json"])
      (encodeIndex m) _ w5 f5
    rw [hwr] at f6
    exact f6

theorem getStickerIndex_writes (env : Env) (packID : String) (w : World) :
    writeCalls (GetStickerIndex env packID
        (w.emit (Event.log "downloading index %s" [packID]))).2.trace =
      writeCalls (w.emit (Event.log "downloading index %s" [packID])).trace := by
  simp only [GetStickerIndex, GetStickerIndexBody, clientDo, World.emit, writeCalls]
  cases hreq : env.newRequest (IndexUrl ++ packID) with
  | some e => simp [Event.written]
  | none =>
    cases hrt : env.roundTrip w.tick (IndexUrl ++ packID) with
    | error e => simp [Event.written]
    | ok res =>
      cases hdec : decodeBody res with
      | error e => simp [hdec, Event.written]
      | ok ir => simp [hdec, Event.written]

set_option maxRecDepth 100000 in
theorem renamed_second_run :
    (main funnyCatsEnv "abc123" freshWorld).1 = Outcome.returned ∧
    (main renamedEnv "abc123" (main funnyCatsEnv "abc123" freshWorld).2.restart).1 =
      Outcome.returned ∧
    mkdirCalls (main renamedEnv "abc123"
      (main funnyCatsEnv "abc123" freshWorld).2.restart).2.trace = ["abc123 - Happy Cats"] ∧
    mkdirResults (main renamedEnv "abc123"
      (main funnyCatsEnv "abc123" freshWorld).2.restart).2.trace = [none] ∧
    (main renamedEnv "abc123" (main funnyCatsEnv "abc123" freshWorld).2.restart).2.fs.read
      "abc123 - Funny Cats/0.webp" =
        some "image bytes of https://cdn.example.com/abc123/0.webp" := by
  decide

/-- C8, refuted as stated. After a successful first run, a second run for the
same pack identifier whose fetched manifest carries another pack name creates
a new directory: its directory creation succeeds instead of failing with
"already exists", and the files of the first run keep their content. -/
theorem second_run_may_create_directory :
    ¬ ∀ (env1 env2 : Env) (packID : String) (w : World), packID ≠ "" →
      (main env1 packID w).1 = Outcome.returned →
      mkdirResults (main env2 packID (main env1 packID w).2.restart).2.trace =
        [some Errno.EEXIST] := by
  intro h
  have h' := h funnyCatsEnv renamedEnv "abc123" freshWorld (by decide) renamed_second_run.1
  rw [renamed_second_run.2.2.2.1] at h'
  exact absurd h' (by decide)

/-- C8, amended. After a successful first run, a second run for the same pack
identifier that fetches a manifest with the same pack name, and whose
directory creation meets no fault beyond the state of the file system, gets
"already exists" from its one `os.Mkdir`, tolerates it and goes on to create
`index.json`. If that run succeeds too, the directory name is a clean path
and the sticker file names are ordinary path elements other than
`index.json`, then `index.json` holds the encoding of the manifest the second
run fetched and every sticker file holds the body the second run last
fetched for it, nothing else. Any directory-creation error other than
"already exists" ends a run with status 1 before `index.json` is created or
written, the file system unchanged. -/
theorem second_run_overwrites (env1 env2 : Env) (packID : String) (w w2 v2 : World)
    (m1 m2 : StickerIndex) (hp : packID ≠ "")
    (h1 : GetStickerIndex env1 packID (w.emit (Event.log "downloading index %s" [packID])) =
      ((some m1, none), w2))
    (hret1 : (main env1 packID w).1 = Outcome.returned)
    (h2 : GetStickerIndex env2 packID
        ((main env1 packID w).2.restart.emit (Event.log "downloading index %s" [packID])) =
      ((some m2, none), v2))
    (hname : m2.Name = m1.Name)
    (hfault : env2.mkdirFault ((main env1 packID w).2.tick + 1)
      (packID ++ " - " ++ m2.Name) = none) :
    (mkdirResults (main env2 packID (main env1 packID w).2.restart).2.trace =
        [some Errno.EEXIST] ∧
      mkdirCalls (main env2 packID (main env1 packID w).2.restart).2.trace =
        [packID ++ " - " ++ m2.Name] ∧
      (createCalls (main env2 packID (main env1 packID w).2.restart).2.trace).head? =
        some (Join [packID ++ " - " ++ m2.Name, "index.json"])) ∧
    ((main env2 packID (main env1 packID w).2.restart).1 = Outcome.returned →
      Clean (packID ++ " - " ++ m2.Name) = packID ++ " - " ++ m2.Name →
      (∀ s ∈ m2.stickerList, plainPath s.FileName ∧ s.FileName ≠ "index.json") →
      (main env2 packID (main env1 packID w).2.restart).2.fs.read
          (packID ++ " - " ++ m2.Name ++ "/" ++ "index.json") = some (encodeIndex m2) ∧
      ∀ s ∈ m2.stickerList, ∃ res,
        lastResponse (main env2 packID (main env1 packID w).2.restart).2.trace
          (m2.ResourceURLPrefix ++ s.FileName) = some res ∧
        (main env2 packID (main env1 packID w).2.restart).2.fs.read
          (packID ++ " - " ++ m2.Name ++ "/" ++ s.FileName) = some res.body) ∧
    (∀ (env : Env) (p : String) (u u2 : World) (m : StickerIndex) (e : Errno), p ≠ "" →
      GetStickerIndex env p (u.emit (Event.log "downloading index %s" [p])) =
        ((some m, none), u2) →
      (osMkdir env (p ++ " - " ++ m.Name)
        (u2.emit (Event.log "Pack: %q, %d stickers located"
          [m.Name, String.mk (natLit m.stickerList.length)]))).1 = some e →
      e ≠ Errno.EEXIST →
      (main env p u).1 = Outcome.exited 1 ∧
      createCalls (main env p u).2.trace = createCalls u.trace ∧
      writeCalls (main env p u).2.trace = writeCalls u.trace ∧
      (main env p u).2.fs = u.fs) := by
  have hidx : plainPath "index.json" := by decide
  refine ⟨?_, ?_, ?_⟩
  · have hex := main_exists_after env1 packID w w2 m1 hp h1 hret1
    rw [← hname] at hex
    have fr := getStickerIndex_frame env2 packID
      ((main env1 packID w).2.restart.emit (Event.log "downloading index %s" [packID]))
    have tk := getStickerIndex_tick env2 packID
      ((main env1 packID w).2.restart.emit (Event.log "downloading index %s" [packID]))
    rw [h2] at fr tk
    obtain ⟨ffs, -, fm, fc, -, -, -⟩ := fr
    have tk := tk rfl
    simp only [World.emit, World.restart, mkdirCalls, createCalls, List.nil_append,
      List.filterMap_cons, List.filterMap_nil, Event.mkdirPath, Event.createPath] at ffs fm fc tk
    have hmk := osMkdir_eexist env2 (packID ++ " - " ++ m2.Name)
      (v2.emit (Event.log "Pack: %q, %d stickers located"
        [m2.Name, String.mk (natLit m2.stickerList.length)]))
      (by simpa [World.emit, tk] using hfault)
      (by simpa [World.emit, ffs] using hex)
    have hm := main_of_index env2 packID (main env1 packID w).2.restart v2 m2 hp h2
    rw [hmk] at hm
    simp only [Errno.isExist, if_true] at hm
    rw [hm]
    obtain ⟨wm, -, e, we, -⟩ := writeAndDownload_frame env2 (packID ++ " - " ++ m2.Name) m2
      { fs := (v2.emit (Event.log "Pack: %q, %d stickers located"
            [m2.Name, String.mk (natLit m2.stickerList.length)])).fs
        tick := (v2.emit (Event.log "Pack: %q, %d stickers located"
            [m2.Name, String.mk (natLit m2.stickerList.length)])).tick + 1
        trace := (v2.emit (Event.log "Pack: %q, %d stickers located"
            [m2.Name, String.mk (natLit m2.stickerList.length)])).trace ++
          [Event.mkdir (packID ++ " - " ++ m2.Name) (some Errno.EEXIST)] }
    obtain ⟨ext, hext⟩ := we
    rw [← hext] at wm ⊢
    have hnil : mkdirCalls ext = [] := by
      simp only [World.emit, mkdirCalls, List.filterMap_append, List.filterMap_cons,
        List.filterMap_nil, Event.mkdirPath, List.append_nil] at wm
      simpa [mkdirCalls] using wm
    have hres := mkdirResults_of_calls ext hnil
    have hres2 := mkdirResults_of_calls v2.trace fm
    simp only [mkdirResults, mkdirCalls, createCalls] at hres hres2 hnil fm fc ⊢
    simp [World.emit, Event.mkdirResult, Event.mkdirPath, Event.createPath, hres, hres2,
      hnil, fm, fc]
  · intro hret2 hclean hnames
    obtain ⟨d1, d2⟩ := packDir_ne packID m2.Name
    have hj : ∀ x, plainPath x → Join [packID ++ " - " ++ m2.Name, x] =
        packID ++ " - " ++ m2.Name ++ "/" ++ x :=
      fun x hx => Join_child _ _ hclean d1 d2 hx
    have hc : ∀ x, plainPath x → Clean (packID ++ " - " ++ m2.Name ++ "/" ++ x) =
        packID ++ " - " ++ m2.Name ++ "/" ++ x :=
      fun x hx => Clean_child _ _ hclean d1 d2 hx
    have hinj : ∀ s ∈ m2.stickerList, ∀ s' ∈ m2.stickerList,
        Clean (Join [packID ++ " - " ++ m2.Name, s'.FileName]) =
          Clean (Join [packID ++ " - " ++ m2.Name, s.FileName]) →
        s'.FileName = s.FileName := by
      intro s hs s' hs' e
      rw [hj _ (hnames s hs).1, hj _ (hnames s' hs').1, hc _ (hnames s hs).1,
        hc _ (hnames s' hs').1] at e
      exact append_left_cancel_string _ _ _ e
    obtain ⟨f1, f2⟩ := main_files env2 packID (main env1 packID w).2.restart v2 m2 hp h2
      hret2 hinj
    constructor
    · have := f2 (by
        intro s hs e
        rw [hj _ (hnames s hs).1, hj _ hidx, hc _ (hnames s hs).1, hc _ hidx] at e
        exact (hnames s hs).2 (append_left_cancel_string _ _ _ e))
      rw [hj _ hidx, hc _ hidx] at this
      exact this
    · intro s hs
      obtain ⟨res, r1, r2⟩ := f1 s hs
      rw [hj _ (hnames s hs).1, hc _ (hnames s hs).1] at r2
      exact ⟨res, r1, r2⟩
  · intro env p u u2 m e hp' hi hmk hne
    have fr := getStickerIndex_frame env p (u.emit (Event.log "downloading index %s" [p]))
    rw [hi] at fr
    obtain ⟨ffs, -, -, fc, -, -, -⟩ := fr
    have hfs := osMkdir_error_fs env (p ++ " - " ++ m.Name)
      (u2.emit (Event.log "Pack: %q, %d stickers located"
        [m.Name, String.mk (natLit m.stickerList.length)])) e hmk
    have htr := osMkdir_trace env (p ++ " - " ++ m.Name)
      (u2.emit (Event.log "Pack: %q, %d stickers located"
        [m.Name, String.mk (natLit m.stickerList.length)]))
    have hm := main_of_index env p u u2 m hp' hi
    cases hk : osMkdir env (p ++ " - " ++ m.Name)
        (u2.emit (Event.log "Pack: %q, %d stickers located"
          [m.Name, String.mk (natLit m.stickerList.length)])) with
    | mk r w4 =>
      rw [hk] at hmk hfs htr hm
      simp only at hmk
      subst hmk
      have hie : e.isExist = false := by
        cases e with
        | EEXIST => exact absurd rfl hne
        | ENOENT => rfl
        | EISDIR => rfl
        | other msg => rfl
      simp only [hie, Bool.false_eq_true, if_false] at hm
      rw [hm]
      simp only [World.emit] at hfs htr ffs fc
      have hw : writeCalls u2.trace = writeCalls u.trace := by
        have := getStickerIndex_writes env p u
        rw [hi] at this
        simpa [World.emit, writeCalls, Event.written] using this
      refine ⟨rfl, ?_, ?_, ?_⟩
      · simp only [logFatal, World.emit, show w4.trace = _ from htr]
        simp only [createCalls, List.filterMap_append, List.filterMap_cons, List.filterMap_nil,
          Event.createPath, List.append_nil] at fc ⊢
        simpa using fc
      · simp only [logFatal, World.emit, show w4.trace = _ from htr]
        simp only [writeCalls, List.filterMap_append, List.filterMap_cons, List.filterMap_nil,
          Event.written, List.append_nil] at hw ⊢
        simpa using hw
      · simp only [logFatal, World.emit]
        rw [show w4.fs = _ from hfs]
        exact ffs

set_option maxRecDepth 100000 in
theorem refreshed_index :
    GetStickerIndex refreshedEnv "abc123"
        ((main funnyCatsEnv "abc123" freshWorld).2.restart.emit
          (Event.log "downloading index %s" ["abc123"])) =
      ((some funnyCats, none),
        (GetStickerIndex refreshedEnv "abc123"
          ((main funnyCatsEnv "abc123" freshWorld).2.restart.emit
            (Event.log "downloading index %s" ["abc123"]))).2) := by
  decide

set_option maxRecDepth 100000 in
theorem refreshed_second_run :
    (main refreshedEnv "abc123" (main funnyCatsEnv "abc123" freshWorld).2.restart).1 =
      Outcome.returned ∧
    (main refreshedEnv "abc123" (main funnyCatsEnv "abc123" freshWorld).2.restart).2.fs.read
      "abc123 - Funny Cats/0.webp" =
        some "new image bytes of https://cdn.example.com/abc123/0.webp" ∧
    (main refreshedEnv "abc123" (main funnyCatsEnv "abc123" freshWorld).2.restart).2.fs.read
      "abc123 - Funny Cats/1.webp" =
        some "new image bytes of https://cdn.example.com/abc123/1.webp" := by
  decide

set_option maxRecDepth 100000 in
theorem second_run_overwrites_witness :
    "abc123" ≠ "" ∧
    (main funnyCatsEnv "abc123" freshWorld).1 = Outcome.returned ∧
    funnyCats.Name = funnyCats.Name ∧
    refreshedEnv.mkdirFault ((main funnyCatsEnv "abc123" freshWorld).2.tick + 1)
      ("abc123" ++ " - " ++ funnyCats.Name) = none ∧
    (main refreshedEnv "abc123" (main funnyCatsEnv "abc123" freshWorld).2.restart).1 =
      Outcome.returned ∧
    mkdirResults (main refreshedEnv "abc123"
      (main funnyCatsEnv "abc123" freshWorld).2.restart).2.trace = [some Errno.EEXIST] ∧
    (main refreshedEnv "abc123" (main funnyCatsEnv "abc123" freshWorld).2.restart).2.fs.read
      ("abc123" ++ " - " ++ funnyCats.Name ++ "/" ++ "index.json") =
        some (encodeIndex funnyCats) :=
  ⟨by decide, funnyCats_run.1, rfl, rfl, refreshed_second_run.1,
    (second_run_overwrites funnyCatsEnv refreshedEnv "abc123" freshWorld _ _ funnyCats
      funnyCats (by decide) funnyCats_index funnyCats_run.1 refreshed_index rfl rfl).1.1,
    ((second_run_overwrites funnyCatsEnv refreshedEnv "abc123" freshWorld _ _ funnyCats
      funnyCats (by decide) funnyCats_index funnyCats_run.1 refreshed_index rfl rfl).2.1
        refreshed_second_run.1 (by decide) (by decide)).1⟩

/-! ### The manifest file decodes to the manifest -/
/-! ### Decimal literals -/

theorem digit_toNat (k : Nat) (h : k < 10) : (Char.ofNat (48 + k)).toNat = 48 + k := by
  interval_cases k <;> rfl

theorem digit_isDigit (k : Nat) (h : k < 10) : isDigit (Char.ofNat (48 + k)) = true := by
  interval_cases k <;> rfl

theorem digit_eq_zero (k : Nat) (h : k < 10) (e : Char.ofNat (48 + k) = '0') : k = 0 := by
  interval_cases k <;> first | rfl | exact absurd e (by decide)

theorem digitsVal_append (ds : List Char) (c : Char) :
    digitsVal (ds ++ [c]) = 10 * digitsVal ds + (c.toNat - 48) := by
  simp [digitsVal, List.foldl_append]

theorem natDigits_spec : ∀ (fuel n : Nat) (acc : List Char), n < fuel →
    ∃ ds, natDigits fuel n acc = ds ++ acc ∧ ds ≠ [] ∧ (∀ c ∈ ds, isDigit c = true) ∧
      digitsVal ds = n ∧ (ds.head? = some '0' → ds = ['0']) := by
  intro fuel
  induction fuel with
  | zero => intro n acc h; omega
  | succ fuel ih =>
    intro n acc h
    by_cases hn : n < 10
    · refine ⟨[Char.ofNat (48 + n)], by simp [natDigits, hn], by simp, ?_, ?_, ?_⟩
      · intro c hc
        simp at hc
        rw [hc]
        exact digit_isDigit n hn
      · simp [digitsVal, digit_toNat n hn]
      · intro e
        simp at e
        rw [e]
    · have hlt : n / 10 < fuel := by omega
      obtain ⟨ds, h1, h2, h3, h4, h5⟩ := ih (n / 10) (Char.ofNat (48 + n % 10) :: acc) hlt
      have hmod : n % 10 < 10 := Nat.mod_lt _ (by decide)
      refine ⟨ds ++ [Char.ofNat (48 + n % 10)], ?_, by simp, ?_, ?_, ?_⟩
      · simp [natDigits, hn, h1]
      · intro c hc
        rcases List.mem_append.mp hc with hc | hc
        · exact h3 c hc
        · simp at hc
          rw [hc]
          exact digit_isDigit _ hmod
      · rw [digitsVal_append, h4, digit_toNat _ hmod]
        omega
      · intro e
        have e' : ds.head? = some '0' := by
          cases ds with
          | nil => exact absurd rfl h2
          | cons a t => simpa using e
        have := h5 e'
        rw [this] at h4
        simp [digitsVal] at h4
        omega

theorem natLit_spec (n : Nat) :
    natLit n ≠ [] ∧ (∀ c ∈ natLit n, isDigit c = true) ∧ digitsVal (natLit n) = n ∧
      ((natLit n).head? = some '0' → natLit n = ['0']) := by
  obtain ⟨ds, h1, h2, h3, h4, h5⟩ := natDigits_spec (n + 1) n [] (Nat.lt_succ_self n)
  simp only [List.append_nil] at h1
  unfold natLit
  rw [h1]
  exact ⟨h2, h3, h4, h5⟩

theorem parseUint64_natLit (n : Nat) (h : n < 2 ^ 64) : parseUint64 (natLit n) = some n := by
  obtain ⟨h1, h2, h3, -⟩ := natLit_spec n
  have hall : (natLit n).all isDigit = true := List.all_eq_true.mpr h2
  simp [parseUint64, h1, hall, h3]
  exact h

theorem parseInt64_intLit (i : Int) (h1 : -(2 ^ 63) ≤ i) (h2 : i < 2 ^ 63) :
    parseInt64 (intLit i) = some i := by
  cases i with
  | ofNat n =>
    obtain ⟨k1, k2, k3, -⟩ := natLit_spec n
    have hall : (natLit n).all isDigit = true := List.all_eq_true.mpr k2
    have hn : n < 2 ^ 63 := by
      have : (n : Int) < 2 ^ 63 := h2
      exact_mod_cast this
    cases hl : natLit n with
    | nil => exact absurd hl k1
    | cons c ds =>
      have hc : c ≠ '-' := by
        intro e
        have := k2 c (by rw [hl]; exact List.mem_cons_self _ _)
        rw [e] at this
        exact absurd this (by decide)
      rw [hl] at hall k3
      simp [intLit, parseInt64, hl, hc, hall, k3]
      exact hn
  | negSucc n =>
    obtain ⟨k1, k2, k3, -⟩ := natLit_spec (n + 1)
    have hall : (natLit (n + 1)).all isDigit = true := List.all_eq_true.mpr k2
    have hn : n + 1 ≤ 2 ^ 63 := by
      have : -(2 ^ 63 : Int) ≤ Int.negSucc n := h1
      rw [Int.negSucc_eq] at this
      have h' : ((n : Int) + 1) ≤ 2 ^ 63 := by linarith
      exact_mod_cast h'
    simp only [intLit, parseInt64, k1, hall, k3, hn, ne_eq, not_false_eq_true, and_self,
      if_true]
    rw [Int.negSucc_eq]
    simp

theorem takeWhile_digits (ds rest : List Char) (h : ∀ c ∈ ds, isDigit c = true)
    (hr : ∀ c t, rest = c :: t → isDigit c = false) :
    (ds ++ rest).takeWhile isDigit = ds ∧ (ds ++ rest).dropWhile isDigit = rest := by
  induction ds with
  | nil =>
    cases rest with
    | nil => simp
    | cons c t => simp [hr c t rfl]
  | cons a as ih =>
    have ha := h a (List.mem_cons_self _ _)
    obtain ⟨i1, i2⟩ := ih (fun c hc => h c (List.mem_cons_of_mem _ hc))
    simp [List.takeWhile, List.dropWhile, ha, i1, i2]

theorem scanExp_ends (lit rest : List Char) (h : EndsValue rest) :
    scanExp lit rest = some (lit, rest) := by
  obtain ⟨t, rfl | rfl⟩ := h <;> simp [scanExp]

theorem scanFrac_ends (lit rest : List Char) (h : EndsValue rest) :
    scanFrac lit rest = some (lit, rest) := by
  have := scanExp_ends lit rest h
  obtain ⟨t, rfl | rfl⟩ := h <;> simpa [scanFrac] using this

theorem endsValue_not_digit (rest : List Char) (h : EndsValue rest) :
    ∀ c t, rest = c :: t → isDigit c = false := by
  intro c t e
  obtain ⟨t', rfl | rfl⟩ := h
  · cases e; rfl
  · cases e; rfl

theorem scanInt_natLit (sign rest : List Char) (n : Nat) (h : EndsValue rest) :
    scanInt sign (natLit n ++ rest) = some (sign ++ natLit n, rest) := by
  obtain ⟨k1, k2, k3, k4⟩ := natLit_spec n
  cases hl : natLit n with
  | nil => exact absurd hl k1
  | cons c ds =>
    rw [hl] at k2 k4
    by_cases hc : c = '0'
    · have := k4 (by simp [hc])
      simp at this
      obtain ⟨-, rfl⟩ := this
      simp [scanInt, hc, scanFrac_ends _ rest h]
    · have hd : isDigit c = true := k2 c (List.mem_cons_self _ _)
      obtain ⟨t1, t2⟩ := takeWhile_digits ds rest
        (fun x hx => k2 x (List.mem_cons_of_mem _ hx)) (endsValue_not_digit rest h)
      simp [scanInt, hc, hd, t1, t2, scanFrac_ends _ rest h]

theorem natLit_head (n : Nat) : ∃ c ds, natLit n = c :: ds ∧ isDigit c = true := by
  obtain ⟨k1, k2, -, -⟩ := natLit_spec n
  cases hl : natLit n with
  | nil => exact absurd hl k1
  | cons c ds => exact ⟨c, ds, rfl, k2 c (by rw [hl]; exact List.mem_cons_self _ _)⟩

theorem scanNumber_natLit (rest : List Char) (n : Nat) (h : EndsValue rest) :
    scanNumber (natLit n ++ rest) = some (natLit n, rest) := by
  obtain ⟨c, ds, hl, hd⟩ := natLit_head n
  have hc : c ≠ '-' := by
    intro e
    rw [e] at hd
    exact absurd hd (by decide)
  have := scanInt_natLit [] rest n h
  rw [hl] at this ⊢
  simpa [scanNumber, hc] using this

theorem scanNumber_intLit (rest : List Char) (i : Int) (h : EndsValue rest) :
    scanNumber (intLit i ++ rest) = some (intLit i, rest) := by
  cases i with
  | ofNat n => exact scanNumber_natLit rest n h
  | negSucc n =>
    have := scanInt_natLit ['-'] rest (n + 1) h
    simpa [intLit, scanNumber] using this

/-! ### String literals -/

theorem hexVal_hexDigit (k : Nat) (h : k < 16) : hexVal (hexDigit k) = some k := by
  interval_cases k <;> rfl

theorem hex4_low (a b : Nat) (ha : a < 16) (hb : b < 16) (tail : List Char) :
    hex4 ('0' :: '0' :: hexDigit a :: hexDigit b :: tail) = some (a * 16 + b) := by
  have h0 : hexVal '0' = some 0 := rfl
  simp [hex4, h0, hexVal_hexDigit a ha, hexVal_hexDigit b hb]

theorem hex4_line (b : Nat) (hb : b < 16) (tail : List Char) :
    hex4 ('2' :: '0' :: '2' :: hexDigit b :: tail) = some (0x2020 + b) := by
  have h0 : hexVal '0' = some 0 := rfl
  have h2 : hexVal '2' = some 2 := rfl
  simp [hex4, h0, h2, hexVal_hexDigit b hb]

theorem parseStrBody_unicode (fuel rr : Nat) (tail : List Char) (a b c d : Char)
    (h : hex4 (a :: b :: c :: d :: tail) = some rr) (hs : ¬ (0xD800 ≤ rr ∧ rr < 0xE000)) :
    parseStrBody (fuel + 1) ('\\' :: 'u' :: a :: b :: c :: d :: tail) =
      (parseStrBody fuel tail).map fun p => (Char.ofNat rr :: p.1, p.2) := by
  have e1 : ('\\' : Char) ≠ '"' := by decide
  simp only [parseStrBody, e1, if_false, if_true, h, hs, List.drop]

theorem parseStrBody_escapeChar (c : Char) (fuel : Nat) (tail : List Char) :
    parseStrBody (fuel + 1) (escapeChar c ++ tail) =
      (parseStrBody fuel tail).map fun p => (c :: p.1, p.2) := by
  unfold escapeChar
  by_cases h1 : c = '"' ∨ c = '\\'
  · rcases h1 with rfl | rfl <;> simp [parseStrBody, simpleEscape]
  by_cases h2 : c = '\x08'
  · subst h2; simp [parseStrBody, simpleEscape]
  by_cases h3 : c = '\x0c'
  · subst h3; simp [parseStrBody, simpleEscape]
  by_cases h4 : c = '\n'
  · subst h4; simp [parseStrBody, simpleEscape]
  by_cases h5 : c = '\r'
  · subst h5; simp [parseStrBody, simpleEscape]
  by_cases h6 : c = '\t'
  · subst h6; simp [parseStrBody, simpleEscape]
  by_cases h7 : c.toNat < 0x20 ∨ c = '<' ∨ c = '>' ∨ c = '&'
  · have hlt : c.toNat < 128 := by
      rcases h7 with h | rfl | rfl | rfl
      · omega
      · decide
      · decide
      · decide
    have hx := hex4_low (c.toNat / 16) (c.toNat % 16) (by omega) (Nat.mod_lt _ (by decide)) tail
    have hv : c.toNat / 16 * 16 + c.toNat % 16 = c.toNat := by omega
    rw [hv] at hx
    have := parseStrBody_unicode fuel c.toNat tail _ _ _ _ hx (by omega)
    simp only [h1, h2, h3, h4, h5, h6, h7, if_false, if_true, List.cons_append, List.nil_append]
    rw [this, Char.ofNat_toNat]
  by_cases h8 : c.toNat = 0x2028 ∨ c.toNat = 0x2029
  · have hx := hex4_line (c.toNat % 16) (Nat.mod_lt _ (by decide)) tail
    have hv : 0x2020 + c.toNat % 16 = c.toNat := by omega
    rw [hv] at hx
    have := parseStrBody_unicode fuel c.toNat tail _ _ _ _ hx (by omega)
    simp only [h1, h2, h3, h4, h5, h6, h7, h8, if_false, if_true, List.cons_append,
      List.nil_append]
    rw [this, Char.ofNat_toNat]
  · have q1 : c ≠ '"' := fun e => h1 (Or.inl e)
    have q2 : c ≠ '\\' := fun e => h1 (Or.inr e)
    have q3 : ¬ c.toNat < 0x20 := fun e => h7 (Or.inl e)
    simp only [h1, h2, h3, h4, h5, h6, h7, h8, if_false, List.cons_append, List.nil_append]
    simp only [parseStrBody, q1, q2, q3, if_false]

theorem escapeChars_length (s : List Char) : s.length ≤ (escapeChars s).length := by
  induction s with
  | nil => simp [escapeChars]
  | cons c cs ih =>
    have : 1 ≤ (escapeChar c).length := by
      unfold escapeChar
      split_ifs <;> simp
    simp only [escapeChars, List.length_append, List.length_cons]
    omega

theorem parseStrBody_escapeChars (s : List Char) :
    ∀ (fuel : Nat) (rest : List Char), s.length < fuel →
      parseStrBody fuel (escapeChars s ++ '"' :: rest) = some (s, rest) := by
  induction s with
  | nil =>
    intro fuel rest h
    cases fuel with
    | zero => omega
    | succ f => simp [escapeChars, parseStrBody]
  | cons c cs ih =>
    intro fuel rest h
    cases fuel with
    | zero => omega
    | succ f =>
      simp only [escapeChars, List.append_assoc]
      rw [parseStrBody_escapeChar, ih f rest (by simpa using h)]
      rfl

theorem parseString_escapeChars (s rest : List Char) :
    parseString (escapeChars s ++ '"' :: rest) = some (s, rest) := by
  unfold parseString
  apply parseStrBody_escapeChars
  have := escapeChars_length s
  simp only [List.length_append, List.length_cons]
  omega

/-! ### Values in indented text -/

theorem skipSpace_cons (c : Char) (t : List Char) (h : isSpace c = false) :
    skipSpace (c :: t) = c :: t := by
  simp [skipSpace, h]

theorem skipSpace_indent (k : Nat) (cs : List Char) :
    skipSpace (List.replicate k ' ' ++ cs) = skipSpace cs := by
  induction k with
  | zero => simp
  | succ k ih =>
    have : isSpace ' ' = true := rfl
    simp [List.replicate_succ, skipSpace, this, ih]

theorem skipSpace_newline_indent (d : Nat) (cs : List Char) :
    skipSpace ('\n' :: (indent d ++ cs)) = skipSpace cs := by
  have : isSpace '\n' = true := rfl
  simp [skipSpace, this, indent, skipSpace_indent]

theorem reads_null (d : Nat) : Reads d JSON.null := by
  refine ⟨⟨'n', _, rfl, rfl, by decide⟩, ?_⟩
  intro fuel rest hf _
  cases fuel with
  | zero => omega
  | succ f => simp [render, parseValue, expect]

theorem reads_bool (d : Nat) (b : Bool) : Reads d (JSON.bool b) := by
  cases b with
  | true =>
    refine ⟨⟨'t', _, rfl, rfl, by decide⟩, ?_⟩
    intro fuel rest hf _
    cases fuel with
    | zero => omega
    | succ f => simp [render, parseValue, expect]
  | false =>
    refine ⟨⟨'f', _, rfl, rfl, by decide⟩, ?_⟩
    intro fuel rest hf _
    cases fuel with
    | zero => omega
    | succ f => simp [render, parseValue, expect]

theorem reads_str (d : Nat) (s : List Char) : Reads d (JSON.str s) := by
  refine ⟨⟨'"', _, rfl, rfl, by decide⟩, ?_⟩
  intro fuel rest hf _
  cases fuel with
  | zero => omega
  | succ f =>
    simp [render, renderString, parseValue, parseString_escapeChars]

theorem parseValue_number (fuel : Nat) (c : Char) (ds rest : List Char)
    (hc : isDigit c = true ∨ c = '-') :
    parseValue (fuel + 1) (c :: ds ++ rest) =
      (scanNumber (c :: ds ++ rest)).map fun p => (JSON.num p.1, p.2) := by
  have n1 : c ≠ '{' := by rintro rfl; rcases hc with h | h <;> exact absurd h (by decide)
  have n2 : c ≠ '[' := by rintro rfl; rcases hc with h | h <;> exact absurd h (by decide)
  have n3 : c ≠ '"' := by rintro rfl; rcases hc with h | h <;> exact absurd h (by decide)
  have n4 : c ≠ 't' := by rintro rfl; rcases hc with h | h <;> exact absurd h (by decide)
  have n5 : c ≠ 'f' := by rintro rfl; rcases hc with h | h <;> exact absurd h (by decide)
  have n6 : c ≠ 'n' := by rintro rfl; rcases hc with h | h <;> exact absurd h (by decide)
  simp [parseValue, n1, n2, n3, n4, n5, n6]

theorem digit_starts (c : Char) (hc : isDigit c = true ∨ c = '-') :
    isSpace c = false ∧ c ≠ ']' := by
  constructor
  · cases hs : isSpace c with
    | false => rfl
    | true =>
      simp only [isSpace, Bool.or_eq_true, beq_iff_eq] at hs
      rcases hs with ((rfl | rfl) | rfl) | rfl <;>
        rcases hc with h | h <;> exact absurd h (by decide)
  · rintro rfl; rcases hc with h | h <;> exact absurd h (by decide)

theorem reads_natLit (d n : Nat) : Reads d (JSON.num (natLit n)) := by
  obtain ⟨c, ds, hl, hd⟩ := natLit_head n
  obtain ⟨s1, s2⟩ := digit_starts c (Or.inl hd)
  refine ⟨⟨c, ds, by simp [render, hl], s1, s2⟩, ?_⟩
  intro fuel rest hf he
  cases fuel with
  | zero => omega
  | succ f =>
    have := scanNumber_natLit rest n he
    simp only [render]
    rw [hl] at this ⊢
    rw [parseValue_number f c ds rest (Or.inl hd), this]
    rfl

theorem reads_intLit (d : Nat) (i : Int) : Reads d (JSON.num (intLit i)) := by
  cases i with
  | ofNat n => exact reads_natLit d n
  | negSucc n =>
    refine ⟨⟨'-', natLit (n + 1), rfl, rfl, by decide⟩, ?_⟩
    intro fuel rest hf he
    cases fuel with
    | zero => omega
    | succ f =>
      have := scanNumber_intLit rest (Int.negSucc n) he
      simp only [render, intLit] at this ⊢
      rw [parseValue_number f '-' (natLit (n + 1)) rest (Or.inr rfl), this]
      rfl

theorem renderElems_ends (d : Nat) (xs : List JSON) (rest : List Char) :
    EndsValue (renderElems d xs ++ rest) := by
  cases xs with
  | nil => exact ⟨_, Or.inr rfl⟩
  | cons y ys => exact ⟨_, Or.inl rfl⟩

theorem renderMembers_ends (d : Nat) (kvs : List (List Char × JSON)) (rest : List Char) :
    EndsValue (renderMembers d kvs ++ rest) := by
  cases kvs with
  | nil => exact ⟨_, Or.inr rfl⟩
  | cons kv kvs => obtain ⟨k, v⟩ := kv; exact ⟨_, Or.inl rfl⟩

theorem renderElems_length (d : Nat) (xs : List JSON) : 2 ≤ (renderElems d xs).length := by
  cases xs with
  | nil => simp [renderElems]
  | cons y ys => simp [renderElems]

theorem renderMembers_length (d : Nat) (kvs : List (List Char × JSON)) :
    2 ≤ (renderMembers d kvs).length := by
  cases kvs with
  | nil => simp [renderMembers]
  | cons kv kvs => obtain ⟨k, v⟩ := kv; simp [renderMembers]

theorem skipSpace_reads (d : Nat) (v : JSON) (h : Reads d v) (rest : List Char) :
    skipSpace (render d v ++ rest) = render d v ++ rest := by
  obtain ⟨⟨c, t, e, hs, -⟩, -⟩ := h
  rw [e]
  exact skipSpace_cons c _ hs

theorem parseElems_render (d : Nat) :
    ∀ (xs : List JSON) (x : JSON) (fuel : Nat) (rest : List Char),
      Reads (d + 1) x → (∀ y ∈ xs, Reads (d + 1) y) →
      (render (d + 1) x).length + (renderElems d xs).length < fuel →
      parseElems fuel (render (d + 1) x ++ (renderElems d xs ++ rest)) = some (x :: xs, rest) := by
  intro xs
  induction xs with
  | nil =>
    intro x fuel rest hx _ hf
    cases fuel with
    | zero => omega
    | succ g =>
      have hl := renderElems_length d []
      have hv := hx.2 g (renderElems d [] ++ rest) (by omega) (renderElems_ends d [] rest)
      have hsk : skipSpace (renderElems d [] ++ rest) = ']' :: rest := by
        simp only [renderElems, List.cons_append, List.append_assoc]
        rw [skipSpace_newline_indent]
        exact skipSpace_cons _ _ rfl
      simp [parseElems, hv, hsk]
  | cons y ys ih =>
    intro x fuel rest hx hys hf
    cases fuel with
    | zero => omega
    | succ g =>
      have hl := renderElems_length d (y :: ys)
      have hv := hx.2 g (renderElems d (y :: ys) ++ rest) (by omega)
        (renderElems_ends d (y :: ys) rest)
      have hy := hys y (List.mem_cons_self _ _)
      have hrec := ih y g rest hy (fun z hz => hys z (List.mem_cons_of_mem _ hz)) (by
        simp only [renderElems, List.length_cons, List.length_append] at hf
        omega)
      have hsk : skipSpace (renderElems d (y :: ys) ++ rest) =
          ',' :: '\n' :: (indent (d + 1) ++ (render (d + 1) y ++ (renderElems d ys ++ rest))) := by
        simp only [renderElems, List.cons_append, List.append_assoc]
        exact skipSpace_cons _ _ rfl
      have hsk2 : skipSpace ('\n' :: (indent (d + 1) ++
          (render (d + 1) y ++ (renderElems d ys ++ rest)))) =
          render (d + 1) y ++ (renderElems d ys ++ rest) := by
        rw [skipSpace_newline_indent]
        exact skipSpace_reads _ _ hy _
      simp [parseElems, hv, hsk, hsk2, hrec]

theorem reads_arr (d : Nat) (xs : List JSON) (h : ∀ x ∈ xs, Reads (d + 1) x) :
    Reads d (JSON.arr xs) := by
  cases xs with
  | nil =>
    refine ⟨⟨'[', _, rfl, rfl, by decide⟩, ?_⟩
    intro fuel rest hf _
    cases fuel with
    | zero => omega
    | succ f =>
      have hsk : skipSpace (']' :: rest) = ']' :: rest := skipSpace_cons _ _ rfl
      simp [render, parseValue, hsk]
  | cons x xs =>
    refine ⟨⟨'[', _, rfl, rfl, by decide⟩, ?_⟩
    intro fuel rest hf _
    cases fuel with
    | zero => omega
    | succ f =>
      have hx := h x (List.mem_cons_self _ _)
      obtain ⟨⟨c, t, e, hs, hc⟩, -⟩ := id hx
      have hrec := parseElems_render d xs x f rest hx
        (fun z hz => h z (List.mem_cons_of_mem _ hz)) (by
          simp only [render, List.length_cons, List.length_append] at hf
          omega)
      have hsk : skipSpace ('\n' :: (indent (d + 1) ++
          (render (d + 1) x ++ (renderElems d xs ++ rest)))) =
          c :: (t ++ (renderElems d xs ++ rest)) := by
        rw [skipSpace_newline_indent, skipSpace_reads _ _ hx, e]
        rfl
      rw [e] at hrec
      simp only [List.cons_append] at hrec
      simp only [render, List.cons_append, List.append_assoc, parseValue]
      simp [hsk, hc, hrec]

theorem parseMembers_render (d : Nat) :
    ∀ (kvs : List (List Char × JSON)) (k : List Char) (v : JSON) (fuel : Nat)
      (rest : List Char),
      Reads (d + 1) v → (∀ kv ∈ kvs, Reads (d + 1) kv.2) →
      (render (d + 1) v).length + (renderMembers d kvs).length < fuel →
      parseMembers fuel (renderString k ++ (':' :: ' ' ::
        (render (d + 1) v ++ (renderMembers d kvs ++ rest)))) = some ((k, v) :: kvs, rest) := by
  intro kvs
  induction kvs with
  | nil =>
    intro k v fuel rest hv _ hf
    cases fuel with
    | zero => omega
    | succ g =>
      have hl := renderMembers_length d []
      have hval := hv.2 g (renderMembers d [] ++ rest) (by omega) (renderMembers_ends d [] rest)
      have hsk : skipSpace (renderMembers d [] ++ rest) = '}' :: rest := by
        simp only [renderMembers, List.cons_append, List.append_assoc]
        rw [skipSpace_newline_indent]
        exact skipSpace_cons _ _ rfl
      have hstr := parseString_escapeChars k
        (':' :: ' ' :: (render (d + 1) v ++ (renderMembers d [] ++ rest)))
      have hc : skipSpace (':' :: ' ' :: (render (d + 1) v ++ (renderMembers d [] ++ rest))) =
          ':' :: ' ' :: (render (d + 1) v ++ (renderMembers d [] ++ rest)) :=
        skipSpace_cons _ _ rfl
      have hsp : skipSpace (' ' :: (render (d + 1) v ++ (renderMembers d [] ++ rest))) =
          render (d + 1) v ++ (renderMembers d [] ++ rest) := by
        have : isSpace ' ' = true := rfl
        simp only [skipSpace, this, if_true]
        exact skipSpace_reads _ _ hv _
      simp only [renderString, List.cons_append, List.append_assoc, parseMembers]
      simp only [↓reduceIte, List.append_eq, List.append_assoc, List.singleton_append, hstr, hc, hsp, hval, hsk,
        Char.reduceEq]
  | cons kv kvs ih =>
    obtain ⟨k', v'⟩ := kv
    intro k v fuel rest hv hkvs hf
    cases fuel with
    | zero => omega
    | succ g =>
      have hl := renderMembers_length d ((k', v') :: kvs)
      have hval := hv.2 g (renderMembers d ((k', v') :: kvs) ++ rest) (by omega)
        (renderMembers_ends d ((k', v') :: kvs) rest)
      have hv' : Reads (d + 1) v' := hkvs (k', v') (List.mem_cons_self _ _)
      have hrec := ih k' v' g rest hv' (fun z hz => hkvs z (List.mem_cons_of_mem _ hz)) (by
        simp only [renderMembers, renderString, List.length_cons, List.length_append] at hf
        omega)
      have hsk : skipSpace (renderMembers d ((k', v') :: kvs) ++ rest) =
          ',' :: '\n' :: (indent (d + 1) ++ (renderString k' ++ (':' :: ' ' ::
            (render (d + 1) v' ++ (renderMembers d kvs ++ rest))))) := by
        simp only [renderMembers, List.cons_append, List.append_assoc]
        exact skipSpace_cons _ _ rfl
      have hsk2 : skipSpace ('\n' :: (indent (d + 1) ++ (renderString k' ++ (':' :: ' ' ::
            (render (d + 1) v' ++ (renderMembers d kvs ++ rest)))))) =
          renderString k' ++ (':' :: ' ' ::
            (render (d + 1) v' ++ (renderMembers d kvs ++ rest))) := by
        rw [skipSpace_newline_indent]
        simp only [renderString, List.cons_append]
        exact skipSpace_cons _ _ rfl
      have hstr := parseString_escapeChars k
        (':' :: ' ' :: (render (d + 1) v ++ (renderMembers d ((k', v') :: kvs) ++ rest)))
      have hc : skipSpace (':' :: ' ' ::
          (render (d + 1) v ++ (renderMembers d ((k', v') :: kvs) ++ rest))) =
          ':' :: ' ' :: (render (d + 1) v ++ (renderMembers d ((k', v') :: kvs) ++ rest)) :=
        skipSpace_cons _ _ rfl
      have hsp : skipSpace (' ' ::
          (render (d + 1) v ++ (renderMembers d ((k', v') :: kvs) ++ rest))) =
          render (d + 1) v ++ (renderMembers d ((k', v') :: kvs) ++ rest) := by
        have : isSpace ' ' = true := rfl
        simp only [skipSpace, this, if_true]
        exact skipSpace_reads _ _ hv _
      simp only [renderString, List.cons_append, List.append_assoc, parseMembers]
      simp only [↓reduceIte, List.append_eq, List.append_assoc, List.singleton_append, hstr, hc, hsp, hval, hsk,
        Char.reduceEq, hsk2, hrec, Option.map_some']

theorem reads_obj (d : Nat) (kvs : List (List Char × JSON))
    (h : ∀ kv ∈ kvs, Reads (d + 1) kv.2) : Reads d (JSON.obj kvs) := by
  cases kvs with
  | nil =>
    refine ⟨⟨'{', _, rfl, rfl, by decide⟩, ?_⟩
    intro fuel rest hf _
    cases fuel with
    | zero => omega
    | succ f =>
      have hsk : skipSpace ('}' :: rest) = '}' :: rest := skipSpace_cons _ _ rfl
      simp [render, parseValue, hsk]
  | cons kv kvs =>
    obtain ⟨k, v⟩ := kv
    refine ⟨⟨'{', _, rfl, rfl, by decide⟩, ?_⟩
    intro fuel rest hf _
    cases fuel with
    | zero => omega
    | succ f =>
      have hv : Reads (d + 1) v := h (k, v) (List.mem_cons_self _ _)
      have hrec := parseMembers_render d kvs k v f rest hv
        (fun z hz => h z (List.mem_cons_of_mem _ hz)) (by
          simp only [render, renderString, List.length_cons, List.length_append] at hf
          omega)
      have hsk : skipSpace ('\n' :: (indent (d + 1) ++ (renderString k ++ (':' :: ' ' ::
            (render (d + 1) v ++ (renderMembers d kvs ++ rest)))))) =
          '"' :: (escapeChars k ++ ('"' :: ':' :: ' ' ::
            (render (d + 1) v ++ (renderMembers d kvs ++ rest)))) := by
        rw [skipSpace_newline_indent]
        simp only [renderString, List.cons_append, List.append_assoc, List.nil_append]
        exact skipSpace_cons _ _ rfl
      simp only [renderString, List.cons_append, List.append_assoc, List.nil_append] at hrec
      simp only [render, List.cons_append, List.append_assoc, parseValue]
      simp [hsk, hrec]

/-! ### The manifest schema -/

theorem reads_strings (d : Nat) (ts : Option (List String)) : Reads d (stringsJSON ts) := by
  cases ts with
  | none => exact reads_null d
  | some ts =>
    refine reads_arr d _ ?_
    intro x hx
    obtain ⟨t, -, rfl⟩ := List.mem_map.mp hx
    exact reads_str _ _

theorem reads_sticker (d : Nat) (s : Sticker) : Reads d (stickerJSON s) := by
  refine reads_obj d _ ?_
  intro kv hkv
  simp only [List.mem_cons, List.mem_singleton, List.not_mem_nil, or_false] at hkv
  rcases hkv with rfl | rfl | rfl | rfl | rfl | rfl | rfl
  · exact reads_bool _ _
  · exact reads_strings _ _
  · exact reads_str _ _
  · exact reads_str _ _
  · exact reads_bool _ _
  · exact reads_intLit _ _
  · exact reads_bool _ _

theorem reads_stickers (d : Nat) (ss : Option (List Sticker)) : Reads d (stickersJSON ss) := by
  cases ss with
  | none => exact reads_null d
  | some ss =>
    refine reads_arr d _ ?_
    intro x hx
    obtain ⟨s, -, rfl⟩ := List.mem_map.mp hx
    exact reads_sticker _ _

theorem reads_index (d : Nat) (m : StickerIndex) : Reads d (indexJSON m) := by
  refine reads_obj d _ ?_
  intro kv hkv
  simp only [List.mem_cons, List.mem_singleton, List.not_mem_nil, or_false] at hkv
  rcases hkv with rfl | rfl | rfl | rfl | rfl | rfl | rfl | rfl | rfl | rfl | rfl | rfl | rfl |
    rfl | rfl
  · exact reads_stickers _ _
  · exact reads_str _ _
  · exact reads_bool _ _
  · exact reads_intLit _ _
  · exact reads_intLit _ _
  · exact reads_str _ _
  · exact reads_intLit _ _
  · exact reads_bool _ _
  · exact reads_str _ _
  · exact reads_str _ _
  · exact reads_intLit _ _
  · exact reads_str _ _
  · exact reads_natLit _ _
  · exact reads_str _ _
  · exact reads_str _ _

theorem parseTop_encodeIndex (m : StickerIndex) :
    parseTop (encodeIndex m).toList = some (indexJSON m) := by
  obtain ⟨⟨c, t, e, hs, -⟩, hp⟩ := reads_index 0 m
  have hsk : skipSpace (render 0 (indexJSON m) ++ ['\n']) = render 0 (indexJSON m) ++ ['\n'] := by
    rw [e]
    exact skipSpace_cons _ _ hs
  have hv := hp ((render 0 (indexJSON m) ++ ['\n']).length + 1) ['\n']
    (by simp only [List.length_append, List.length_singleton]; omega) ⟨[], Or.inr rfl⟩
  have hl : (encodeIndex m).toList = render 0 (indexJSON m) ++ ['\n'] := rfl
  rw [hl]
  unfold parseTop
  rw [hsk, hv]
  rfl

theorem decodeElems_map {α : Type} (f : JSON → α → Option α) (zero : α) (g : α → JSON)
    (xs : List α) (h : ∀ x ∈ xs, f (g x) zero = some x) :
    decodeElems f zero (xs.map g) [] = some xs := by
  induction xs with
  | nil => rfl
  | cons x xs ih =>
    have hx := h x (List.mem_cons_self _ _)
    have := ih (fun y hy => h y (List.mem_cons_of_mem _ hy))
    simp [decodeElems, hx, this]

theorem decodeString_str (s old : String) : decodeString (JSON.str s.toList) old = some s := rfl

theorem decodeTags (ts : Option (List String)) :
    decodeSlice decodeString "" (stringsJSON ts) none = some ts := by
  cases ts with
  | none => rfl
  | some ts =>
    have := decodeElems_map decodeString "" (fun t : String => JSON.str t.toList) ts
      (fun x _ => rfl)
    simp only [decodeSlice, stringsJSON, Option.getD_none, this, Option.map_some']

theorem decodeSticker_json (s : Sticker) (h : s.InRange) :
    decodeSticker (stickerJSON s) Sticker.zero = some s := by
  have hi := parseInt64_intLit s.ViewCount h.1 h.2
  have k1 : ∀ v a, decodeStickerField "liked".toList v a =
      (decodeBool v a.Liked).map fun x => { a with Liked := x } := fun _ _ => rfl
  have k2 : ∀ v a, decodeStickerField "tags".toList v a =
      (decodeSlice decodeString "" v a.Tags).map fun x => { a with Tags := x } :=
    fun _ _ => rfl
  have k3 : ∀ v a, decodeStickerField "fileName".toList v a =
      (decodeString v a.FileName).map fun x => { a with FileName := x } := fun _ _ => rfl
  have k4 : ∀ v a, decodeStickerField "sid".toList v a =
      (decodeString v a.SID).map fun x => { a with SID := x } := fun _ _ => rfl
  have k5 : ∀ v a, decodeStickerField "animated".toList v a =
      (decodeBool v a.Animated).map fun x => { a with Animated := x } := fun _ _ => rfl
  have k6 : ∀ v a, decodeStickerField "viewCount".toList v a =
      (decodeInt v a.ViewCount).map fun x => { a with ViewCount := x } := fun _ _ => rfl
  have k7 : ∀ v a, decodeStickerField "isAnimated".toList v a =
      (decodeBool v a.IsAnimated).map fun x => { a with IsAnimated := x } := fun _ _ => rfl
  simp only [decodeSticker, stickerJSON, decodeMembers, k1, k2, k3, k4, k5, k6, k7,
    decodeBool, decodeString_str, decodeInt, hi, Option.map_some', Sticker.zero, decodeTags]

theorem decodeStickers (ss : Option (List Sticker)) (h : ∀ s ∈ ss.getD [], s.InRange) :
    decodeSlice decodeSticker Sticker.zero (stickersJSON ss) none = some ss := by
  cases ss with
  | none => rfl
  | some ss =>
    have := decodeElems_map decodeSticker Sticker.zero stickerJSON ss
      (fun x hx => decodeSticker_json x (h x hx))
    simp only [decodeSlice, stickersJSON, Option.getD_none, this, Option.map_some']

theorem decodeIndexValue_json (m : StickerIndex) (h : m.InRange) :
    decodeIndexValue (indexJSON m) StickerIndex.zero = some m := by
  obtain ⟨hs, h1, h2, h3, h4, h5⟩ := h
  have i1 := parseInt64_intLit m.TrayIndex h1.1 h1.2
  have i2 := parseInt64_intLit m.ViewCount h2.1 h2.2
  have i3 := parseInt64_intLit m.ExportCount h3.1 h3.2
  have i4 := parseInt64_intLit m.ResourceVersion h4.1 h4.2
  have i5 := parseUint64_natLit m.Updated h5
  have i6 := decodeStickers m.Stickers hs
  have k1 : ∀ v a, decodeIndexField "stickers".toList v a =
      (decodeSlice decodeSticker Sticker.zero v a.Stickers).map fun x => { a with Stickers := x } := fun _ _ => rfl
  have k2 : ∀ v a, decodeIndexField "packId".toList v a =
      (decodeString v a.PackID).map fun x => { a with PackID := x } := fun _ _ => rfl
  have k3 : ∀ v a, decodeIndexField "animated".toList v a =
      (decodeBool v a.Animated).map fun x => { a with Animated := x } := fun _ _ => rfl
  have k4 : ∀ v a, decodeIndexField "trayIndex".toList v a =
      (decodeInt v a.TrayIndex).map fun x => { a with TrayIndex := x } := fun _ _ => rfl
  have k5 : ∀ v a, decodeIndexField "viewCount".toList v a =
      (decodeInt v a.ViewCount).map fun x => { a with ViewCount := x } := fun _ _ => rfl
  have k6 : ∀ v a, decodeIndexField "authorName".toList v a =
      (decodeString v a.AuthorName).map fun x => { a with AuthorName := x } := fun _ _ => rfl
  have k7 : ∀ v a, decodeIndexField "exportCount".toList v a =
      (decodeInt v a.ExportCount).map fun x => { a with ExportCount := x } := fun _ _ => rfl
  have k8 : ∀ v a, decodeIndexField "isAnimated".toList v a =
      (decodeBool v a.IsAnimated).map fun x => { a with IsAnimated := x } := fun _ _ => rfl
  have k9 : ∀ v a, decodeIndexField "shareUrl".toList v a =
      (decodeString v a.ShareURL).map fun x => { a with ShareURL := x } := fun _ _ => rfl
  have k10 : ∀ v a, decodeIndexField "resourceUrlPrefix".toList v a =
      (decodeString v a.ResourceURLPrefix).map fun x => { a with ResourceURLPrefix := x } := fun _ _ => rfl
  have k11 : ∀ v a, decodeIndexField "resourceVersion".toList v a =
      (decodeInt v a.ResourceVersion).map fun x => { a with ResourceVersion := x } := fun _ _ => rfl
  have k12 : ∀ v a, decodeIndexField "resourceZip".toList v a =
      (decodeString v a.ResourceZip).map fun x => { a with ResourceZip := x } := fun _ _ => rfl
  have k13 : ∀ v a, decodeIndexField "updated".toList v a =
      (decodeUint64 v a.Updated).map fun x => { a with Updated := x } := fun _ _ => rfl
  have k14 : ∀ v a, decodeIndexField "owner".toList v a =
      (decodeString v a.Owner).map fun x => { a with Owner := x } := fun _ _ => rfl
  have k15 : ∀ v a, decodeIndexField "name".toList v a =
      (decodeString v a.Name).map fun x => { a with Name := x } := fun _ _ => rfl
  simp only [decodeIndexValue, indexJSON, decodeMembers, k1, k2, k3, k4, k5, k6, k7, k8, k9, k10, k11, k12, k13, k14, k15,
    decodeBool, decodeString_str, decodeInt, decodeUint64, i1, i2, i3, i4, i5, i6,
    Option.map_some', StickerIndex.zero]

theorem decodeIndex_encodeIndex (m : StickerIndex) (h : m.InRange) :
    decodeIndex (encodeIndex m) = some m := by
  unfold decodeIndex
  rw [parseTop_encodeIndex m]
  exact decodeIndexValue_json m h

/-! ### Decoded manifests are in range -/

theorem parseInt64_range (lit : List Char) (i : Int) (h : parseInt64 lit = some i) :
    -(2 ^ 63) ≤ i ∧ i < 2 ^ 63 := by
  unfold parseInt64 at h
  cases lit with
  | nil => simp at h
  | cons c ds =>
    simp only at h
    split_ifs at h with h1 h2 h3
    · cases h
      obtain ⟨-, -, hv⟩ := h2
      have : ((digitsVal ds : Nat) : Int) ≤ 2 ^ 63 := by exact_mod_cast hv
      have h0 : (0 : Int) ≤ (digitsVal ds : Nat) := Int.ofNat_nonneg _
      constructor <;> linarith
    · cases h
      obtain ⟨-, hv⟩ := h3
      have : ((digitsVal (c :: ds) : Nat) : Int) < 2 ^ 63 := by exact_mod_cast hv
      have h0 : (0 : Int) ≤ (digitsVal (c :: ds) : Nat) := Int.ofNat_nonneg _
      constructor <;> linarith

theorem parseUint64_range (lit : List Char) (n : Nat) (h : parseUint64 lit = some n) :
    n < 2 ^ 64 := by
  unfold parseUint64 at h
  split_ifs at h with h1
  cases h
  exact h1.2.2

theorem decodeInt_range (j : JSON) (old i : Int) (ho : -(2 ^ 63) ≤ old ∧ old < 2 ^ 63)
    (h : decodeInt j old = some i) : -(2 ^ 63) ≤ i ∧ i < 2 ^ 63 := by
  cases j with
  | null => cases h; exact ho
  | num lit => exact parseInt64_range lit i h
  | _ => cases h

theorem decodeUint64_range (j : JSON) (old n : Nat) (ho : old < 2 ^ 64)
    (h : decodeUint64 j old = some n) : n < 2 ^ 64 := by
  cases j with
  | null => cases h; exact ho
  | num lit => exact parseUint64_range lit n h
  | _ => cases h

theorem decodeMembers_preserves {α : Type} (P : α → Prop)
    (f : List Char → JSON → α → Option α)
    (hf : ∀ k v a b, P a → f k v a = some b → P b) :
    ∀ (kvs : List (List Char × JSON)) (a b : α), P a → decodeMembers f kvs a = some b → P b := by
  intro kvs
  induction kvs with
  | nil =>
    intro a b ha h
    cases h
    exact ha
  | cons kv kvs ih =>
    obtain ⟨k, v⟩ := kv
    intro a b ha h
    simp only [decodeMembers] at h
    cases hk : f k v a with
    | none => rw [hk] at h; cases h
    | some a1 =>
      rw [hk] at h
      exact ih a1 b (hf k v a a1 ha hk) h

theorem decodeElems_preserves {α : Type} (P : α → Prop) (f : JSON → α → Option α) (zero : α)
    (hf : ∀ j a b, P a → f j a = some b → P b) (hz : P zero) :
    ∀ (js : List JSON) (old as : List α), (∀ o ∈ old, P o) →
      decodeElems f zero js old = some as → ∀ a ∈ as, P a := by
  intro js
  induction js with
  | nil =>
    intro old as _ h
    cases h
    intro a ha
    cases ha
  | cons j js ih =>
    intro old as ho h
    simp only [decodeElems] at h
    have hhead : P (old.headD zero) := by
      cases old with
      | nil => exact hz
      | cons o os => exact ho o (List.mem_cons_self _ _)
    have htail : ∀ o ∈ old.tail, P o := fun o h' => ho o (List.mem_of_mem_tail h')
    cases hk : f j (old.headD zero) with
    | none => rw [hk] at h; cases h
    | some a1 =>
      rw [hk] at h
      cases hr : decodeElems f zero js old.tail with
      | none => rw [hr] at h; cases h
      | some as' =>
        rw [hr] at h
        cases h
        intro a ha
        rcases List.mem_cons.mp ha with e | e
        · rw [e]; exact hf j _ a1 hhead hk
        · exact ih old.tail as' htail hr a e

theorem decodeSlice_preserves {α : Type} (P : α → Prop) (f : JSON → α → Option α) (zero : α)
    (hf : ∀ j a b, P a → f j a = some b → P b) (hz : P zero) (j : JSON)
    (old r : Option (List α)) (ho : ∀ o ∈ old.getD [], P o)
    (h : decodeSlice f zero j old = some r) : ∀ a ∈ r.getD [], P a := by
  cases j with
  | null => cases h; intro a ha; cases ha
  | arr js =>
    simp only [decodeSlice] at h
    cases hr : decodeElems f zero js (old.getD []) with
    | none => rw [hr] at h; cases h
    | some as =>
      rw [hr] at h
      cases h
      exact decodeElems_preserves P f zero hf hz js _ as ho hr
  | _ => cases h

theorem decodeStickerField_range (k : List Char) (v : JSON) (a b : Sticker) (ha : a.InRange)
    (h : decodeStickerField k v a = some b) : b.InRange := by
  unfold decodeStickerField at h
  split at h
  · cases h; exact ha
  · split_ifs at h <;> obtain ⟨x, hx, rfl⟩ := Option.map_eq_some'.mp h
    · exact ha
    · exact ha
    · exact ha
    · exact ha
    · exact ha
    · exact decodeInt_range v _ x ha hx
    · exact ha

theorem decodeSticker_range (j : JSON) (a b : Sticker) (ha : a.InRange)
    (h : decodeSticker j a = some b) : b.InRange := by
  cases j with
  | null => cases h; exact ha
  | obj kvs => exact decodeMembers_preserves _ _ decodeStickerField_range kvs a b ha h
  | _ => cases h

theorem zero_sticker_range : Sticker.zero.InRange := by
  constructor <;> simp [Sticker.zero]

theorem zero_index_range : StickerIndex.zero.InRange := by
  refine ⟨?_, ?_, ?_, ?_, ?_, ?_⟩ <;> simp [StickerIndex.zero, StickerIndex.stickerList]

theorem decodeIndexField_range (k : List Char) (v : JSON) (a b : StickerIndex)
    (ha : a.InRange) (h : decodeIndexField k v a = some b) : b.InRange := by
  obtain ⟨a0, a1, a2, a3, a4, a5⟩ := ha
  unfold decodeIndexField at h
  cases hl : lookupField indexTags k with
  | none =>
    rw [hl] at h
    cases h
    exact ⟨a0, a1, a2, a3, a4, a5⟩
  | some t =>
    rw [hl] at h
    simp only at h
    by_cases c0 : t = "stickers"
    · rw [if_pos c0] at h
      obtain ⟨x, hx, rfl⟩ := Option.map_eq_some'.mp h
      exact ⟨decodeSlice_preserves _ _ _ decodeSticker_range zero_sticker_range v _ x a0 hx,
      a1, a2, a3, a4, a5⟩
    rw [if_neg c0] at h
    by_cases c1 : t = "packId"
    · rw [if_pos c1] at h
      obtain ⟨x, hx, rfl⟩ := Option.map_eq_some'.mp h
      exact ⟨a0, a1, a2, a3, a4, a5⟩
    rw [if_neg c1] at h
    by_cases c2 : t = "animated"
    · rw [if_pos c2] at h
      obtain ⟨x, hx, rfl⟩ := Option.map_eq_some'.mp h
      exact ⟨a0, a1, a2, a3, a4, a5⟩
    rw [if_neg c2] at h
    by_cases c3 : t = "trayIndex"
    · rw [if_pos c3] at h
      obtain ⟨x, hx, rfl⟩ := Option.map_eq_some'.mp h
      exact ⟨a0, decodeInt_range v _ x a1 hx, a2, a3, a4, a5⟩
    rw [if_neg c3] at h
    by_cases c4 : t = "viewCount"
    · rw [if_pos c4] at h
      obtain ⟨x, hx, rfl⟩ := Option.map_eq_some'.mp h
      exact ⟨a0, a1, decodeInt_range v _ x a2 hx, a3, a4, a5⟩
    rw [if_neg c4] at h
    by_cases c5 : t = "authorName"
    · rw [if_pos c5] at h
      obtain ⟨x, hx, rfl⟩ := Option.map_eq_some'.mp h
      exact ⟨a0, a1, a2, a3, a4, a5⟩
    rw [if_neg c5] at h
    by_cases c6 : t = "exportCount"
    · rw [if_pos c6] at h
      obtain ⟨x, hx, rfl⟩ := Option.map_eq_some'.mp h
      exact ⟨a0, a1, a2, decodeInt_range v _ x a3 hx, a4, a5⟩
    rw [if_neg c6] at h
    by_cases c7 : t = "isAnimated"
    · rw [if_pos c7] at h
      obtain ⟨x, hx, rfl⟩ := Option.map_eq_some'.mp h
      exact ⟨a0, a1, a2, a3, a4, a5⟩
    rw [if_neg c7] at h
    by_cases c8 : t = "shareUrl"
    · rw [if_pos c8] at h
      obtain ⟨x, hx, rfl⟩ := Option.map_eq_some'.mp h
      exact ⟨a0, a1, a2, a3, a4, a5⟩
    rw [if_neg c8] at h
    by_cases c9 : t = "resourceUrlPrefix"
    · rw [if_pos c9] at h
      obtain ⟨x, hx, rfl⟩ := Option.map_eq_some'.mp h
      exact ⟨a0, a1, a2, a3, a4, a5⟩
    rw [if_neg c9] at h
    by_cases c10 : t = "resourceVersion"
    · rw [if_pos c10] at h
      obtain ⟨x, hx, rfl⟩ := Option.map_eq_some'.mp h
      exact ⟨a0, a1, a2, a3, decodeInt_range v _ x a4 hx, a5⟩
    rw [if_neg c10] at h
    by_cases c11 : t = "resourceZip"
    · rw [if_pos c11] at h
      obtain ⟨x, hx, rfl⟩ := Option.map_eq_some'.mp h
      exact ⟨a0, a1, a2, a3, a4, a5⟩
    rw [if_neg c11] at h
    by_cases c12 : t = "updated"
    · rw [if_pos c12] at h
      obtain ⟨x, hx, rfl⟩ := Option.map_eq_some'.mp h
      exact ⟨a0, a1, a2, a3, a4, decodeUint64_range v _ x a5 hx⟩
    rw [if_neg c12] at h
    by_cases c13 : t = "owner"
    · rw [if_pos c13] at h
      obtain ⟨x, hx, rfl⟩ := Option.map_eq_some'.mp h
      exact ⟨a0, a1, a2, a3, a4, a5⟩
    rw [if_neg c13] at h
    obtain ⟨x, hx, rfl⟩ := Option.map_eq_some'.mp h
    exact ⟨a0, a1, a2, a3, a4, a5⟩

theorem decodeIndexValue_range (j : JSON) (a b : StickerIndex) (ha : a.InRange)
    (h : decodeIndexValue j a = some b) : b.InRange := by
  cases j with
  | null => cases h; exact ha
  | obj kvs => exact decodeMembers_preserves _ _ decodeIndexField_range kvs a b ha h
  | _ => cases h

theorem decodeIndexPtr_range (j : JSON) (old r : Option StickerIndex)
    (ho : ∀ m, old = some m → m.InRange) (h : decodeIndexPtr j old = some r) :
    ∀ m, r = some m → m.InRange := by
  have hold : (old.getD StickerIndex.zero).InRange := by
    cases old with
    | none => exact zero_index_range
    | some m => exact ho m rfl
  have key : ∀ j', decodeIndexValue j' (old.getD StickerIndex.zero) = none ∨
      ∃ b, decodeIndexValue j' (old.getD StickerIndex.zero) = some b ∧ b.InRange := by
    intro j'
    cases hv : decodeIndexValue j' (old.getD StickerIndex.zero) with
    | none => exact Or.inl rfl
    | some b => exact Or.inr ⟨b, rfl, decodeIndexValue_range j' _ b hold hv⟩
  intro m hm
  subst hm
  cases j with
  | null => cases h
  | bool b =>
    simp only [decodeIndexPtr] at h
    obtain ⟨x, hx, e⟩ := Option.map_eq_some'.mp h
    cases e
    exact decodeIndexValue_range _ _ _ hold hx
  | num l =>
    simp only [decodeIndexPtr] at h
    obtain ⟨x, hx, e⟩ := Option.map_eq_some'.mp h
    cases e
    exact decodeIndexValue_range _ _ _ hold hx
  | str s =>
    simp only [decodeIndexPtr] at h
    obtain ⟨x, hx, e⟩ := Option.map_eq_some'.mp h
    cases e
    exact decodeIndexValue_range _ _ _ hold hx
  | arr xs =>
    simp only [decodeIndexPtr] at h
    obtain ⟨x, hx, e⟩ := Option.map_eq_some'.mp h
    cases e
    exact decodeIndexValue_range _ _ _ hold hx
  | obj kvs =>
    simp only [decodeIndexPtr] at h
    obtain ⟨x, hx, e⟩ := Option.map_eq_some'.mp h
    cases e
    exact decodeIndexValue_range _ _ _ hold hx

theorem decodeResultField_range (k : List Char) (v : JSON) (a b : StickerIndexResult)
    (ha : ∀ m, a.Result = some m → m.InRange) (h : decodeResultField k v a = some b) :
    ∀ m, b.Result = some m → m.InRange := by
  unfold decodeResultField at h
  split at h
  · cases h; exact ha
  · split_ifs at h <;> obtain ⟨x, hx, rfl⟩ := Option.map_eq_some'.mp h
    · exact decodeIndexPtr_range v _ x ha hx
    · exact ha

theorem decodeEnvelope_range (body : String) (r : StickerIndexResult) (m : StickerIndex)
    (h : decodeEnvelope body = some r) (hm : r.Result = some m) : m.InRange := by
  unfold decodeEnvelope at h
  cases hp : parseTop body.toList with
  | none => rw [hp] at h; cases h
  | some j =>
    rw [hp] at h
    have hz : ∀ m, StickerIndexResult.zero.Result = some m → m.InRange := by
      intro m hm
      cases hm
    cases j with
    | null => cases h; cases hm
    | obj kvs =>
      exact decodeMembers_preserves (fun r => ∀ m, r.Result = some m → m.InRange) _
        decodeResultField_range kvs _ r hz h m hm
    | _ => cases h

theorem decodeBody_error_or (res : Response) (x : Bool) (o : Option StickerIndexResult)
    (r : StickerIndexResult)
    (h : (match x, o with
      | true, some r => Except.ok r
      | _, _ =>
        match res.readErr with
        | some e => Except.error e
        | none =>
          if skipSpace res.body.toList = [] then Except.error "EOF"
          else Except.error "invalid JSON for StickerIndexResult") = Except.ok r) :
    o = some r := by
  cases x <;> cases o with
  | none =>
    simp only at h
    cases hre : res.readErr with
    | some e => rw [hre] at h; cases h
    | none =>
      rw [hre] at h
      simp only at h
      split_ifs at h
  | some r' =>
    first
      | (simp only at h
         cases hre : res.readErr with
         | some e => rw [hre] at h; cases h
         | none =>
           rw [hre] at h
           simp only at h
           split_ifs at h)
      | (cases h; rfl)

theorem decodeBody_envelope (res : Response) (r : StickerIndexResult)
    (h : decodeBody res = Except.ok r) : decodeEnvelope res.body = some r := by
  unfold decodeBody at h
  exact decodeBody_error_or res _ _ r h


theorem getStickerIndex_decoded (env : Env) (packID : String) (w w2 : World) (m : StickerIndex)
    (h : GetStickerIndex env packID w = ((some m, none), w2)) :
    ∃ res r, env.roundTrip w.tick (IndexUrl ++ packID) = HttpResult.ok res ∧
      decodeBody res = Except.ok r ∧ r.Result = some m := by
  simp only [GetStickerIndex, GetStickerIndexBody, clientDo, World.emit] at h
  cases hreq : env.newRequest (IndexUrl ++ packID) with
  | some e => simp [hreq] at h
  | none =>
    cases hrt : env.roundTrip w.tick (IndexUrl ++ packID) with
    | error e => simp [hreq, hrt] at h
    | ok res =>
      cases hdec : decodeBody res with
      | error e => simp [hreq, hrt, hdec] at h
      | ok ir =>
        simp [hreq, hrt, hdec] at h
        exact ⟨res, ir, rfl, hdec, h.1⟩

/-- C2. For every manifest `m` that `GetStickerIndex` returns, i.e. the
`result` of a decoded envelope, the text `main` writes to `index.json` (the
encoding of `m` indented by two spaces and ended by a newline) decodes, with
the `StickerIndex` schema, to a manifest equal to `m` in every field, the
order of the stickers and each tag list included. The returned manifest has
its integers within the ranges of their Go types, and the round trip holds
for every manifest that has. -/
theorem index_json_round_trip (env : Env) (packID : String) (w w2 : World) (m : StickerIndex)
    (h : GetStickerIndex env packID w = ((some m, none), w2)) :
    decodeIndex (encodeIndex m) = some m ∧ m.InRange ∧
    ∀ m' : StickerIndex, m'.InRange → decodeIndex (encodeIndex m') = some m' := by
  obtain ⟨res, r, -, hdec, hm⟩ := getStickerIndex_decoded env packID w w2 m h
  have hr := decodeEnvelope_range res.body r m (decodeBody_envelope res r hdec) hm
  exact ⟨decodeIndex_encodeIndex m hr, hr, decodeIndex_encodeIndex⟩

set_option maxRecDepth 100000 in
theorem rich_index :
    GetStickerIndex richEnv "abc123" freshWorld =
      ((some richIndex, none), (GetStickerIndex richEnv "abc123" freshWorld).2) := by
  decide

theorem index_json_round_trip_witness :
    GetStickerIndex richEnv "abc123" freshWorld =
      ((some richIndex, none), (GetStickerIndex richEnv "abc123" freshWorld).2) ∧
    decodeIndex (encodeIndex richIndex) = some richIndex :=
  ⟨rich_index, (index_json_round_trip richEnv "abc123" freshWorld _ richIndex rich_index).1⟩

set_option maxRecDepth 100000 in
theorem rich_index_text :
    encodeIndex { richIndex with Stickers := some [] } =
      "\x7b\n  \"stickers\": [],\n  \"packId\": \"abc123\",\n  \"animated\": false,\n  \"trayIndex\": -3,\n  \"viewCount\": 0,\n  \"authorName\": \"\",\n  \"exportCount\": 0,\n  \"isAnimated\": false,\n  \"shareUrl\": \"\",\n  \"resourceUrlPrefix\": \"https://cdn.example.com/abc123/\",\n  \"resourceVersion\": 0,\n  \"resourceZip\": \"\",\n  \"updated\": 1600000000000,\n  \"owner\": \"\",\n  \"name\": \"Funny\\nCats\"\n\x7d\n" := by
  decide

end StickerLy
